import Mathlib

/-!
# Kingshot: a shallow embedding of `src/main.cpp`

The per-frame simulation of the tower-defence game is embedded as pure functions
on an explicit `Game` state.

Conventions of the embedding:

* C++ `float` is embedded as `ℚ`. The rounding of single precision is modelled by `f32`
  where a `float` sum decides what happens next: the spawn timer of `SpawnEnemies`, the two
  contact timers of the fence loop of `UpdateTargets`, and the purchase costs, which the
  source subtracts from the `int` balance in `float`. Elsewhere the arithmetic is exact.
* C++ `int` is embedded as `ℤ`; signed overflow (undefined behaviour in C++) is not modelled.
  The operator `%` on `int` is truncated remainder, `Int.tmod`.
* `GetFrameTime()` is the explicit argument `dt` of every stage.
* `sqrtf` (used by raymath's `Vector3Distance` and `Vector3Normalize`) is an explicit
  parameter `sqrtf : ℚ → ℚ` of every stage that measures a distance.
* A range-based `for` loop that mutates its elements is a structural recursion over the
  list which threads the mutated game state and rebuilds the list in the same order.
* The rendering resources of `Game` (`moonSoilTexture`, `moonMaterial`, `plane`) play no part
  in the simulation and are left out.
-/

namespace Kingshot

/-! ## Data model (`src/main.cpp`, lines 13-85) -/

/-- Vector with three float components, raylib's `Vector3`. -/
structure Vector3 where
  x : ℚ
  y : ℚ
  z : ℚ
deriving DecidableEq, Repr

/-- An enemy, `struct Target` (lines 13-24). -/
structure Target where
  position : Vector3
  radius : ℚ
  active : Bool
  speed : ℚ
  currentWaypoint : Int
  stopped : Bool
  pathIndex : Int
  lifeTimer : ℚ := 0
  lifeTimeLimit : ℚ := 3
deriving DecidableEq, Repr

/-- A missile, `struct Missile` (lines 26-33). -/
structure Missile where
  position : Vector3
  direction : Vector3
  active : Bool
  speed : ℚ
  lifetime : ℚ
deriving DecidableEq, Repr

/-- A tower, `struct Tower` (lines 35-43). -/
structure Tower where
  startPos : Vector3
  endPos : Vector3
  active : Bool
  turretCooldown : ℚ
  turretRange : ℚ
  upgradeLevel : Int
deriving DecidableEq, Repr

/-- A fence, `struct Fence` (lines 45-54). -/
structure Fence where
  startPos : Vector3
  endPos : Vector3
  fenceActive : Bool
  fenceTimer : ℚ
  fenceContactTimer : ℚ
  fenceContactTimeLimit : ℚ := 3
  fenceInContact : Bool
deriving DecidableEq, Repr

/-- The fields of raylib's `Camera3D` that the program sets (lines 134-138). -/
structure Camera3D where
  position : Vector3
  target : Vector3
  up : Vector3
  fovy : ℚ
  projection : Int
deriving DecidableEq, Repr

/-- The whole game state, `struct Game` (lines 56-85). -/
structure Game where
  camera : Camera3D
  allWaypoints : List (List Vector3)
  targets : List Target
  missiles : List Missile
  towers : List Tower
  fences : List Fence
  waveNumber : Int := 1
  baseEnemiesPerWave : Int := 15
  maxEnemies : Int := 15
  spawnTimer : ℚ := 0
  spawnDelay : ℚ := 1
  enemiesSpawned : Int := 0
  waveDelayTimer : ℚ := 0
  waveActive : Bool := true
  secondPathActive : Bool := false
  coins : Int := 1000
  contactTimer : ℚ := 0
  inContact : Bool := false
  gameOver : Bool := false
  pause : Bool := false
  towerCount : Int := 0
  fenceCount : Int := 0
  canUpgrade : Bool := false
  target : Target
deriving DecidableEq, Repr

/-! ## Vector helpers of raymath used by the program -/

/-- Modelled from the spec: raymath's `Vector3Add` (geometry utility, not under `src/`),
componentwise sum. -/
def Vector3Add (a b : Vector3) : Vector3 := ⟨a.x + b.x, a.y + b.y, a.z + b.z⟩

/-- Modelled from the spec: raymath's `Vector3Subtract` (geometry utility, not under `src/`),
componentwise difference. -/
def Vector3Subtract (a b : Vector3) : Vector3 := ⟨a.x - b.x, a.y - b.y, a.z - b.z⟩

/-- Modelled from the spec: raymath's `Vector3Scale` (geometry utility, not under `src/`),
multiplication of every component by a scalar. -/
def Vector3Scale (v : Vector3) (k : ℚ) : Vector3 := ⟨v.x * k, v.y * k, v.z * k⟩

/-- Modelled from the spec: raymath's `Vector3DotProduct` (geometry utility, not under `src/`). -/
def Vector3DotProduct (a b : Vector3) : ℚ := a.x * b.x + a.y * b.y + a.z * b.z

/-- Modelled from the spec: raymath's `Vector3Distance` (geometry utility, not under `src/`),
the square root of the squared distance; the square root itself is the parameter `sqrtf`. -/
def Vector3Distance (sqrtf : ℚ → ℚ) (a b : Vector3) : ℚ :=
  sqrtf ((b.x - a.x) * (b.x - a.x) + (b.y - a.y) * (b.y - a.y) + (b.z - a.z) * (b.z - a.z))

/-- Modelled from the spec: raymath's `Vector3Normalize` (geometry utility, not under `src/`):
the vector divided by its length, and the vector itself when its length is zero. -/
def Vector3Normalize (sqrtf : ℚ → ℚ) (v : Vector3) : Vector3 :=
  let length := sqrtf (v.x * v.x + v.y * v.y + v.z * v.z)
  if length ≠ 0 then Vector3Scale v (1 / length) else v

/-- Integer square root by Newton iteration, structurally recursive on the fuel. -/
def isqrtIter (n : Nat) : Nat → Nat → Nat
  | 0, guess => guess
  | fuel + 1, guess =>
    let next := (guess + n / guess) / 2
    if next < guess then isqrtIter n fuel next else guess

/-- Integer square root (floor) of a natural number. -/
def isqrt (n : Nat) : Nat := if n ≤ 1 then n else isqrtIter n n n

/-- A computable square root on `ℚ` for evaluating the stages on concrete states:
it is exact on squares of rationals, which is all the concrete states below use. -/
def sqrtExact (q : ℚ) : ℚ := (isqrt q.num.toNat : ℚ) / (isqrt q.den : ℚ)

/-! ## Rounding to `float` (IEEE 754 binary32) -/

/-- Binary logarithm by repeated halving, structurally recursive on the fuel. -/
def log2Fuel : Nat → Nat → Nat
  | 0, _ => 0
  | fuel + 1, n => if n < 2 then 0 else log2Fuel fuel (n / 2) + 1

/-- The position of the leading bit of a positive natural number. -/
def ilog2 (n : Nat) : Nat := log2Fuel n n

/-- The binary exponent of a positive rational `q`: the `e` with `2^e ≤ q < 2^(e+1)`. -/
def binExp (q : ℚ) : Int :=
  let e0 : Int := (ilog2 q.num.toNat : Int) - (ilog2 q.den : Int)
  if (2 : ℚ) ^ e0 ≤ q then e0 else e0 - 1

/-- Rounding of a rational to the nearest integer, a tie going to the even one. -/
def roundEven (q : ℚ) : Int :=
  if q - (Rat.floor q : ℚ) < 1 / 2 then Rat.floor q
  else if 1 / 2 < q - (Rat.floor q : ℚ) then Rat.floor q + 1
  else if Rat.floor q % 2 = 0 then Rat.floor q
  else Rat.floor q + 1

/-- Rounding of a positive rational to the nearest `float` (IEEE 754 binary32: 24 significant
bits, exponents from -126, ties to even). -/
def f32pos (q : ℚ) : ℚ :=
  (roundEven (q / (2 : ℚ) ^ (max (binExp q) (-126) - 23)) : ℚ)
    * (2 : ℚ) ^ (max (binExp q) (-126) - 23)

/-- Rounding of a rational to the nearest `float`, stated with rationals; the overflow to
infinity above the largest `float` is not modelled. It is what `f32` computes (theorem
`f32_eq_spec`). -/
def f32Spec (q : ℚ) : ℚ :=
  if q = 0 then 0 else if 0 < q then f32pos q else -f32pos (-q)

/-- Rounding of the quotient `n / d` of two natural numbers to the nearest natural number, a
tie going to the even one. -/
def roundDiv (n d : Nat) : Nat :=
  if 2 * (n % d) < d then n / d
  else if d < 2 * (n % d) then n / d + 1
  else if (n / d) % 2 = 0 then n / d
  else n / d + 1

/-- The binary exponent of the positive quotient `n / d`, computed on natural numbers. -/
def binExpN (n d : Nat) : Int :=
  if 0 ≤ (ilog2 n : Int) - (ilog2 d : Int) then
    (if d * 2 ^ ((ilog2 n : Int) - (ilog2 d : Int)).toNat ≤ n then
      (ilog2 n : Int) - (ilog2 d : Int)
    else (ilog2 n : Int) - (ilog2 d : Int) - 1)
  else
    (if d ≤ n * 2 ^ (-((ilog2 n : Int) - (ilog2 d : Int))).toNat then
      (ilog2 n : Int) - (ilog2 d : Int)
    else (ilog2 n : Int) - (ilog2 d : Int) - 1)

/-- Rounding of the positive quotient `n / d` to the nearest `float`, computed on natural
numbers. -/
def f32posN (n d : Nat) : ℚ :=
  if 0 ≤ max (binExpN n d) (-126) - 23 then
    ((roundDiv n (d * 2 ^ (max (binExpN n d) (-126) - 23).toNat)
        * 2 ^ (max (binExpN n d) (-126) - 23).toNat : Nat) : ℚ)
  else
    mkRat (roundDiv (n * 2 ^ (-(max (binExpN n d) (-126) - 23)).toNat) d)
      (2 ^ (-(max (binExpN n d) (-126) - 23)).toNat)

/-- Rounding of a rational to the nearest `float` (IEEE 754 binary32: 24 significant bits,
exponents from -126, ties to even), computed on the numerator and the denominator; the
overflow to infinity above the largest `float` is not modelled. -/
def f32 (q : ℚ) : ℚ :=
  if q = 0 then 0
  else if 0 < q then f32posN q.num.toNat q.den
  else -f32posN (-q).num.toNat (-q).den

/-- Conversion of a `float` to `int`: the fractional part is discarded. Values outside the
range of `int` (undefined behaviour in C++) are not modelled. -/
def truncInt (q : ℚ) : Int := if 0 ≤ q then Rat.floor q else -Rat.floor (-q)

/-- The statement `coins -= cost` with the `int` balance `coins` and a `float` cost (lines 221,
244 and 289): the balance is converted to `float`, the difference is computed in `float` and
converted back to `int`. -/
def payCost (coins : Int) (cost : ℚ) : Int := truncInt (f32 (f32 (coins : ℚ) - cost))

/-- The value of a `float` variable that starts at `acc` and to which the frame times `dts`
are added one after the other, oldest first. -/
def floatSum (acc : ℚ) (dts : List ℚ) : ℚ := dts.foldl (fun a d => f32 (a + d)) acc

/-- The position of the base (the player), `(Vector3){0.0f, 0.1f, 0.0f}`. -/
def basePos : Vector3 := ⟨0, 1 / 10, 0⟩

/-- Element `i` of a `std::vector` indexed by an `int`; an index out of range is undefined
behaviour in C++ and yields the default `d` here. -/
def vecAt {α : Type} (l : List α) (i : Int) (d : α) : α :=
  if 0 ≤ i then l.getD i.toNat d else d

/-- The waypoint `game.allWaypoints[path][idx]`. -/
def waypointAt (allWaypoints : List (List Vector3)) (path idx : Int) : Vector3 :=
  vecAt (vecAt allWaypoints path []) idx ⟨0, 0, 0⟩

/-- The comparison `i < v.size()` of an `int` with a `size_t`: the `int` is converted to
unsigned, so a negative `i` is never below the size. -/
def ltSize (i : Int) (n : Nat) : Bool := decide (0 ≤ i) && decide (i < (n : Int))

/-! ## Wave controller: `UpdateWave` (lines 294-335) -/

/-- Lines 298-302 of `UpdateWave`: the one-time activation of the second path. -/
def activateSecondPath (game : Game) : Game :=
  if game.waveNumber ≥ 10 ∧ game.secondPathActive = false then
    { game with
      secondPathActive := true
      maxEnemies := game.baseEnemiesPerWave + (game.waveNumber - 1) * 5 + 10 }
  else game

/-- Lines 304-308 of `UpdateWave`: the end of the active wave. -/
def endWave (game : Game) : Game :=
  if game.waveActive = true ∧ game.targets.isEmpty = true ∧ game.enemiesSpawned ≥ game.maxEnemies then
    { game with waveActive := false, waveDelayTimer := 0 }
  else game

/-- Lines 315-332 of `UpdateWave`: the start of the next wave. -/
def startNextWave (game : Game) : Game :=
  let waveNumber := game.waveNumber + 1
  let spawnDelay := game.spawnDelay - 1 / 10
  let spawnDelay := if spawnDelay ≤ 3 / 10 then 3 / 10 else spawnDelay
  let speed := game.target.speed + 2 / 10
  let speed := if speed ≥ 7 then 7 else speed
  let maxEnemies := game.baseEnemiesPerWave + (waveNumber - 1) * 5
  let maxEnemies := if game.secondPathActive = true then maxEnemies + 10 else maxEnemies
  { game with
    waveNumber := waveNumber
    spawnDelay := spawnDelay
    target := { game.target with speed := speed }
    maxEnemies := maxEnemies
    enemiesSpawned := 0
    waveActive := true }

/-- Lines 310-334 of `UpdateWave`: the countdown between two waves. -/
def waveCountdown (game : Game) (dt : ℚ) : Game :=
  let waveDelay : ℚ := 5
  if game.waveActive = false then
    let game := { game with waveDelayTimer := game.waveDelayTimer + dt }
    if game.waveDelayTimer ≥ waveDelay then startNextWave game else game
  else game

/-- `UpdateWave` (lines 294-335): its three consecutive `if` blocks. -/
def UpdateWave (game : Game) (dt : ℚ) : Game :=
  waveCountdown (endWave (activateSecondPath game)) dt

/-! ## Spawner: `SpawnEnemies` (lines 337-369) -/

/-- `SpawnEnemies` (lines 337-369). The timer is a `float`: the sum `spawnTimer + dt` is
rounded before it is stored and compared. `spawnDelay` is a `float` as well; the model keeps
it exact (`UpdateWave`), so the comparison reads it rounded, which changes nothing for a value
that a `float` can hold. -/
def SpawnEnemies (game : Game) (dt : ℚ) : Game :=
  if game.waveActive = false ∨ game.enemiesSpawned ≥ game.maxEnemies then game
  else
    let game := { game with spawnTimer := f32 (game.spawnTimer + dt) }
    if game.spawnTimer ≥ f32 game.spawnDelay then
      let target : Target :=
        { game.target with
          radius := 1 / 2
          active := true
          speed := 3
          currentWaypoint := 0
          stopped := false
          lifeTimer := 0 }
      let target : Target :=
        if game.secondPathActive = true then
          let target := { target with pathIndex := Int.tmod game.enemiesSpawned 2 }
          { target with position := waypointAt game.allWaypoints target.pathIndex 0 }
        else
          let target := { target with pathIndex := 0 }
          { target with position := waypointAt game.allWaypoints 0 0 }
      { game with
        target := target
        targets := game.targets ++ [target]
        enemiesSpawned := game.enemiesSpawned + 1
        spawnTimer := 0 }
    else game

/-! ## Input handling: `HandleInput` (lines 153-292) -/

/-- What the input collaborator delivers in one frame: the keys that `IsKeyPressed`
reports and the camera pose that `UpdateCamera` leaves in `game.camera`. -/
structure Input where
  camera : Camera3D
  keyP : Bool := false
  keySpace : Bool := false
  keyT : Bool := false
  keyF : Bool := false
  keyR : Bool := false
deriving DecidableEq, Repr

/-- Lines 173-183 of `HandleInput`: the shoot action (`KEY_SPACE` pressed). -/
def shoot (sqrtf : ℚ → ℚ) (game : Game) : Game :=
  let missileSpeed : ℚ := 40
  let missileLifetime : ℚ := 2
  let forward := Vector3Subtract game.camera.target game.camera.position
  let missile : Missile :=
    { position := game.camera.position
      direction := Vector3Normalize sqrtf forward
      active := true
      speed := missileSpeed
      lifetime := missileLifetime }
  { game with missiles := game.missiles ++ [missile] }

/-- Lines 189-219 of `HandleInput`: the tower that is built when `towerCount` towers exist. -/
def newTower (towerCount : Int) : Tower :=
  let playerPos : Vector3 := ⟨0, 1 / 10, 0⟩
  let baseDistance : ℚ := 3
  let distanceIncrease : ℚ := 3 / 2 * ((towerCount : ℚ) / 4)
  let distance := baseDistance + distanceIncrease
  let towerLength : ℚ := 4
  let positionIndex := Int.tmod towerCount 4
  let startEnd : Vector3 × Vector3 :=
    if positionIndex = 0 then
      (⟨-distance, playerPos.y, -towerLength / 2⟩, ⟨-distance, playerPos.y, towerLength / 2⟩)
    else if positionIndex = 1 then
      (⟨distance, playerPos.y, -towerLength / 2⟩, ⟨distance, playerPos.y, towerLength / 2⟩)
    else if positionIndex = 2 then
      (⟨-towerLength / 2, playerPos.y, distance⟩, ⟨towerLength / 2, playerPos.y, distance⟩)
    else
      (⟨-towerLength / 2, playerPos.y, -distance⟩, ⟨towerLength / 2, playerPos.y, -distance⟩)
  { startPos := startEnd.1
    endPos := startEnd.2
    active := true
    turretCooldown := 0
    turretRange := 7
    upgradeLevel := 0 }

/-- Lines 241-243 of `HandleInput`: one upgrade applied to a tower. -/
def upgradeTower (tower : Tower) : Tower :=
  { tower with
    turretCooldown := max (1 / 2) (tower.turretCooldown - 1 / 2)
    turretRange := tower.turretRange + 2
    upgradeLevel := tower.upgradeLevel + 1 }

/-- Lines 237-247 of `HandleInput`: the loop that upgrades the first tower below the maximal
level, pays for it and stops. It returns the towers and the coins. -/
def upgradeLoop : List Tower → Int → List Tower × Int
  | [], coins => ([], coins)
  | tower :: rest, coins =>
    if tower.upgradeLevel < 3 then (upgradeTower tower :: rest, payCost coins 50)
    else ((upgradeLoop rest coins).1.cons tower, (upgradeLoop rest coins).2)

/-- Lines 185-250 of `HandleInput`: the build-or-upgrade-tower action (`KEY_T` pressed).
`towerCost` is the float `50.0f`. The test `game.coins >= towerCost` compares the balance
converted to `float` with 50.0, which is the test `coins >= 50` on the integer (lemma
`coversCost_iff`); the subtraction `game.coins -= towerCost` is `payCost`. -/
def buildOrUpgradeTower (game : Game) : Game :=
  if game.coins ≥ 50 then
    if game.towerCount < 4 then
      { game with
        towers := game.towers ++ [newTower game.towerCount]
        coins := payCost game.coins 50
        towerCount := game.towerCount + 1 }
    else
      let game := { game with canUpgrade := false }
      let game :=
        if game.towers.any (fun tower => decide (tower.upgradeLevel < 3)) then
          { game with canUpgrade := true }
        else game
      if game.canUpgrade = true then
        { game with
          towers := (upgradeLoop game.towers game.coins).1
          coins := (upgradeLoop game.towers game.coins).2 }
      else game
  else game

/-- Lines 255-286 of `HandleInput`: the fence that is built when `fenceCount` fences are
counted. The field `fenceTimer` is left uninitialised by the source and never read; it is 0
here. -/
def newFence (towerCount fenceCount : Int) : Fence :=
  let baseDistance : ℚ := 3
  let distanceIncrease : ℚ := 3 / 2 * ((towerCount : ℚ) / 4)
  let distance := baseDistance + distanceIncrease
  let towerLength : ℚ := 4
  let positionIndex := Int.tmod fenceCount 4
  let startEnd : Vector3 × Vector3 :=
    if positionIndex = 0 then
      (⟨-distance / (3 / 2), 1 / 10, -towerLength / 2⟩, ⟨-distance / (3 / 2), 1 / 10, towerLength / 2⟩)
    else if positionIndex = 1 then
      (⟨distance / (13 / 10), 1 / 10, -towerLength / 2⟩, ⟨distance / (13 / 10), 1 / 10, towerLength / 2⟩)
    else if positionIndex = 2 then
      (⟨-towerLength / 2, 1 / 10, distance - 8 / 10⟩, ⟨towerLength / 2, 1 / 10, distance - 8 / 10⟩)
    else
      (⟨-towerLength / 2, 1 / 10, -distance + 4 / 10⟩, ⟨towerLength / 2, 1 / 10, -distance + 4 / 10⟩)
  { startPos := startEnd.1
    endPos := startEnd.2
    fenceActive := true
    fenceTimer := 0
    fenceContactTimer := 0
    fenceContactTimeLimit := 3
    fenceInContact := false }

/-- Lines 252-291 of `HandleInput`: the build-fence action (`KEY_F` pressed). `fenceCost` is
the float `20.0f`: the test on the balance is `coins >= 20` on the integer (lemma
`coversCost_iff`) and the subtraction is `payCost`. -/
def buildFence (game : Game) : Game :=
  if game.coins ≥ 20 ∧ game.towerCount = 4 ∧ game.fenceCount < 4 then
    { game with
      fences := game.fences ++ [newFence game.towerCount game.fenceCount]
      coins := payCost game.coins 20
      fenceCount := game.fenceCount + 1 }
  else game

/-- Lines 163-168 of `HandleInput`: the camera update and the pause toggle. -/
def pauseToggle (game : Game) (input : Input) : Game :=
  let game := { game with camera := input.camera }
  if input.keyP = true ∧ game.gameOver = false then { game with pause := !game.pause } else game

/-- Lines 173-291 of `HandleInput`: the three action blocks, each behind its key. -/
def actions (sqrtf : ℚ → ℚ) (game : Game) (input : Input) : Game :=
  let game := if input.keySpace = true then shoot sqrtf game else game
  let game := if input.keyT = true then buildOrUpgradeTower game else game
  if input.keyF = true then buildFence game else game

/-- `HandleInput` (lines 153-292). -/
def HandleInput (sqrtf : ℚ → ℚ) (game : Game) (input : Input) : Game :=
  let game := pauseToggle game input
  if game.pause = true ∨ game.gameOver = true then game else actions sqrtf game input

/-! ## Enemy simulation: `UpdateTargets` (lines 371-467) -/

/-- The locals and fields that the inner fence loop of `UpdateTargets` (lines 385-414)
mutates while it runs over the fences: the enemy, the coins and `inContactWithFence`. -/
structure FenceScan where
  target : Target
  coins : Int
  inContactWithFence : Bool
deriving DecidableEq, Repr

/-- The test of line 396: the enemy is closer to the fence segment than its radius plus half
the fence width. -/
def touchesFence (sqrtf : ℚ → ℚ) (target : Target) (fence : Fence) : Bool :=
  let fenceDir := Vector3Subtract fence.endPos fence.startPos
  let toTarget := Vector3Subtract target.position fence.startPos
  let t := Vector3DotProduct toTarget fenceDir / Vector3DotProduct fenceDir fenceDir
  let t := max 0 (min 1 t)
  let closestPoint := Vector3Add fence.startPos (Vector3Scale fenceDir t)
  let fenceWidth : ℚ := 2 / 10
  let distanceToFence := Vector3Distance sqrtf target.position closestPoint
  decide (distanceToFence < target.radius + fenceWidth / 2)

/-- Lines 387-413 of `UpdateTargets`: the body of the inner loop for one fence. The two
contact timers are `float`s: each sum is rounded before it is stored and compared. -/
def fenceContact (sqrtf : ℚ → ℚ) (dt : ℚ) (st : FenceScan) (fence : Fence) : FenceScan × Fence :=
  if fence.fenceActive = true then
    if touchesFence sqrtf st.target fence = true then
      let fence := { fence with fenceInContact := true }
      let fence := { fence with fenceContactTimer := f32 (fence.fenceContactTimer + dt) }
      let target := { st.target with stopped := true }
      let target := { target with lifeTimer := f32 (target.lifeTimer + dt) }
      let st : FenceScan := { st with target := target, inContactWithFence := true }
      let st : FenceScan :=
        if st.target.lifeTimer ≥ st.target.lifeTimeLimit then
          { st with target := { st.target with active := false }, coins := st.coins + 1 }
        else st
      let fence :=
        if fence.fenceContactTimer ≥ fence.fenceContactTimeLimit then
          { fence with fenceActive := false }
        else fence
      (st, fence)
    else (st, fence)
  else (st, fence)

/-- Lines 385-414 of `UpdateTargets`: the inner loop over all fences, in storage order. -/
def scanFences (sqrtf : ℚ → ℚ) (dt : ℚ) : FenceScan → List Fence → FenceScan × List Fence
  | st, [] => (st, [])
  | st, fence :: rest =>
    ((scanFences sqrtf dt (fenceContact sqrtf dt st fence).1 rest).1,
      (fenceContact sqrtf dt st fence).2 :: (scanFences sqrtf dt (fenceContact sqrtf dt st fence).1 rest).2)

/-- Lines 421-424 of `UpdateTargets`: the reset of a fence that is active and whose
`fenceInContact` flag is not set. -/
def resetStaleFence (fence : Fence) : Fence :=
  if fence.fenceActive = true ∧ fence.fenceInContact = false then
    { fence with fenceContactTimer := 0 }
  else fence

/-- Lines 428-437 of `UpdateTargets`: the movement of an enemy towards its next waypoint. -/
def moveTarget (sqrtf : ℚ → ℚ) (dt : ℚ) (allWaypoints : List (List Vector3)) (target : Target) :
    Target :=
  if ltSize target.currentWaypoint (vecAt allWaypoints target.pathIndex []).length = true
      ∧ target.stopped = false then
    let waypoint := waypointAt allWaypoints target.pathIndex target.currentWaypoint
    let direction := Vector3Normalize sqrtf (Vector3Subtract waypoint target.position)
    let target :=
      { target with
        position := Vector3Add target.position (Vector3Scale direction (target.speed * dt)) }
    if Vector3Distance sqrtf target.position waypoint < 1 / 2 then
      { target with currentWaypoint := target.currentWaypoint + 1 }
    else target
  else target

/-- The test of line 447: the enemy is within its radius plus 0.25 of the base. -/
def touchesBase (sqrtf : ℚ → ℚ) (target : Target) : Bool :=
  decide (Vector3Distance sqrtf target.position basePos < target.radius + 1 / 4)

/-- The test of lines 439-440: the enemy has no waypoint left and the global contact timer
has reached its limit. -/
def pathEndReached (game : Game) (target : Target) : Bool :=
  (!ltSize target.currentWaypoint (vecAt game.allWaypoints target.pathIndex []).length)
    && decide (game.contactTimer ≥ 2)

/-- Lines 382-426 of `UpdateTargets`: the fence phase for one active enemy, that is the inner
loop over the fences and the reset that follows it when no fence was touched. -/
def fencePhase (sqrtf : ℚ → ℚ) (dt : ℚ) (game : Game) (target : Target) : Game × Target :=
  let target := { target with stopped := false }
  let scan := scanFences sqrtf dt ⟨target, game.coins, false⟩ game.fences
  let game := { game with fences := scan.2, coins := scan.1.coins }
  let target := scan.1.target
  if scan.1.inContactWithFence = false then
    ({ game with fences := game.fences.map resetStaleFence }, { target with lifeTimer := 0 })
  else (game, target)

/-- Lines 380-451 of `UpdateTargets`: the body of the outer loop for one enemy. It returns the
game (fences, coins, `gameOver`, `inContact`, `contactTimer` updated) and the enemy. -/
def updateTarget (sqrtf : ℚ → ℚ) (dt : ℚ) (game : Game) (target : Target) : Game × Target :=
  if target.active = false then (game, target)
  else
    let phase := fencePhase sqrtf dt game target
    let game := phase.1
    let target := moveTarget sqrtf dt game.allWaypoints phase.2
    let ended := pathEndReached game target
    let target := if ended = true then { target with active := false } else target
    let game := if ended = true then { game with gameOver := true } else game
    let game :=
      if touchesBase sqrtf target = true then
        { game with inContact := true, contactTimer := game.contactTimer + dt }
      else game
    (game, target)

/-- Lines 378-452 of `UpdateTargets`: the outer loop over all enemies, in storage order. -/
def targetsLoop (sqrtf : ℚ → ℚ) (dt : ℚ) : Game → List Target → Game × List Target
  | game, [] => (game, [])
  | game, target :: rest =>
    ((targetsLoop sqrtf dt (updateTarget sqrtf dt game target).1 rest).1,
      (updateTarget sqrtf dt game target).2 :: (targetsLoop sqrtf dt (updateTarget sqrtf dt game target).1 rest).2)

/-- Lines 374-452 of `UpdateTargets`: `inContact` is cleared and every enemy is processed. -/
def targetsPass (sqrtf : ℚ → ℚ) (game : Game) (dt : ℚ) : Game :=
  let game := { game with inContact := false }
  let loop := targetsLoop sqrtf dt game game.targets
  { loop.1 with targets := loop.2 }

/-- Lines 454-466 of `UpdateTargets`: the global base-contact timer after the loop. -/
def baseContactStep (game : Game) (dt : ℚ) : Game :=
  let contactTimeLimit : ℚ := 2
  if game.inContact = true then
    let game := { game with contactTimer := game.contactTimer + dt }
    if game.contactTimer ≥ contactTimeLimit then
      { game with gameOver := true, contactTimer := contactTimeLimit }
    else game
  else { game with contactTimer := 0 }

/-- `UpdateTargets` (lines 371-467). -/
def UpdateTargets (sqrtf : ℚ → ℚ) (game : Game) (dt : ℚ) : Game :=
  baseContactStep (targetsPass sqrtf game dt) dt

/-! ## Fence attrition: `UpdateFences` (lines 469-478) -/

/-- Lines 473-476 of `UpdateFences`: the body of the loop for one fence. -/
def expireFence (fence : Fence) : Fence :=
  if fence.fenceActive = true ∧ fence.fenceContactTimer ≥ fence.fenceContactTimeLimit then
    { fence with fenceActive := false }
  else fence

/-- `UpdateFences` (lines 469-478). -/
def UpdateFences (game : Game) : Game :=
  { game with fences := game.fences.map expireFence }

/-! ## Tower targeting and firing: `UpdateTowers` (lines 480-524) -/

/-- Lines 499-509 of `UpdateTowers`: the scan for the nearest active enemy, carrying
`nearestDist` and `nearestTarget` (the null pointer is `none`). -/
def nearestScan (sqrtf : ℚ → ℚ) (turretPos : Vector3) : List Target → ℚ → Option Target → ℚ × Option Target
  | [], nearestDist, nearestTarget => (nearestDist, nearestTarget)
  | target :: rest, nearestDist, nearestTarget =>
    if target.active = false then nearestScan sqrtf turretPos rest nearestDist nearestTarget
    else
      let dist := Vector3Distance sqrtf turretPos target.position
      if dist < nearestDist then nearestScan sqrtf turretPos rest dist (some target)
      else nearestScan sqrtf turretPos rest nearestDist nearestTarget

/-- Lines 495-519 of `UpdateTowers`: one turret of a tower fires at the nearest enemy in range;
`endpoint` is `tower.startPos` for turret 0 and `tower.endPos` for turret 1. -/
def fireTurret (sqrtf : ℚ → ℚ) (targets : List Target) (tower : Tower) (endpoint : Vector3)
    (missiles : List Missile) : List Missile :=
  let missileSpeed : ℚ := 40
  let missileLifetime : ℚ := 2
  let turretPos : Vector3 := { endpoint with y := endpoint.y + 1 }
  match (nearestScan sqrtf turretPos targets tower.turretRange none).2 with
  | some nearestTarget =>
    missiles ++
      [{ position := turretPos
         direction := Vector3Normalize sqrtf (Vector3Subtract nearestTarget.position turretPos)
         active := true
         speed := missileSpeed
         lifetime := missileLifetime }]
  | none => missiles

/-- Lines 488-522 of `UpdateTowers`: the body of the loop for one tower. It returns the
missiles and the tower. -/
def updateTower (sqrtf : ℚ → ℚ) (dt : ℚ) (targets : List Target) (missiles : List Missile)
    (tower : Tower) : List Missile × Tower :=
  let turretCooldownMax : ℚ := 7 / 2
  if tower.active = false then (missiles, tower)
  else
    let tower := { tower with turretCooldown := tower.turretCooldown - dt }
    if tower.turretCooldown ≤ 0 then
      let missiles := fireTurret sqrtf targets tower tower.startPos missiles
      let missiles := fireTurret sqrtf targets tower tower.endPos missiles
      (missiles, { tower with turretCooldown := turretCooldownMax - (tower.upgradeLevel : ℚ) * (1 / 2) })
    else (missiles, tower)

/-- Lines 486-523 of `UpdateTowers`: the loop over all towers, in storage order. -/
def towersLoop (sqrtf : ℚ → ℚ) (dt : ℚ) (targets : List Target) :
    List Missile → List Tower → List Missile × List Tower
  | missiles, [] => (missiles, [])
  | missiles, tower :: rest =>
    ((towersLoop sqrtf dt targets (updateTower sqrtf dt targets missiles tower).1 rest).1,
      (updateTower sqrtf dt targets missiles tower).2 ::
        (towersLoop sqrtf dt targets (updateTower sqrtf dt targets missiles tower).1 rest).2)

/-- `UpdateTowers` (lines 480-524). -/
def UpdateTowers (sqrtf : ℚ → ℚ) (game : Game) (dt : ℚ) : Game :=
  let loop := towersLoop sqrtf dt game.targets game.missiles game.towers
  { game with missiles := loop.1, towers := loop.2 }

/-! ## Missile simulation: `UpdateMissiles` (lines 526-566) -/

/-- Lines 535-547 of `UpdateMissiles`: the scan for the first active enemy that the missile at
`missilePos` hits. It returns the enemies with that enemy deactivated, or `none` when the
loop ends without a hit. -/
def hitScan (sqrtf : ℚ → ℚ) (missilePos : Vector3) : List Target → Option (List Target)
  | [] => none
  | target :: rest =>
    if target.active = false then (hitScan sqrtf missilePos rest).map (List.cons target)
    else if Vector3Distance sqrtf missilePos target.position < target.radius + 1 / 10 then
      some ({ target with active := false } :: rest)
    else (hitScan sqrtf missilePos rest).map (List.cons target)

/-- The enemies and coins that the missile loop of `UpdateMissiles` mutates. -/
structure MissileScan where
  targets : List Target
  coins : Int
deriving DecidableEq, Repr

/-- Lines 530-551 of `UpdateMissiles`: the body of the loop for one missile. -/
def updateMissile (sqrtf : ℚ → ℚ) (dt : ℚ) (st : MissileScan) (missile : Missile) :
    MissileScan × Missile :=
  if missile.active = false then (st, missile)
  else
    let missile :=
      { missile with
        position := Vector3Add missile.position (Vector3Scale missile.direction (missile.speed * dt)) }
    let missile := { missile with lifetime := missile.lifetime - dt }
    let hit := hitScan sqrtf missile.position st.targets
    let st : MissileScan :=
      match hit with
      | some targets => { targets := targets, coins := st.coins + 1 }
      | none => st
    let missile := if hit.isSome = true then { missile with active := false } else missile
    let missile := if missile.lifetime ≤ 0 then { missile with active := false } else missile
    (st, missile)

/-- Lines 528-552 of `UpdateMissiles`: the loop over all missiles, in storage order. -/
def missilesLoop (sqrtf : ℚ → ℚ) (dt : ℚ) : MissileScan → List Missile → MissileScan × List Missile
  | st, [] => (st, [])
  | st, missile :: rest =>
    ((missilesLoop sqrtf dt (updateMissile sqrtf dt st missile).1 rest).1,
      (updateMissile sqrtf dt st missile).2 :: (missilesLoop sqrtf dt (updateMissile sqrtf dt st missile).1 rest).2)

/-- Lines 528-552 of `UpdateMissiles`: the collision step, before the compaction. -/
def missileCollisions (sqrtf : ℚ → ℚ) (game : Game) (dt : ℚ) : Game :=
  let loop := missilesLoop sqrtf dt ⟨game.targets, game.coins⟩ game.missiles
  { game with missiles := loop.2, targets := loop.1.targets, coins := loop.1.coins }

/-- Lines 554-565 of `UpdateMissiles`: the three `erase(remove_if(...))` calls and the fence
count; `oldFenceCount - newFenceCount` is a difference of sizes. -/
def compact (game : Game) : Game :=
  let oldFenceCount := game.fences.length
  let game := { game with missiles := game.missiles.filter (fun m => m.active) }
  let game := { game with targets := game.targets.filter (fun t => t.active) }
  let game := { game with fences := game.fences.filter (fun f => f.fenceActive) }
  let newFenceCount := game.fences.length
  { game with fenceCount := game.fenceCount - ((oldFenceCount - newFenceCount : Nat) : Int) }

/-- `UpdateMissiles` (lines 526-566). -/
def UpdateMissiles (sqrtf : ℚ → ℚ) (game : Game) (dt : ℚ) : Game :=
  compact (missileCollisions sqrtf game dt)

/-! ## The frame: `UpdateGame` (lines 568-579), `ResetGame` (lines 743-765), `main` -/

/-- `UpdateGame` (lines 568-579). -/
def UpdateGame (sqrtf : ℚ → ℚ) (game : Game) (dt : ℚ) : Game :=
  if game.pause = true ∨ game.gameOver = true then game
  else
    let game := UpdateWave game dt
    let game := SpawnEnemies game dt
    let game := UpdateTargets sqrtf game dt
    let game := UpdateFences game
    let game := UpdateTowers sqrtf game dt
    UpdateMissiles sqrtf game dt

/-- `ResetGame` (lines 743-765). -/
def ResetGame (game : Game) : Game :=
  { game with
    coins := 1000
    gameOver := false
    pause := false
    contactTimer := 0
    inContact := false
    spawnTimer := 0
    enemiesSpawned := 0
    waveNumber := 1
    maxEnemies := game.baseEnemiesPerWave
    waveActive := true
    waveDelayTimer := 0
    secondPathActive := false
    targets := []
    missiles := []
    towers := []
    fences := []
    towerCount := 0
    fenceCount := 0
    target := { game.target with speed := 3 }
    spawnDelay := 1 }

/-- The state of the global `game` after `InitializeGame` (lines 130-151): the default member
initialisers of `struct Game` on zero-initialised storage, the camera and the two paths. -/
def initialGame : Game :=
  { camera := ⟨⟨0, 5, -10⟩, ⟨0, 0, 0⟩, ⟨0, 1, 0⟩, 60, 0⟩
    allWaypoints :=
      [[⟨-15, 1 / 10, -10⟩, ⟨-5, 1 / 10, 0⟩, ⟨0, 1 / 10, 0⟩],
       [⟨15, 1 / 10, -10⟩, ⟨5, 1 / 10, 0⟩, ⟨0, 1 / 10, 0⟩]]
    targets := []
    missiles := []
    towers := []
    fences := []
    target :=
      { position := ⟨0, 0, 0⟩, radius := 0, active := false, speed := 0, currentWaypoint := 0,
        stopped := false, pathIndex := 0 } }

/-- One iteration of the loop of `main` (lines 111-121), rendering apart. -/
def frame (sqrtf : ℚ → ℚ) (game : Game) (input : Input) (dt : ℚ) : Game :=
  let game := HandleInput sqrtf game input
  let game := UpdateGame sqrtf game dt
  if game.gameOver = true ∧ input.keyR = true then ResetGame game else game

/-! ## Runs of the program -/

/-- What can happen to the game between two observations: `HandleInput` with some input,
`UpdateGame` with some frame time, or `ResetGame`. -/
inductive Event where
  | input (i : Input)
  | update (dt : ℚ)
  | reset
deriving DecidableEq, Repr

/-- The effect of one event on the game. -/
def step (sqrtf : ℚ → ℚ) (game : Game) : Event → Game
  | Event.input i => HandleInput sqrtf game i
  | Event.update dt => UpdateGame sqrtf game dt
  | Event.reset => ResetGame game

/-- The state after a sequence of events, oldest first. -/
def run (sqrtf : ℚ → ℚ) (game : Game) (events : List Event) : Game :=
  events.foldl (step sqrtf) game

/-- The input in which no key is pressed and the camera is `camera`. -/
def noKeys (camera : Camera3D) : Input := { camera := camera }

/-- Every tower of the list has an upgrade level of at most 3. -/
def LevelsBounded (towers : List Tower) : Prop := ∀ tower ∈ towers, tower.upgradeLevel ≤ 3

/-! ## Concrete states used by the closed theorems -/

/-- The state at the end of wave 1: the quota of 15 is spawned and no enemy is left. -/
def waveOneDone : Game := { initialGame with enemiesSpawned := 15 }

/-- A state of wave 10 whose quota of 60 is spawned and whose enemies are all gone, with the
second-path activation still pending. -/
def waveTenQuotaSpawned : Game :=
  { initialGame with waveNumber := 10, maxEnemies := 60, enemiesSpawned := 60 }

/-- The state right after `ResetGame` at the end of wave 1: quota spawned, no enemy left. -/
def resetWaveOneDone : Game := { ResetGame initialGame with enemiesSpawned := 15 }

/-- An enemy of path 1 standing between the last two waypoints, held at the fence slot 1. -/
def heldEnemy : Target :=
  { position := ⟨4, 1 / 10, 0⟩, radius := 1 / 2, active := true, speed := 3, currentWaypoint := 2,
    stopped := true, pathIndex := 1, lifeTimer := 149 / 50, lifeTimeLimit := 3 }

/-- A fence at slot 1 as `HandleInput` builds it with four towers, after 1.49 s of contact. -/
def slotOneFence : Fence :=
  { newFence 4 1 with fenceInContact := true, fenceContactTimer := 149 / 100 }

/-- A state of wave 10 in which two fences stand at slot 1 and hold one enemy of path 1. -/
def doubleFenceState : Game :=
  { initialGame with
    waveNumber := 10
    secondPathActive := true
    maxEnemies := 70
    enemiesSpawned := 2
    towerCount := 4
    fenceCount := 2
    fences := [slotOneFence, slotOneFence]
    targets := [heldEnemy] }

/-- An enemy of path 0 that has passed its last waypoint and stands 0.4 away from the base. -/
def enemyAtBase : Target :=
  { position := ⟨-2 / 5, 1 / 10, 0⟩, radius := 1 / 2, active := true, speed := 3,
    currentWaypoint := 3, stopped := false, pathIndex := 0 }

/-- A state in which a single enemy touches the base and the contact timer is still 0. -/
def baseContactState : Game :=
  { initialGame with enemiesSpawned := 1, targets := [enemyAtBase] }

/-- A fence at slot 0 that an earlier enemy touched for one second: its `fenceInContact` flag
is set and its contact timer is 1. -/
def staleFence : Fence :=
  { newFence 4 0 with fenceInContact := true, fenceContactTimer := 1 }

/-- An enemy of path 0 at its second waypoint, two units away from the fence at slot 0. -/
def farEnemy : Target :=
  { position := ⟨-5, 1 / 10, 0⟩, radius := 1 / 2, active := true, speed := 3,
    currentWaypoint := 2, stopped := false, pathIndex := 0 }

/-- A state with the stale fence and one enemy that is not in contact with it. -/
def staleFenceState : Game :=
  { initialGame with
    enemiesSpawned := 2
    towerCount := 4
    fenceCount := 1
    fences := [staleFence]
    targets := [farEnemy] }

/-- Scenario E: the state after `InitializeGame` with 40 coins left. -/
def fortyCoins : Game := { initialGame with coins := 40 }

/-- A tower at slot 0 that has been upgraded three times. -/
def maxedTower : Tower := upgradeTower (upgradeTower (upgradeTower (newTower 0)))

/-- A state with four towers of which the first is at the maximal level. -/
def fourTowers : Game :=
  { initialGame with
    coins := 650
    towerCount := 4
    towers := [maxedTower, newTower 1, newTower 2, newTower 3] }

/-- The state `fourTowers` with a balance of `2^24 + 1` coins, the smallest positive balance
that a `float` cannot hold. -/
def richTowers : Game := { fourTowers with coins := 16777217 }

/-- A paused state with four towers, 650 coins and nothing else on the field. -/
def pausedGame : Game := { fourTowers with pause := true }

/-- The input in which the three action keys are pressed together and `KEY_P` is not. -/
def allActionKeys (camera : Camera3D) : Input :=
  { camera := camera, keySpace := true, keyT := true, keyF := true }

/-- The input in which `KEY_P` and the three action keys are pressed together. -/
def pauseAndActionKeys (camera : Camera3D) : Input :=
  { camera := camera, keyP := true, keySpace := true, keyT := true, keyF := true }

/-- The state of a run in which the game has just been paused: from the state after
`InitializeGame`, one call of `HandleInput` with `KEY_P` pressed. -/
def pausedAtStart : Game :=
  run sqrtExact initialGame [Event.input { camera := initialGame.camera, keyP := true }]

/-- The spawner run over consecutive frames with the frame times `dts`, oldest first. -/
def spawnFrames (game : Game) (dts : List ℚ) : Game :=
  dts.foldl SpawnEnemies game

/-- Scenario B: an enemy at distance 8.0 from the first turret of the tower at slot 0 (the
turret stands one unit above the tower's start point). -/
def outOfRangeEnemy : Target :=
  { position := ⟨-11, 11 / 10, -2⟩, radius := 1 / 2, active := true, speed := 3,
    currentWaypoint := 1, stopped := false, pathIndex := 0 }

/-- An enemy at distance 3.0 from the first turret of the tower at slot 0 and at distance 5.0
from its second turret. -/
def inRangeEnemy : Target :=
  { position := ⟨-6, 11 / 10, -2⟩, radius := 1 / 2, active := true, speed := 3,
    currentWaypoint := 1, stopped := false, pathIndex := 0 }

/-- A state with the tower of slot 0, its cooldown at 0, one enemy in range of both turrets
and one enemy out of range. -/
def towerFrame : Game :=
  { initialGame with
    coins := 950
    towerCount := 1
    towers := [newTower 0]
    enemiesSpawned := 2
    targets := [outOfRangeEnemy, inRangeEnemy] }

/-- The number of active enemies of a collection. -/
def activeTargets (targets : List Target) : Nat := (targets.filter (fun t => t.active)).length

/-- The number of active missiles of a collection. -/
def activeMissiles (missiles : List Missile) : Nat := (missiles.filter (fun m => m.active)).length

/-- A missile as `updateMissile` advances it before the collision test (lines 532-534). -/
def advanceMissile (dt : ℚ) (missile : Missile) : Missile :=
  { missile with
    position := Vector3Add missile.position (Vector3Scale missile.direction (missile.speed * dt))
    lifetime := missile.lifetime - dt }

/-- An active enemy after one frame of contact with a fence: it is stopped, its contact
timer has advanced by the frame time, and it stays active only below its time limit. -/
def heldTarget (dt : ℚ) (e : Target) : Target :=
  { e with
    stopped := true
    lifeTimer := f32 (e.lifeTimer + dt)
    active := decide (f32 (e.lifeTimer + dt) < e.lifeTimeLimit) }

/-- An active fence after one frame of contact with an enemy: its contact flag is set, its
contact timer has advanced by the frame time, and it stays active only below its limit. -/
def heldFence (dt : ℚ) (f : Fence) : Fence :=
  { f with
    fenceInContact := true
    fenceContactTimer := f32 (f.fenceContactTimer + dt)
    fenceActive := decide (f32 (f.fenceContactTimer + dt) < f.fenceContactTimeLimit) }

/-- Consecutive `UpdateTargets` passes with the frame times `dts`, oldest first. -/
def targetFrames (sqrtf : ℚ → ℚ) (game : Game) (dts : List ℚ) : Game :=
  dts.foldl (UpdateTargets sqrtf) game

/-- Scenario C: an enemy of path 0 standing half a unit in front of the fence at slot 0. -/
def scenarioEnemy : Target :=
  { position := ⟨-7 / 2, 1 / 10, 0⟩, radius := 1 / 2, active := true, speed := 3,
    currentWaypoint := 2, stopped := false, pathIndex := 0 }

/-- Scenario C: four towers, one new fence at slot 0 and the one enemy in front of it. -/
def scenarioC : Game :=
  { initialGame with
    enemiesSpawned := 1
    towerCount := 4
    fenceCount := 1
    coins := 780
    fences := [newFence 4 0]
    targets := [scenarioEnemy] }

/-- A state that meets the conditions of Scenario C with the enemy at the end of its path: one
active enemy at the base with no waypoint left, held by one new fence half a unit away. -/
def pathEndState : Game :=
  { initialGame with
    enemiesSpawned := 1
    towerCount := 4
    fenceCount := 1
    fences :=
      [{ startPos := ⟨1 / 2, 1 / 10, -2⟩, endPos := ⟨1 / 2, 1 / 10, 2⟩, fenceActive := true,
         fenceTimer := 0, fenceContactTimer := 0, fenceContactTimeLimit := 3,
         fenceInContact := false }]
    targets :=
      [{ position := ⟨0, 1 / 10, 0⟩, radius := 1 / 2, active := true, speed := 3,
         currentWaypoint := 3, stopped := false, pathIndex := 0 }] }

/-- What a fence keeps for life: its two end points and its contact time limit. -/
def fenceShape (f : Fence) : Vector3 × Vector3 × ℚ :=
  (f.startPos, f.endPos, f.fenceContactTimeLimit)

/-- The fields of the wave controller that only `UpdateWave`, `SpawnEnemies` and `ResetGame`
write: wave number, wave-active flag, spawn count, second-path flag, base quota, quota. -/
def waveState (game : Game) : Int × Bool × Int × Bool × Int × Int :=
  (game.waveNumber, game.waveActive, game.enemiesSpawned, game.secondPathActive,
    game.baseEnemiesPerWave, game.maxEnemies)

/-- Every fence of the list is active, has a contact time limit of 3 and a contact timer
strictly below it. -/
def FencesFresh (fences : List Fence) : Prop :=
  ∀ fence ∈ fences, fence.fenceActive = true ∧ fence.fenceContactTimer < 3
    ∧ fence.fenceContactTimeLimit = 3

/-- The slot-0 fence of a four-tower game whose contact timer has reached the limit of 3. -/
def wornFence : Fence := { newFence 4 0 with fenceContactTimer := 3 }

/-- A running game with four towers, no enemy, the worn slot-0 fence and a new slot-1 fence. -/
def wornFenceState : Game :=
  { initialGame with towerCount := 4, fences := [wornFence, newFence 4 1], fenceCount := 2 }

/-- The wave fields as they are between two events of a run while the second path is off: the
base quota is 15, the wave number is at most 10, and at wave 10 the wave is running with at
most one enemy spawned. -/
def WaveInv (game : Game) : Prop :=
  game.baseEnemiesPerWave = 15
  ∧ (game.secondPathActive = false →
      game.waveNumber ≤ 10
      ∧ (game.waveNumber = 10 → game.waveActive = true ∧ game.enemiesSpawned ≤ 1))

/-- The wave fields between `UpdateWave` and `SpawnEnemies` of one frame while the second path
is off: wave 10 has just started with no enemy spawned. -/
def WaveMid (game : Game) : Prop :=
  game.baseEnemiesPerWave = 15
  ∧ (game.secondPathActive = false →
      game.waveNumber ≤ 10
      ∧ (game.waveNumber = 10 → game.waveActive = true ∧ game.enemiesSpawned = 0))

/-- The state at the start of wave 10: wave running, quota 60, second path not yet active. -/
def waveTenStart : Game := { initialGame with waveNumber := 10, maxEnemies := 60 }

/-- A computable square root on `ℚ` for evaluating runs in which enemies walk the diagonal
first leg of a path: the square root rounded down to a multiple of one millionth (exact on
squares of such multiples). It stands for C's `sqrtf`, whose results are rounded as well. -/
def sqrtMicro (q : ℚ) : ℚ := (isqrt (Rat.floor (q * 1000000000000)).toNat : ℚ) / 1000000

/-- A play of the game, oldest event first: `KEY_T` four times (four towers), `KEY_F` twice
(fences at slots 0 and 1), frames of 1 s, 4.7 s, 0.5 s and 3 s (the first enemy walks to the
slot-0 fence and wears it out in the last frame), then `KEY_F` once more. -/
def duplicateFenceEvents : List Event :=
  [Event.input { camera := initialGame.camera, keyT := true },
   Event.input { camera := initialGame.camera, keyT := true },
   Event.input { camera := initialGame.camera, keyT := true },
   Event.input { camera := initialGame.camera, keyT := true },
   Event.input { camera := initialGame.camera, keyF := true },
   Event.input { camera := initialGame.camera, keyF := true },
   Event.update 1, Event.update (47 / 10), Event.update (1 / 2), Event.update 3,
   Event.input { camera := initialGame.camera, keyF := true }]

/-- The input of a shot aimed at the spawn point of path 0: `KEY_SPACE` with the camera
`40 * dt` to the left of the spawn point, looking along the x axis, so that the missile is
at the spawn point after a frame of `dt` seconds. -/
def aimedShot (dt : ℚ) : Event :=
  Event.input
    { camera := ⟨⟨-15 - 40 * dt, 1 / 10, -10⟩, ⟨-14 - 40 * dt, 1 / 10, -10⟩, ⟨0, 1, 0⟩, 60, 0⟩
      keySpace := true }

/-- An aimed shot followed by a frame of `dt` seconds: the frame spawns one enemy and the
missile hits it at the spawn point. -/
def shotFrame (dt : ℚ) : List Event := [aimedShot dt, Event.update dt]

/-- The frames of one wave of `n` enemies, each enemy shot in the frame that spawns it; the
first frame lasts `first` seconds. -/
def waveFrames (first : ℚ) (n : Nat) : List Event :=
  shotFrame first ++ (List.replicate (n - 1) (shotFrame 1)).flatten

/-- A play of waves 1 to 9 (15, 20, ..., 55 enemies), every enemy shot at the spawn point, and
of the frame that ends wave 9, starts wave 10 and spawns its first enemy. -/
def playToWaveTen : List Event :=
  waveFrames 1 15 ++ waveFrames 5 20 ++ waveFrames 5 25 ++ waveFrames 5 30 ++ waveFrames 5 35
    ++ waveFrames 5 40 ++ waveFrames 5 45 ++ waveFrames 5 50 ++ waveFrames 5 55 ++ shotFrame 5

/-! # Theorems -/

/-! ## Rounding to `float` -/

theorem log2Fuel_spec (fuel n : Nat) (hf : n ≤ fuel) (hn : n ≠ 0) :
    2 ^ log2Fuel fuel n ≤ n ∧ n < 2 ^ (log2Fuel fuel n + 1) := by
  induction fuel generalizing n with
  | zero => omega
  | succ fuel ih =>
    simp only [log2Fuel]
    split_ifs with h2
    · have h1 : n = 1 := by omega
      subst h1
      exact ⟨by norm_num, by norm_num⟩
    · obtain ⟨i1, i2⟩ := ih (n / 2) (by omega) (by omega)
      refine ⟨?_, ?_⟩
      · calc 2 ^ (log2Fuel fuel (n / 2) + 1) = 2 ^ log2Fuel fuel (n / 2) * 2 := pow_succ _ _
          _ ≤ n / 2 * 2 := Nat.mul_le_mul_right 2 i1
          _ ≤ n := Nat.div_mul_le_self n 2
      · have h3 : n / 2 + 1 ≤ 2 ^ (log2Fuel fuel (n / 2) + 1) := i2
        calc n < (n / 2 + 1) * 2 := by omega
          _ ≤ 2 ^ (log2Fuel fuel (n / 2) + 1) * 2 := Nat.mul_le_mul_right 2 h3
          _ = 2 ^ (log2Fuel fuel (n / 2) + 1 + 1) := (pow_succ _ _).symm

theorem ilog2_spec (n : Nat) (hn : n ≠ 0) : 2 ^ ilog2 n ≤ n ∧ n < 2 ^ (ilog2 n + 1) :=
  log2Fuel_spec n n (le_refl n) hn

theorem binExp_spec (q : ℚ) (hq : 0 < q) :
    (2 : ℚ) ^ binExp q ≤ q ∧ q < (2 : ℚ) ^ (binExp q + 1) := by
  have hnum : 0 < q.num := Rat.num_pos.mpr hq
  have hp : q.num.toNat ≠ 0 := by omega
  obtain ⟨p1, p2⟩ := ilog2_spec q.num.toNat hp
  obtain ⟨d1, d2⟩ := ilog2_spec q.den q.den_nz
  have hcast : ((q.num.toNat : ℕ) : ℚ) = (q.num : ℚ) := by
    have : ((q.num.toNat : ℕ) : ℤ) = q.num := Int.toNat_of_nonneg (le_of_lt hnum)
    exact_mod_cast this
  have hq2 : q = (q.num.toNat : ℚ) / (q.den : ℚ) := by
    rw [hcast]
    exact (Rat.num_div_den q).symm
  have hden : (0 : ℚ) < (q.den : ℚ) := by exact_mod_cast q.den_pos
  have two : (2 : ℚ) ≠ 0 := by norm_num
  have P1 : (2 : ℚ) ^ (ilog2 q.num.toNat : ℤ) ≤ (q.num.toNat : ℚ) := by
    rw [zpow_natCast]
    exact_mod_cast p1
  have P2 : (q.num.toNat : ℚ) < (2 : ℚ) ^ ((ilog2 q.num.toNat : ℤ) + 1) := by
    have : (q.num.toNat : ℚ) < (2 : ℚ) ^ (ilog2 q.num.toNat + 1) := by exact_mod_cast p2
    rw [show ((ilog2 q.num.toNat : ℤ) + 1) = ((ilog2 q.num.toNat + 1 : ℕ) : ℤ) by push_cast; ring,
      zpow_natCast]
    exact this
  have D1 : (2 : ℚ) ^ (ilog2 q.den : ℤ) ≤ (q.den : ℚ) := by
    rw [zpow_natCast]
    exact_mod_cast d1
  have D2 : (q.den : ℚ) < (2 : ℚ) ^ ((ilog2 q.den : ℤ) + 1) := by
    have : (q.den : ℚ) < (2 : ℚ) ^ (ilog2 q.den + 1) := by exact_mod_cast d2
    rw [show ((ilog2 q.den : ℤ) + 1) = ((ilog2 q.den + 1 : ℕ) : ℤ) by push_cast; ring,
      zpow_natCast]
    exact this
  have hup : q < (2 : ℚ) ^ ((ilog2 q.num.toNat : ℤ) - (ilog2 q.den : ℤ) + 1) := by
    have e : ((ilog2 q.num.toNat : ℤ) - (ilog2 q.den : ℤ) + 1)
        = ((ilog2 q.num.toNat : ℤ) + 1) - (ilog2 q.den : ℤ) := by ring
    have key : (q.num.toNat : ℚ) / (q.den : ℚ)
        < (2 : ℚ) ^ ((ilog2 q.num.toNat : ℤ) + 1) / (2 : ℚ) ^ (ilog2 q.den : ℤ) := by
      rw [div_lt_div_iff₀ hden (zpow_pos (by norm_num) _)]
      calc (q.num.toNat : ℚ) * (2 : ℚ) ^ (ilog2 q.den : ℤ)
          ≤ (q.num.toNat : ℚ) * (q.den : ℚ) :=
            mul_le_mul_of_nonneg_left D1 (Nat.cast_nonneg _)
        _ < (2 : ℚ) ^ ((ilog2 q.num.toNat : ℤ) + 1) * (q.den : ℚ) :=
            mul_lt_mul_of_pos_right P2 hden
    rw [e, zpow_sub₀ two]
    exact lt_of_eq_of_lt hq2 key
  have hlow : (2 : ℚ) ^ ((ilog2 q.num.toNat : ℤ) - (ilog2 q.den : ℤ) - 1) < q := by
    have e : ((ilog2 q.num.toNat : ℤ) - (ilog2 q.den : ℤ) - 1)
        = (ilog2 q.num.toNat : ℤ) - ((ilog2 q.den : ℤ) + 1) := by ring
    have key : (2 : ℚ) ^ (ilog2 q.num.toNat : ℤ) / (2 : ℚ) ^ ((ilog2 q.den : ℤ) + 1)
        < (q.num.toNat : ℚ) / (q.den : ℚ) := by
      rw [div_lt_div_iff₀ (zpow_pos (by norm_num) _) hden]
      calc (2 : ℚ) ^ (ilog2 q.num.toNat : ℤ) * (q.den : ℚ)
          < (2 : ℚ) ^ (ilog2 q.num.toNat : ℤ) * (2 : ℚ) ^ ((ilog2 q.den : ℤ) + 1) :=
            mul_lt_mul_of_pos_left D2 (zpow_pos (by norm_num) _)
        _ ≤ (q.num.toNat : ℚ) * (2 : ℚ) ^ ((ilog2 q.den : ℤ) + 1) :=
            mul_le_mul_of_nonneg_right P1 (le_of_lt (zpow_pos (by norm_num) _))
    rw [e, zpow_sub₀ two]
    exact lt_of_lt_of_eq key hq2.symm
  unfold binExp
  simp only
  split_ifs with h
  · exact ⟨h, hup⟩
  · refine ⟨le_of_lt hlow, ?_⟩
    rw [sub_add_cancel]
    exact not_le.mp h

theorem binExp_mono (x y : ℚ) (hx : 0 < x) (hxy : x ≤ y) : binExp x ≤ binExp y := by
  obtain ⟨x1, _⟩ := binExp_spec x hx
  obtain ⟨_, y2⟩ := binExp_spec y (lt_of_lt_of_le hx hxy)
  have h : (2 : ℚ) ^ binExp x < (2 : ℚ) ^ (binExp y + 1) :=
    lt_of_le_of_lt x1 (lt_of_le_of_lt hxy y2)
  have := (zpow_lt_zpow_iff_right₀ (by norm_num : (1 : ℚ) < 2)).mp h
  omega

theorem floor_le_roundEven (q : ℚ) : Rat.floor q ≤ roundEven q := by
  unfold roundEven
  split_ifs <;> omega

theorem roundEven_le_floor_succ (q : ℚ) : roundEven q ≤ Rat.floor q + 1 := by
  unfold roundEven
  split_ifs <;> omega

theorem rat_floor_eq (q : ℚ) : Rat.floor q = ⌊q⌋ := rfl

theorem roundEven_intCast (n : Int) : roundEven (n : ℚ) = n := by
  unfold roundEven
  rw [rat_floor_eq, Int.floor_intCast, sub_self, if_pos (by norm_num)]

theorem le_roundEven (n : Int) (q : ℚ) (h : (n : ℚ) ≤ q) : n ≤ roundEven q :=
  le_trans (by rw [rat_floor_eq]; exact Int.le_floor.mpr h) (floor_le_roundEven q)

theorem roundEven_le (n : Int) (q : ℚ) (h : q ≤ (n : ℚ)) : roundEven q ≤ n := by
  have hfl : Rat.floor q ≤ n := by
    rw [rat_floor_eq]
    exact Int.cast_le.mp (le_trans (Int.floor_le q) h)
  rcases lt_or_eq_of_le hfl with h1 | h1
  · exact le_trans (roundEven_le_floor_succ q) (by omega)
  · have hq : q = (n : ℚ) := by
      refine le_antisymm h ?_
      rw [← h1, rat_floor_eq]
      exact Int.floor_le q
    rw [hq, roundEven_intCast]

theorem roundEven_mono (x y : ℚ) (h : x ≤ y) : roundEven x ≤ roundEven y := by
  have hfl : Rat.floor x ≤ Rat.floor y := by
    rw [rat_floor_eq, rat_floor_eq]
    exact Int.floor_mono h
  rcases lt_or_eq_of_le hfl with h1 | h1
  · exact le_trans (roundEven_le_floor_succ x) (le_trans (by omega) (floor_le_roundEven y))
  · have hfrac : x - (Rat.floor x : ℚ) ≤ y - (Rat.floor y : ℚ) := by
      rw [h1]
      linarith
    unfold roundEven
    rw [h1] at hfrac ⊢
    split_ifs <;> first | omega | (exfalso; linarith)

theorem f32pos_nonneg (q : ℚ) (hq : 0 < q) : 0 ≤ f32pos q := by
  unfold f32pos
  have hu : (0 : ℚ) < (2 : ℚ) ^ (max (binExp q) (-126) - 23) := zpow_pos (by norm_num) _
  have h0 : (0 : Int) ≤ roundEven (q / (2 : ℚ) ^ (max (binExp q) (-126) - 23)) :=
    le_roundEven 0 _ (by
      rw [Int.cast_zero]
      exact le_of_lt (div_pos hq hu))
  exact mul_nonneg (by exact_mod_cast h0) (le_of_lt hu)

theorem f32pos_le (q : ℚ) (hq : 0 < q) :
    f32pos q ≤ (2 : ℚ) ^ (max (binExp q) (-126) + 1) := by
  obtain ⟨_, b2⟩ := binExp_spec q hq
  have two : (2 : ℚ) ≠ 0 := by norm_num
  have hu : (0 : ℚ) < (2 : ℚ) ^ (max (binExp q) (-126) - 23) := zpow_pos (by norm_num) _
  have hq2 : q ≤ (2 : ℚ) ^ (max (binExp q) (-126) + 1) :=
    le_trans (le_of_lt b2)
      (zpow_le_zpow_right₀ (by norm_num) (by have := le_max_left (binExp q) (-126); omega))
  have hsplit : (2 : ℚ) ^ (max (binExp q) (-126) + 1)
      = ((16777216 : Int) : ℚ) * (2 : ℚ) ^ (max (binExp q) (-126) - 23) := by
    have e : max (binExp q) (-126) + 1 = 24 + (max (binExp q) (-126) - 23) := by ring
    rw [e, zpow_add₀ two]
    norm_num
  have hr : roundEven (q / (2 : ℚ) ^ (max (binExp q) (-126) - 23)) ≤ 16777216 :=
    roundEven_le 16777216 _ (by
      rw [div_le_iff₀ hu, ← hsplit]
      exact hq2)
  unfold f32pos
  rw [hsplit]
  exact mul_le_mul_of_nonneg_right (by exact_mod_cast hr) (le_of_lt hu)

theorem le_f32pos (q : ℚ) (hq : 0 < q) (he : -126 ≤ binExp q) :
    (2 : ℚ) ^ binExp q ≤ f32pos q := by
  obtain ⟨b1, _⟩ := binExp_spec q hq
  have two : (2 : ℚ) ≠ 0 := by norm_num
  have hmax : max (binExp q) (-126) = binExp q := max_eq_left he
  have hu : (0 : ℚ) < (2 : ℚ) ^ (binExp q - 23) := zpow_pos (by norm_num) _
  have hsplit : (2 : ℚ) ^ binExp q = ((8388608 : Int) : ℚ) * (2 : ℚ) ^ (binExp q - 23) := by
    have e : binExp q = 23 + (binExp q - 23) := by ring
    nth_rewrite 1 [e]
    rw [zpow_add₀ two]
    norm_num
  have hr : 8388608 ≤ roundEven (q / (2 : ℚ) ^ (binExp q - 23)) :=
    le_roundEven 8388608 _ (by
      rw [le_div_iff₀ hu, ← hsplit]
      exact b1)
  unfold f32pos
  rw [hmax]
  nth_rewrite 1 [hsplit]
  exact mul_le_mul_of_nonneg_right (by exact_mod_cast hr) (le_of_lt hu)

theorem f32pos_mono (x y : ℚ) (hx : 0 < x) (hxy : x ≤ y) : f32pos x ≤ f32pos y := by
  have hy : 0 < y := lt_of_lt_of_le hx hxy
  have hb := binExp_mono x y hx hxy
  have hE : max (binExp x) (-126) ≤ max (binExp y) (-126) := max_le_max hb (le_refl _)
  rcases lt_or_eq_of_le hE with h1 | h1
  · have hy126 : -126 < binExp y := by
      by_contra hc
      have hm : max (binExp y) (-126) = -126 := max_eq_right (by omega)
      have := le_max_right (binExp x) (-126)
      omega
    have hmy : max (binExp y) (-126) = binExp y := max_eq_left (by omega)
    calc f32pos x ≤ (2 : ℚ) ^ (max (binExp x) (-126) + 1) := f32pos_le x hx
      _ ≤ (2 : ℚ) ^ binExp y := zpow_le_zpow_right₀ (by norm_num) (by omega)
      _ ≤ f32pos y := le_f32pos y hy (by omega)
  · unfold f32pos
    rw [h1]
    have hu : (0 : ℚ) < (2 : ℚ) ^ (max (binExp y) (-126) - 23) := zpow_pos (by norm_num) _
    have hr := roundEven_mono (x / (2 : ℚ) ^ (max (binExp y) (-126) - 23))
      (y / (2 : ℚ) ^ (max (binExp y) (-126) - 23)) (div_le_div_of_nonneg_right hxy (le_of_lt hu))
    exact mul_le_mul_of_nonneg_right (by exact_mod_cast hr) (le_of_lt hu)

theorem f32Spec_of_pos (q : ℚ) (hq : 0 < q) : f32Spec q = f32pos q := by
  unfold f32Spec
  rw [if_neg (ne_of_gt hq), if_pos hq]

theorem f32Spec_of_neg (q : ℚ) (hq : q < 0) : f32Spec q = -f32pos (-q) := by
  unfold f32Spec
  rw [if_neg (ne_of_lt hq), if_neg (not_lt.mpr (le_of_lt hq))]

theorem f32Spec_zero : f32Spec 0 = 0 := by
  unfold f32Spec
  rw [if_pos rfl]

/-- Rounding to `float` keeps the sign. -/
theorem f32Spec_nonneg (q : ℚ) (hq : 0 ≤ q) : 0 ≤ f32Spec q := by
  rcases lt_or_eq_of_le hq with h | h
  · rw [f32Spec_of_pos q h]
    exact f32pos_nonneg q h
  · rw [← h, f32Spec_zero]

theorem f32Spec_nonpos (q : ℚ) (hq : q ≤ 0) : f32Spec q ≤ 0 := by
  rcases lt_or_eq_of_le hq with h | h
  · rw [f32Spec_of_neg q h]
    have := f32pos_nonneg (-q) (by linarith)
    linarith
  · rw [h, f32Spec_zero]

/-- Rounding to `float` is monotone. -/
theorem f32Spec_mono (x y : ℚ) (h : x ≤ y) : f32Spec x ≤ f32Spec y := by
  rcases lt_trichotomy x 0 with hx | hx | hx
  · rcases lt_or_le y 0 with hy | hy
    · rw [f32Spec_of_neg x hx, f32Spec_of_neg y hy]
      have := f32pos_mono (-y) (-x) (by linarith) (by linarith)
      linarith
    · exact le_trans (f32Spec_nonpos x (le_of_lt hx)) (f32Spec_nonneg y hy)
  · rw [hx] at h ⊢
    rw [f32Spec_zero]
    exact f32Spec_nonneg y h
  · rw [f32Spec_of_pos x hx, f32Spec_of_pos y (lt_of_lt_of_le hx h)]
    exact f32pos_mono x y hx h

/-- A positive rational that is a whole number of units in the last place of its binade is a
`float`. -/
theorem f32pos_exact (q : ℚ) (m : Int)
    (h : q / (2 : ℚ) ^ (max (binExp q) (-126) - 23) = (m : ℚ)) : f32pos q = q := by
  have hu : (2 : ℚ) ^ (max (binExp q) (-126) - 23) ≠ 0 :=
    ne_of_gt (zpow_pos (by norm_num) _)
  unfold f32pos
  rw [h, roundEven_intCast, ← h, div_mul_cancel₀ _ hu]

/-- Every natural number up to `2^24` is a `float`. -/
theorem f32Spec_natCast (n : Nat) (hn : n ≤ 16777216) : f32Spec (n : ℚ) = n := by
  rcases Nat.eq_zero_or_pos n with h0 | hpos
  · subst h0
    rw [Nat.cast_zero, f32Spec_zero]
  have hq : (0 : ℚ) < (n : ℚ) := by exact_mod_cast hpos
  rw [f32Spec_of_pos _ hq]
  obtain ⟨b1, b2⟩ := binExp_spec (n : ℚ) hq
  have two : (2 : ℚ) ≠ 0 := by norm_num
  have hlo : 0 ≤ binExp (n : ℚ) := by
    have h1 : (2 : ℚ) ^ (0 : ℤ) < (2 : ℚ) ^ (binExp (n : ℚ) + 1) := by
      rw [zpow_zero]
      exact lt_of_le_of_lt (by exact_mod_cast hpos) b2
    have := (zpow_lt_zpow_iff_right₀ (by norm_num : (1 : ℚ) < 2)).mp h1
    omega
  have hhi : binExp (n : ℚ) ≤ 24 := by
    have h1 : (2 : ℚ) ^ binExp (n : ℚ) ≤ (2 : ℚ) ^ (24 : ℤ) := by
      refine le_trans b1 ?_
      norm_num
      exact hn
    exact (zpow_le_zpow_iff_right₀ (by norm_num : (1 : ℚ) < 2)).mp h1
  have hmax : max (binExp (n : ℚ)) (-126) = binExp (n : ℚ) := max_eq_left (by omega)
  rcases lt_or_eq_of_le hhi with h24 | h24
  · -- the unit in the last place is `2^(-k)` with `k ≥ 0`
    obtain ⟨k, hk⟩ : ∃ k : Nat, (k : ℤ) = 23 - binExp (n : ℚ) := ⟨(23 - binExp (n : ℚ)).toNat, by omega⟩
    refine f32pos_exact (n : ℚ) ((n : Int) * 2 ^ k) ?_
    rw [hmax]
    have e : binExp (n : ℚ) - 23 = -(k : ℤ) := by omega
    rw [e, zpow_neg, zpow_natCast, div_inv_eq_mul]
    push_cast
    ring
  · have hn2 : (n : ℚ) = 16777216 := by
      refine le_antisymm (by exact_mod_cast hn) ?_
      rw [h24] at b1
      norm_num at b1
      exact_mod_cast b1
    refine f32pos_exact (n : ℚ) 8388608 ?_
    rw [hmax, h24, hn2]
    norm_num

/-- Every integer between `-2^24` and `2^24` is a `float`. -/
theorem f32Spec_intCast (c : Int) (h1 : -16777216 ≤ c) (h2 : c ≤ 16777216) : f32Spec (c : ℚ) = c := by
  rcases le_or_lt 0 c with hc | hc
  · obtain ⟨n, hn⟩ := Int.eq_ofNat_of_zero_le hc
    subst hn
    have := f32Spec_natCast n (by omega)
    exact_mod_cast this
  · obtain ⟨n, hn⟩ := Int.eq_ofNat_of_zero_le (show 0 ≤ -c by omega)
    have hcn : c = -(n : Int) := by omega
    subst hcn
    have hpos : (0 : ℚ) < (n : ℚ) := by
      have : 0 < n := by omega
      exact_mod_cast this
    have hneg : (((-(n : Int)) : Int) : ℚ) = -(n : ℚ) := by push_cast; ring
    rw [hneg, f32Spec_of_neg _ (by linarith), neg_neg, ← f32Spec_of_pos _ hpos, f32Spec_natCast n (by omega)]

theorem roundEven_div (n d : Nat) (hd : 0 < d) :
    roundEven ((n : ℚ) / (d : ℚ)) = (roundDiv n d : Int) := by
  have hdq : (0 : ℚ) < (d : ℚ) := by exact_mod_cast hd
  have hfl : Rat.floor ((n : ℚ) / (d : ℚ)) = ((n / d : Nat) : Int) := by
    rw [rat_floor_eq, Rat.floor_natCast_div_natCast]
    norm_cast
  have hsplit : (n : ℚ) = (d : ℚ) * ((n / d : Nat) : ℚ) + ((n % d : Nat) : ℚ) := by
    have := Nat.div_add_mod n d
    exact_mod_cast this.symm
  have hfrac : (n : ℚ) / (d : ℚ) - (((n / d : Nat) : Int) : ℚ) = ((n % d : Nat) : ℚ) / (d : ℚ) := by
    rw [Int.cast_natCast]
    field_simp
    linarith
  have hlt : ((n % d : Nat) : ℚ) / (d : ℚ) < 1 / 2 ↔ 2 * (n % d) < d := by
    rw [div_lt_div_iff₀ hdq (by norm_num)]
    constructor
    · intro h
      have h2 : (((n % d) * 2 : Nat) : ℚ) < ((1 * d : Nat) : ℚ) := by push_cast; linarith
      have := Nat.cast_lt.mp h2
      omega
    · intro h
      have h2 : (((n % d) * 2 : Nat) : ℚ) < ((1 * d : Nat) : ℚ) := by
        apply Nat.cast_lt.mpr; omega
      push_cast at h2
      linarith
  have hgt : 1 / 2 < ((n % d : Nat) : ℚ) / (d : ℚ) ↔ d < 2 * (n % d) := by
    rw [div_lt_div_iff₀ (by norm_num) hdq]
    constructor
    · intro h
      have h2 : ((1 * d : Nat) : ℚ) < (((n % d) * 2 : Nat) : ℚ) := by push_cast; linarith
      have := Nat.cast_lt.mp h2
      omega
    · intro h
      have h2 : ((1 * d : Nat) : ℚ) < (((n % d) * 2 : Nat) : ℚ) := by
        apply Nat.cast_lt.mpr; omega
      push_cast at h2
      linarith
  have hpar : (((n / d : Nat) : Int) % 2 = 0) ↔ ((n / d) % 2 = 0) := by omega
  unfold roundEven roundDiv
  rw [hfl, hfrac]
  by_cases h1 : 2 * (n % d) < d
  · rw [if_pos (hlt.mpr h1), if_pos h1]
  · rw [if_neg (fun h => h1 (hlt.mp h)), if_neg h1]
    by_cases h2 : d < 2 * (n % d)
    · rw [if_pos (hgt.mpr h2), if_pos h2]
      push_cast
      rfl
    · rw [if_neg (fun h => h2 (hgt.mp h)), if_neg h2]
      by_cases h3 : (n / d) % 2 = 0
      · rw [if_pos (hpar.mpr h3), if_pos h3]
      · rw [if_neg (fun h => h3 (hpar.mp h)), if_neg h3]
        push_cast
        rfl

theorem zpow_two_of_nonneg (e : Int) (he : 0 ≤ e) : (2 : ℚ) ^ e = ((2 ^ e.toNat : Nat) : ℚ) := by
  obtain ⟨m, rfl⟩ := Int.eq_ofNat_of_zero_le he
  simp

theorem zpow_two_of_neg (e : Int) (he : ¬ 0 ≤ e) :
    (2 : ℚ) ^ e = 1 / ((2 ^ (-e).toNat : Nat) : ℚ) := by
  obtain ⟨m, rfl⟩ : ∃ m : Nat, e = -(m : Int) := ⟨(-e).toNat, by omega⟩
  simp

theorem rat_eq_div (q : ℚ) (hq : 0 < q) : q = ((q.num.toNat : Nat) : ℚ) / ((q.den : Nat) : ℚ) := by
  have hnum : 0 < q.num := Rat.num_pos.mpr hq
  have h1 : ((q.num.toNat : Nat) : ℚ) = (q.num : ℚ) := by
    have : ((q.num.toNat : Nat) : Int) = q.num := Int.toNat_of_nonneg hnum.le
    exact_mod_cast this
  rw [h1]
  exact (Rat.num_div_den q).symm

theorem pow_le_div_iff (n d m : Nat) (hd : 0 < d) :
    ((2 ^ m : Nat) : ℚ) ≤ (n : ℚ) / (d : ℚ) ↔ d * 2 ^ m ≤ n := by
  have hdq : (0 : ℚ) < (d : ℚ) := by exact_mod_cast hd
  rw [le_div_iff₀ hdq]
  constructor
  · intro h
    have h2 : ((2 ^ m * d : Nat) : ℚ) ≤ (n : ℚ) := by push_cast; push_cast at h; exact h
    have := Nat.cast_le.mp h2
    rw [Nat.mul_comm]; exact this
  · intro h
    have h2 : ((2 ^ m * d : Nat) : ℚ) ≤ (n : ℚ) := by
      apply Nat.cast_le.mpr; rw [Nat.mul_comm]; exact h
    push_cast at h2; push_cast; exact h2

theorem inv_pow_le_div_iff (n d m : Nat) (hd : 0 < d) :
    1 / ((2 ^ m : Nat) : ℚ) ≤ (n : ℚ) / (d : ℚ) ↔ d ≤ n * 2 ^ m := by
  have hdq : (0 : ℚ) < (d : ℚ) := by exact_mod_cast hd
  have hp : (0 : ℚ) < ((2 ^ m : Nat) : ℚ) := by
    exact_mod_cast Nat.pos_pow_of_pos _ (by norm_num)
  rw [div_le_div_iff₀ hp hdq]
  constructor
  · intro h
    have h2 : ((1 * d : Nat) : ℚ) ≤ ((n * 2 ^ m : Nat) : ℚ) := by
      push_cast; push_cast at h; exact h
    have := Nat.cast_le.mp h2
    omega
  · intro h
    have h2 : ((1 * d : Nat) : ℚ) ≤ ((n * 2 ^ m : Nat) : ℚ) := by
      apply Nat.cast_le.mpr; omega
    push_cast at h2; push_cast; exact h2

theorem binExpN_eq (q : ℚ) (hq : 0 < q) : binExpN q.num.toNat q.den = binExp q := by
  have hqd := rat_eq_div q hq
  unfold binExpN binExp
  simp only
  generalize (ilog2 q.num.toNat : Int) - (ilog2 q.den : Int) = e
  by_cases he : 0 ≤ e
  · rw [if_pos he]
    have hiff := pow_le_div_iff q.num.toNat q.den e.toNat q.den_pos
    rw [← hqd, ← zpow_two_of_nonneg e he] at hiff
    by_cases hc : (2 : ℚ) ^ e ≤ q
    · rw [if_pos hc, if_pos (hiff.mp hc)]
    · rw [if_neg hc, if_neg (fun h => hc (hiff.mpr h))]
  · rw [if_neg he]
    have hiff := inv_pow_le_div_iff q.num.toNat q.den (-e).toNat q.den_pos
    rw [← hqd, ← zpow_two_of_neg e he] at hiff
    by_cases hc : (2 : ℚ) ^ e ≤ q
    · rw [if_pos hc, if_pos (hiff.mp hc)]
    · rw [if_neg hc, if_neg (fun h => hc (hiff.mpr h))]

theorem f32posN_eq (q : ℚ) (hq : 0 < q) : f32posN q.num.toNat q.den = f32pos q := by
  have hd : 0 < q.den := q.den_pos
  have hqd := rat_eq_div q hq
  unfold f32posN f32pos
  rw [binExpN_eq q hq]
  generalize max (binExp q) (-126) - 23 = k
  by_cases hk : 0 ≤ k
  · rw [if_pos hk, zpow_two_of_nonneg k hk]
    have hdiv : q / ((2 ^ k.toNat : Nat) : ℚ)
        = ((q.num.toNat : Nat) : ℚ) / ((q.den * 2 ^ k.toNat : Nat) : ℚ) := by
      conv_lhs => rw [hqd]
      rw [div_div]
      push_cast
      rfl
    rw [hdiv, roundEven_div _ _ (Nat.mul_pos hd (Nat.pos_pow_of_pos _ (by norm_num)))]
    push_cast
    rfl
  · rw [if_neg hk, zpow_two_of_neg k hk]
    have hdiv : q / (1 / ((2 ^ (-k).toNat : Nat) : ℚ))
        = ((q.num.toNat * 2 ^ (-k).toNat : Nat) : ℚ) / ((q.den : Nat) : ℚ) := by
      conv_lhs => rw [hqd]
      rw [div_div_eq_mul_div, div_one]
      push_cast
      ring
    rw [hdiv, roundEven_div _ _ hd, Rat.mkRat_eq_div]
    push_cast
    ring

theorem f32_eq_spec (q : ℚ) : f32 q = f32Spec q := by
  unfold f32 f32Spec
  by_cases h0 : q = 0
  · rw [if_pos h0, if_pos h0]
  · rw [if_neg h0, if_neg h0]
    by_cases hp : 0 < q
    · rw [if_pos hp, if_pos hp, f32posN_eq q hp]
    · rw [if_neg hp, if_neg hp]
      have hn : 0 < -q := by
        have : q < 0 := lt_of_le_of_ne (not_lt.mp hp) h0
        linarith
      rw [f32posN_eq (-q) hn]

theorem f32_zero : f32 0 = 0 := by
  rw [f32_eq_spec]
  exact f32Spec_zero

theorem f32_nonneg (q : ℚ) (hq : 0 ≤ q) : 0 ≤ f32 q := by
  rw [f32_eq_spec]
  exact f32Spec_nonneg q hq

theorem f32_nonpos (q : ℚ) (hq : q ≤ 0) : f32 q ≤ 0 := by
  rw [f32_eq_spec]
  exact f32Spec_nonpos q hq

theorem f32_mono (x y : ℚ) (h : x ≤ y) : f32 x ≤ f32 y := by
  rw [f32_eq_spec, f32_eq_spec]
  exact f32Spec_mono x y h

theorem f32_natCast (n : Nat) (hn : n ≤ 16777216) : f32 (n : ℚ) = n := by
  rw [f32_eq_spec]
  exact f32Spec_natCast n hn

theorem f32_intCast (c : Int) (h1 : -16777216 ≤ c) (h2 : c ≤ 16777216) : f32 (c : ℚ) = c := by
  rw [f32_eq_spec]
  exact f32Spec_intCast c h1 h2

theorem truncInt_intCast (n : Int) : truncInt (n : ℚ) = n := by
  unfold truncInt
  split_ifs with h
  · rw [rat_floor_eq, Int.floor_intCast]
  · rw [rat_floor_eq, ← Int.cast_neg, Int.floor_intCast, neg_neg]

theorem truncInt_nonneg (q : ℚ) (h : 0 ≤ q) : 0 ≤ truncInt q := by
  unfold truncInt
  rw [if_pos h, rat_floor_eq]
  exact Int.floor_nonneg.mpr h

/-- Below `2^24` the `float` subtraction of a whole cost from the balance is exact. -/
theorem payCost_exact (coins cost : Int) (h1 : -16777216 ≤ coins) (h2 : coins ≤ 16777216)
    (h3 : -16777216 ≤ coins - cost) (h4 : coins - cost ≤ 16777216) :
    payCost coins (cost : ℚ) = coins - cost := by
  unfold payCost
  rw [f32_intCast coins h1 h2, ← Int.cast_sub, f32_intCast _ h3 h4, truncInt_intCast]

/-- A purchase whose cost the balance covers leaves a balance that is not negative. -/
theorem payCost_nonneg (coins cost : Int) (h1 : -16777216 ≤ cost) (h2 : cost ≤ 16777216)
    (h : cost ≤ coins) : 0 ≤ payCost coins (cost : ℚ) := by
  unfold payCost
  have hle : (cost : ℚ) ≤ f32 (coins : ℚ) := by
    have := f32_mono (cost : ℚ) (coins : ℚ) (by exact_mod_cast h)
    rw [f32_intCast cost h1 h2] at this
    exact this
  exact truncInt_nonneg _ (f32_nonneg _ (by linarith))

/-- The test `coins >= cost` of the source, made on the balance converted to `float`, is the
test on the integers. -/
theorem coversCost_iff (coins cost : Int) (h1 : -16777215 ≤ cost) (h2 : cost ≤ 16777216) :
    f32 (coins : ℚ) ≥ (cost : ℚ) ↔ coins ≥ cost := by
  constructor
  · intro h
    by_contra hc
    have hlt : coins ≤ cost - 1 := by omega
    have := f32_mono (coins : ℚ) ((cost - 1 : Int) : ℚ) (by exact_mod_cast hlt)
    rw [f32_intCast (cost - 1) (by omega) (by omega)] at this
    have h3 : ((cost - 1 : Int) : ℚ) = (cost : ℚ) - 1 := by push_cast; ring
    rw [h3] at this
    linarith
  · intro h
    have := f32_mono (cost : ℚ) (coins : ℚ) (by exact_mod_cast h)
    rw [f32_intCast cost (by omega) h2] at this
    exact this

theorem payCost_fifty (coins : Int) :
    (50 ≤ coins → 0 ≤ payCost coins 50)
    ∧ (-16777166 ≤ coins → coins ≤ 16777216 → payCost coins 50 = coins - 50) := by
  refine ⟨fun h => ?_, fun h1 h2 => ?_⟩
  · have := payCost_nonneg coins 50 (by norm_num) (by norm_num) h
    exact_mod_cast this
  · have := payCost_exact coins 50 (by omega) h2 (by omega) (by omega)
    exact_mod_cast this

theorem payCost_twenty (coins : Int) :
    (20 ≤ coins → 0 ≤ payCost coins 20)
    ∧ (-16777196 ≤ coins → coins ≤ 16777216 → payCost coins 20 = coins - 20) := by
  refine ⟨fun h => ?_, fun h1 h2 => ?_⟩
  · have := payCost_nonneg coins 20 (by norm_num) (by norm_num) h
    exact_mod_cast this
  · have := payCost_exact coins 20 (by omega) h2 (by omega) (by omega)
    exact_mod_cast this

theorem floatSum_nil (acc : ℚ) : floatSum acc [] = acc := rfl

theorem floatSum_cons (acc d : ℚ) (dts : List ℚ) :
    floatSum acc (d :: dts) = floatSum (f32 (acc + d)) dts := rfl

theorem floatSum_append (acc : ℚ) (a b : List ℚ) :
    floatSum acc (a ++ b) = floatSum (floatSum acc a) b := by
  unfold floatSum
  rw [List.foldl_append]

/-! ## The square root used in the closed theorems -/

/-- The values of `sqrtExact` at the squared distances that occur in the closed theorems
below: on each of them it is the exact square root. -/
theorem sqrtExact_values :
    sqrtExact 0 = 0
    ∧ sqrtExact (49 / 169) = 7 / 13
    ∧ sqrtExact 16 = 4
    ∧ sqrtExact (4 / 25) = 2 / 5
    ∧ sqrtExact 4 = 2
    ∧ sqrtExact 25 = 5
    ∧ sqrtExact (2209 / 100) = 47 / 10
    ∧ sqrtExact (289 / 100) = 17 / 10 := by
  decide!

/-! ## Wave controller theorems -/



theorem startNextWave_fields (game : Game) :
    (startNextWave game).waveNumber = game.waveNumber + 1
    ∧ (startNextWave game).spawnDelay = max (3 / 10) (game.spawnDelay - 1 / 10)
    ∧ (startNextWave game).target.speed = min 7 (game.target.speed + 2 / 10)
    ∧ (startNextWave game).maxEnemies
        = game.baseEnemiesPerWave + (game.waveNumber + 1 - 1) * 5
          + (if game.secondPathActive = true then 10 else 0)
    ∧ (startNextWave game).enemiesSpawned = 0
    ∧ (startNextWave game).waveActive = true
    ∧ (startNextWave game).secondPathActive = game.secondPathActive
    ∧ (startNextWave game).baseEnemiesPerWave = game.baseEnemiesPerWave := by
  refine ⟨rfl, ?_, ?_, ?_, rfl, rfl, rfl, rfl⟩
  · show (if game.spawnDelay - 1 / 10 ≤ 3 / 10 then 3 / 10 else game.spawnDelay - 1 / 10) = _
    split_ifs with h
    · exact (max_eq_left h).symm
    · exact (max_eq_right (le_of_lt (not_le.mp h))).symm
  · show (if game.target.speed + 2 / 10 ≥ 7 then 7 else game.target.speed + 2 / 10) = _
    split_ifs with h
    · exact (min_eq_left h).symm
    · exact (min_eq_right (le_of_lt (not_le.mp h))).symm
  · show (if game.secondPathActive = true then _ else _) = _
    split_ifs <;> simp

theorem activateSecondPath_fields (game : Game) :
    (activateSecondPath game).waveActive = game.waveActive
    ∧ (activateSecondPath game).waveNumber = game.waveNumber
    ∧ (activateSecondPath game).spawnDelay = game.spawnDelay
    ∧ (activateSecondPath game).target = game.target
    ∧ (activateSecondPath game).enemiesSpawned = game.enemiesSpawned
    ∧ (activateSecondPath game).waveDelayTimer = game.waveDelayTimer
    ∧ (activateSecondPath game).targets = game.targets
    ∧ (activateSecondPath game).baseEnemiesPerWave = game.baseEnemiesPerWave
    ∧ (activateSecondPath game).secondPathActive
        = (game.secondPathActive || decide (game.waveNumber ≥ 10))
    ∧ (activateSecondPath game).maxEnemies
        = (if game.waveNumber ≥ 10 ∧ game.secondPathActive = false then
            game.baseEnemiesPerWave + (game.waveNumber - 1) * 5 + 10
          else game.maxEnemies) := by
  unfold activateSecondPath
  split_ifs with h
  · simp [h.1, h.2]
  · refine ⟨rfl, rfl, rfl, rfl, rfl, rfl, rfl, rfl, ?_, rfl⟩
    cases hs : game.secondPathActive
    · simp only [not_and_or, hs, not_true_eq_false, or_false] at h
      simp [h]
    · simp

theorem endWave_of_inactive (game : Game) (h : game.waveActive = false) : endWave game = game := by
  unfold endWave
  simp [h]

theorem waveCountdown_of_inactive (game : Game) (dt : ℚ) (h : game.waveActive = false) :
    waveCountdown game dt
      = if game.waveDelayTimer + dt ≥ 5 then
          startNextWave { game with waveDelayTimer := game.waveDelayTimer + dt }
        else { game with waveDelayTimer := game.waveDelayTimer + dt } := by
  unfold waveCountdown
  simp [h]

/-- The wave advance on every state, reached by a run or not: from a state with
`waveActive = false`, when the countdown elapses in this call (`waveDelayTimer + dt >= 5`)
`UpdateWave` increments `waveNumber` by one, sets `spawnDelay` to `max(0.3, spawnDelay - 0.1)`,
the base enemy speed to `min(7.0, speed + 0.2)`, `maxEnemies` to
`baseEnemiesPerWave + (newWaveNumber - 1) * 5` plus 10 when the second path is active after
the call, `enemiesSpawned` to 0 and `waveActive` to true. When the countdown has not elapsed,
`waveNumber`, `spawnDelay`, the base speed, `enemiesSpawned` and `waveActive` are unchanged,
and `maxEnemies` is unchanged unless the second-path activation fires in this call
(`waveNumber >= 10` with the second path inactive), which no state of a run allows between
two waves. -/
theorem UpdateWave_between_waves (game : Game) (dt : ℚ) (hInactive : game.waveActive = false) :
    (game.waveDelayTimer + dt ≥ 5 →
      (UpdateWave game dt).waveNumber = game.waveNumber + 1
      ∧ (UpdateWave game dt).spawnDelay = max (3 / 10) (game.spawnDelay - 1 / 10)
      ∧ (UpdateWave game dt).target.speed = min 7 (game.target.speed + 2 / 10)
      ∧ (UpdateWave game dt).maxEnemies
          = game.baseEnemiesPerWave + ((UpdateWave game dt).waveNumber - 1) * 5
            + (if (UpdateWave game dt).secondPathActive = true then 10 else 0)
      ∧ (UpdateWave game dt).secondPathActive
          = (game.secondPathActive || decide (game.waveNumber ≥ 10))
      ∧ (UpdateWave game dt).enemiesSpawned = 0
      ∧ (UpdateWave game dt).waveActive = true)
    ∧ (game.waveDelayTimer + dt < 5 →
      (UpdateWave game dt).waveNumber = game.waveNumber
      ∧ (UpdateWave game dt).spawnDelay = game.spawnDelay
      ∧ (UpdateWave game dt).target.speed = game.target.speed
      ∧ (UpdateWave game dt).enemiesSpawned = game.enemiesSpawned
      ∧ (UpdateWave game dt).waveActive = false
      ∧ (UpdateWave game dt).maxEnemies
          = (if game.waveNumber ≥ 10 ∧ game.secondPathActive = false then
              game.baseEnemiesPerWave + (game.waveNumber - 1) * 5 + 10
            else game.maxEnemies)) := by
  obtain ⟨a1, a2, a3, a4, a5, a6, _, a8, a9, a10⟩ := activateSecondPath_fields game
  have hA : (activateSecondPath game).waveActive = false := by rw [a1]; exact hInactive
  have hU : UpdateWave game dt = waveCountdown (activateSecondPath game) dt := by
    unfold UpdateWave
    rw [endWave_of_inactive _ hA]
  rw [hU, waveCountdown_of_inactive _ _ hA, a6]
  constructor
  · intro h
    rw [if_pos h]
    obtain ⟨s1, s2, s3, s4, s5, s6, s7, s8⟩ :=
      startNextWave_fields { activateSecondPath game with waveDelayTimer := game.waveDelayTimer + dt }
    refine ⟨?_, ?_, ?_, ?_, ?_, s5, s6⟩
    · rw [s1]; exact congrArg (· + 1) a2
    · rw [s2]; exact congrArg (fun x => max (3 / 10) (x - 1 / 10)) a3
    · rw [s3]; exact congrArg (fun x : Target => min 7 (x.speed + 2 / 10)) a4
    · rw [s4, s1, s7]
      show (activateSecondPath game).baseEnemiesPerWave + _ + _ = _
      rw [a8]
    · rw [s7]; exact a9
  · intro h
    rw [if_neg (not_le.mpr h)]
    exact ⟨a2, a3, congrArg Target.speed a4, a5, hA, a10⟩

theorem endWave_fields (game : Game) :
    (endWave game).waveNumber = game.waveNumber
    ∧ (endWave game).spawnDelay = game.spawnDelay
    ∧ (endWave game).enemiesSpawned = game.enemiesSpawned
    ∧ (endWave game).target = game.target
    ∧ (endWave game).maxEnemies = game.maxEnemies := by
  unfold endWave
  split_ifs <;> exact ⟨rfl, rfl, rfl, rfl, rfl⟩

theorem waveCountdown_of_active (game : Game) (dt : ℚ) (h : game.waveActive = true) :
    waveCountdown game dt = game := by
  unfold waveCountdown
  simp [h]

/-- C2 (amended): from a state with `waveActive = true`, with the quota read after the
second-path activation of the same call, `UpdateWave` ends the wave exactly when the enemy
collection is empty and `enemiesSpawned` has reached the quota. With a frame time below the
5.0 s countdown the wave is then inactive after the call and the countdown timer is `dt`
(reset to 0, then advanced by this frame); with a frame time of 5.0 s or more the countdown
elapses in the same call and the next wave starts at once. If an enemy is left or the quota
is not spawned, `waveActive` stays true and `waveNumber`, `spawnDelay` and `enemiesSpawned`
are unchanged. -/
theorem C2_wave_end (game : Game) (dt : ℚ) (hActive : game.waveActive = true) :
    (dt < 5 →
      ((UpdateWave game dt).waveActive = false
        ↔ (game.targets = [] ∧ game.enemiesSpawned ≥ (activateSecondPath game).maxEnemies)))
    ∧ (game.targets = [] ∧ game.enemiesSpawned ≥ (activateSecondPath game).maxEnemies → dt < 5 →
        (UpdateWave game dt).waveActive = false
        ∧ (UpdateWave game dt).waveDelayTimer = dt
        ∧ (UpdateWave game dt).waveNumber = game.waveNumber)
    ∧ (game.targets = [] ∧ game.enemiesSpawned ≥ (activateSecondPath game).maxEnemies → 5 ≤ dt →
        (UpdateWave game dt).waveActive = true
        ∧ (UpdateWave game dt).waveNumber = game.waveNumber + 1)
    ∧ (¬ (game.targets = [] ∧ game.enemiesSpawned ≥ (activateSecondPath game).maxEnemies) →
        (UpdateWave game dt).waveActive = true
        ∧ (UpdateWave game dt).waveNumber = game.waveNumber
        ∧ (UpdateWave game dt).spawnDelay = game.spawnDelay
        ∧ (UpdateWave game dt).enemiesSpawned = game.enemiesSpawned) := by
  obtain ⟨a1, a2, a3, _, a5, _, a7, _, _, _⟩ := activateSecondPath_fields game
  have hA : (activateSecondPath game).waveActive = true := by rw [a1]; exact hActive
  -- the wave does not end
  have hStay : ¬ (game.targets = [] ∧ game.enemiesSpawned ≥ (activateSecondPath game).maxEnemies) →
      UpdateWave game dt = activateSecondPath game := by
    intro hn
    have hE : endWave (activateSecondPath game) = activateSecondPath game := by
      unfold endWave
      rw [if_neg]
      rw [a7, a5, List.isEmpty_iff]
      exact fun hc => hn hc.2
    unfold UpdateWave
    rw [hE, waveCountdown_of_active _ _ hA]
  -- the wave ends
  have hEnd : (game.targets = [] ∧ game.enemiesSpawned ≥ (activateSecondPath game).maxEnemies) →
      UpdateWave game dt
        = waveCountdown { activateSecondPath game with waveActive := false, waveDelayTimer := 0 } dt := by
    intro hc
    have hE : endWave (activateSecondPath game)
        = { activateSecondPath game with waveActive := false, waveDelayTimer := 0 } := by
      unfold endWave
      rw [if_pos]
      rw [a7, a5, List.isEmpty_iff]
      exact ⟨hA, hc⟩
    unfold UpdateWave
    rw [hE]
  have hShort : (game.targets = [] ∧ game.enemiesSpawned ≥ (activateSecondPath game).maxEnemies) →
      dt < 5 →
        (UpdateWave game dt).waveActive = false
        ∧ (UpdateWave game dt).waveDelayTimer = dt
        ∧ (UpdateWave game dt).waveNumber = game.waveNumber := by
    intro hc hdt
    rw [hEnd hc, waveCountdown_of_inactive _ _ rfl]
    have h0 : ¬ ((0 : ℚ) + dt ≥ 5) := by rw [zero_add]; exact not_le.mpr hdt
    rw [if_neg h0]
    exact ⟨rfl, zero_add dt, a2⟩
  refine ⟨?_, hShort, ?_, ?_⟩
  · intro hdt
    constructor
    · intro hf
      by_contra hn
      rw [hStay hn, hA] at hf
      exact Bool.noConfusion hf
    · intro hc
      exact (hShort hc hdt).1
  · intro hc hdt
    rw [hEnd hc, waveCountdown_of_inactive _ _ rfl]
    have h0 : (0 : ℚ) + dt ≥ 5 := by rw [zero_add]; exact hdt
    rw [if_pos h0]
    obtain ⟨s1, _, _, _, _, s6, _, _⟩ :=
      startNextWave_fields
        { (({ activateSecondPath game with waveActive := false, waveDelayTimer := 0 } : Game)) with
          waveDelayTimer := 0 + dt }
    exact ⟨s6, by rw [s1]; exact congrArg (· + 1) a2⟩
  · intro hn
    rw [hStay hn]
    exact ⟨hA, a2, a3, a5⟩

/-- C2 (witness): the amended statement at the end of wave 1 with a frame time of one second. -/
theorem C2_wave_end_witness :
    waveOneDone.waveActive = true
    ∧ (UpdateWave waveOneDone 1).waveActive = false
    ∧ (UpdateWave waveOneDone 1).waveDelayTimer = 1
    ∧ (UpdateWave waveOneDone 1).waveNumber = waveOneDone.waveNumber :=
  ⟨rfl, (C2_wave_end waveOneDone 1 rfl).2.1 (by decide!) (by decide!)⟩

/-- C2 (counterexample): at the end of wave 1 (no enemy left, quota of 15 spawned) a frame
time of 5.0 s makes `UpdateWave` end the wave and start wave 2 in the same call, so
`waveActive` is true after the call; and in wave 10 with the second-path activation pending,
no enemy left and `enemiesSpawned = maxEnemies = 60`, the wave does not end, because the
quota is first raised to 70. -/
theorem C2_counterexample :
    (waveOneDone.waveActive = true
      ∧ waveOneDone.targets = []
      ∧ waveOneDone.enemiesSpawned ≥ waveOneDone.maxEnemies
      ∧ (UpdateWave waveOneDone 5).waveActive = true
      ∧ (UpdateWave waveOneDone 5).waveNumber = 2)
    ∧ (waveTenQuotaSpawned.waveActive = true
      ∧ waveTenQuotaSpawned.targets = []
      ∧ waveTenQuotaSpawned.enemiesSpawned ≥ waveTenQuotaSpawned.maxEnemies
      ∧ (UpdateWave waveTenQuotaSpawned 1).waveActive = true) := by
  decide!

/-! ## Enemy simulation theorems -/

theorem fencePhase_fields (sqrtf : ℚ → ℚ) (dt : ℚ) (game : Game) (target : Target) :
    (fencePhase sqrtf dt game target).1.allWaypoints = game.allWaypoints
    ∧ (fencePhase sqrtf dt game target).1.contactTimer = game.contactTimer
    ∧ (fencePhase sqrtf dt game target).1.inContact = game.inContact
    ∧ (fencePhase sqrtf dt game target).1.gameOver = game.gameOver
    ∧ (fencePhase sqrtf dt game target).1.towerCount = game.towerCount
    ∧ (fencePhase sqrtf dt game target).1.fenceCount = game.fenceCount
    ∧ (fencePhase sqrtf dt game target).1.towers = game.towers := by
  unfold fencePhase
  simp only
  split_ifs <;> exact ⟨rfl, rfl, rfl, rfl, rfl, rfl, rfl⟩

theorem pathEndReached_congr (g g2 : Game) (t t2 : Target)
    (h1 : g.allWaypoints = g2.allWaypoints) (h2 : g.contactTimer = g2.contactTimer)
    (h3 : t.currentWaypoint = t2.currentWaypoint) (h4 : t.pathIndex = t2.pathIndex) :
    pathEndReached g t = pathEndReached g2 t2 := by
  unfold pathEndReached
  rw [h1, h2, h3, h4]

theorem updateTarget_inContact (sqrtf : ℚ → ℚ) (dt : ℚ) (game : Game) (target : Target) :
    (updateTarget sqrtf dt game target).1.inContact
      = (game.inContact || (target.active && touchesBase sqrtf (updateTarget sqrtf dt game target).2)) := by
  obtain ⟨_, _, f3, _⟩ := fencePhase_fields sqrtf dt game target
  unfold updateTarget
  cases ha : target.active
  · simp
  · simp only [Bool.true_eq_false, if_false, Bool.true_and]
    split_ifs <;> simp_all

theorem updateTarget_allWaypoints (sqrtf : ℚ → ℚ) (dt : ℚ) (game : Game) (target : Target) :
    (updateTarget sqrtf dt game target).1.allWaypoints = game.allWaypoints := by
  obtain ⟨f1, _⟩ := fencePhase_fields sqrtf dt game target
  unfold updateTarget
  cases ha : target.active
  · simp
  · simp only [Bool.true_eq_false, if_false]
    split_ifs <;> exact f1

theorem updateTarget_gameOver (sqrtf : ℚ → ℚ) (dt : ℚ) (game : Game) (target : Target) :
    (updateTarget sqrtf dt game target).1.gameOver
      = (game.gameOver
          || (target.active && pathEndReached game (updateTarget sqrtf dt game target).2)) := by
  obtain ⟨f1, f2, _, f4, _⟩ := fencePhase_fields sqrtf dt game target
  unfold updateTarget
  cases ha : target.active
  · simp
  · simp only [Bool.true_eq_false, if_false, Bool.true_and]
    split_ifs <;> simp_all [pathEndReached]

theorem updateTarget_ended_inactive (sqrtf : ℚ → ℚ) (dt : ℚ) (game : Game) (target : Target)
    (ha : target.active = true)
    (he : pathEndReached game (updateTarget sqrtf dt game target).2 = true) :
    (updateTarget sqrtf dt game target).2.active = false := by
  obtain ⟨f1, f2, _⟩ := fencePhase_fields sqrtf dt game target
  unfold updateTarget at he ⊢
  simp only [ha, Bool.true_eq_false, if_false] at he ⊢
  by_cases hE : pathEndReached (fencePhase sqrtf dt game target).1
      (moveTarget sqrtf dt (fencePhase sqrtf dt game target).1.allWaypoints
        (fencePhase sqrtf dt game target).2) = true
  · simp only [hE, if_true]
  · exfalso
    simp only [hE, if_false] at he
    rw [pathEndReached_congr _ game _ _ f1 f2 rfl rfl] at hE
    exact hE he

theorem targetsLoop_inContact (sqrtf : ℚ → ℚ) (dt : ℚ) (targets : List Target) (game : Game) :
    (targetsLoop sqrtf dt game targets).1.inContact = true
      ↔ (game.inContact = true
          ∨ ∃ p ∈ List.zip targets (targetsLoop sqrtf dt game targets).2,
              p.1.active = true ∧ touchesBase sqrtf p.2 = true) := by
  induction targets generalizing game with
  | nil => simp [targetsLoop]
  | cons target rest ih =>
    simp only [targetsLoop, List.zip_cons_cons, List.mem_cons, exists_eq_or_imp]
    rw [ih, updateTarget_inContact]
    simp only [Bool.or_eq_true, Bool.and_eq_true]
    tauto

theorem targetsLoop_allWaypoints (sqrtf : ℚ → ℚ) (dt : ℚ) (targets : List Target) (game : Game) :
    (targetsLoop sqrtf dt game targets).1.allWaypoints = game.allWaypoints := by
  induction targets generalizing game with
  | nil => rfl
  | cons target rest ih =>
    simp only [targetsLoop]
    rw [ih, updateTarget_allWaypoints]

theorem targetsLoop_gameOver (sqrtf : ℚ → ℚ) (dt : ℚ) (targets : List Target) (game : Game) :
    (targetsLoop sqrtf dt game targets).1.gameOver = true →
      (game.gameOver = true
        ∨ ∃ p ∈ List.zip targets (targetsLoop sqrtf dt game targets).2,
            p.1.active = true ∧ p.2.active = false
            ∧ ltSize p.2.currentWaypoint (vecAt game.allWaypoints p.2.pathIndex []).length = false) := by
  induction targets generalizing game with
  | nil => simp [targetsLoop]
  | cons target rest ih =>
    simp only [targetsLoop, List.zip_cons_cons, List.mem_cons, exists_eq_or_imp]
    intro h
    rcases ih _ h with h1 | ⟨p, hp, h2⟩
    · rw [updateTarget_gameOver] at h1
      simp only [Bool.or_eq_true, Bool.and_eq_true] at h1
      rcases h1 with h1 | ⟨h1, h3⟩
      · exact Or.inl h1
      · refine Or.inr (Or.inl ⟨h1, ?_, ?_⟩)
        · exact updateTarget_ended_inactive sqrtf dt game target h1 h3
        · simp only [pathEndReached, Bool.and_eq_true, Bool.not_eq_true'] at h3
          exact h3.1
    · rw [updateTarget_allWaypoints] at h2
      exact Or.inr (Or.inr ⟨p, hp, h2⟩)

theorem baseContactStep_targets (game : Game) (dt : ℚ) :
    (baseContactStep game dt).targets = game.targets := by
  unfold baseContactStep
  simp only
  split_ifs <;> rfl

theorem baseContactStep_fields (game : Game) (dt : ℚ) :
    (baseContactStep game dt).inContact = game.inContact
    ∧ (game.inContact = false → (baseContactStep game dt).contactTimer = 0)
    ∧ (game.inContact = true → (baseContactStep game dt).contactTimer ≤ 2)
    ∧ ((baseContactStep game dt).gameOver = true →
        game.gameOver = true ∨ (game.inContact = true ∧ (baseContactStep game dt).contactTimer = 2))
    ∧ ((baseContactStep game dt).contactTimer = 2 → (baseContactStep game dt).gameOver = true) := by
  unfold baseContactStep
  cases hc : game.inContact
  · simp
  · simp only [if_true]
    split_ifs with h
    · simp
    · have h2 : game.contactTimer + dt < 2 := not_le.mp h
      refine ⟨rfl, by simp, fun _ => le_of_lt h2, fun hg => Or.inl hg, fun he => ?_⟩
      exact absurd he (ne_of_lt h2)

/-- C6: after every `UpdateTargets` pass, the `inContact` flag is set exactly when some enemy
that was active at the start of the pass is within `radius + 0.25` of the base at its position
of this pass; `contactTimer` is 0 when there is no such enemy and at most 2.0 otherwise;
`gameOver` is true after the pass only if it was true before, or an enemy with no waypoint
left was deactivated by the path-end rule, or an enemy is in contact and `contactTimer` has
reached 2.0; and whenever `contactTimer` is 2.0 after the pass, `gameOver` is true. -/
theorem C6_base_contact (sqrtf : ℚ → ℚ) (game : Game) (dt : ℚ) :
    ((UpdateTargets sqrtf game dt).inContact = true
      ↔ ∃ p ∈ List.zip game.targets (UpdateTargets sqrtf game dt).targets,
          p.1.active = true ∧ touchesBase sqrtf p.2 = true)
    ∧ ((UpdateTargets sqrtf game dt).inContact = false →
        (UpdateTargets sqrtf game dt).contactTimer = 0)
    ∧ ((UpdateTargets sqrtf game dt).inContact = true →
        (UpdateTargets sqrtf game dt).contactTimer ≤ 2)
    ∧ ((UpdateTargets sqrtf game dt).gameOver = true →
        game.gameOver = true
        ∨ (∃ p ∈ List.zip game.targets (UpdateTargets sqrtf game dt).targets,
            p.1.active = true ∧ p.2.active = false
            ∧ ltSize p.2.currentWaypoint (vecAt game.allWaypoints p.2.pathIndex []).length = false)
        ∨ ((UpdateTargets sqrtf game dt).inContact = true
            ∧ (UpdateTargets sqrtf game dt).contactTimer = 2))
    ∧ ((UpdateTargets sqrtf game dt).contactTimer = 2 →
        (UpdateTargets sqrtf game dt).gameOver = true) := by
  obtain ⟨b1, b2, b3, b4, b5⟩ := baseContactStep_fields (targetsPass sqrtf game dt) dt
  have hT : (UpdateTargets sqrtf game dt).targets
      = (targetsLoop sqrtf dt { game with inContact := false } game.targets).2 :=
    baseContactStep_targets (targetsPass sqrtf game dt) dt
  have hI : (UpdateTargets sqrtf game dt).inContact
      = (targetsLoop sqrtf dt { game with inContact := false } game.targets).1.inContact := b1
  have hG : (targetsPass sqrtf game dt).gameOver
      = (targetsLoop sqrtf dt { game with inContact := false } game.targets).1.gameOver := rfl
  refine ⟨?_, ?_, ?_, ?_, b5⟩
  · rw [hI, hT, targetsLoop_inContact]
    simp
  · intro h
    exact b2 (b1 ▸ h)
  · intro h
    exact b3 (b1 ▸ h)
  · intro h
    rcases b4 h with h1 | ⟨h1, h2⟩
    · rw [hG] at h1
      rcases targetsLoop_gameOver sqrtf dt _ _ h1 with h3 | h3
      · exact Or.inl h3
      · rw [hT]
        exact Or.inr (Or.inl h3)
    · exact Or.inr (Or.inr ⟨b1.symm ▸ h1, h2⟩)

/-- C3 (code at the failing input): two fences stand at slot 1 and both touch the one enemy,
whose contact timer is 2.98 s. In a frame of 0.02 s the inner fence loop lets the timer reach
the limit at the first fence (enemy deactivated, one coin) and, without looking at the
`active` flag, pays a second coin at the second fence: one enemy is deactivated and the
coins go up by 2. -/
theorem C3_double_coin :
    doubleFenceState.targets.length = 1
    ∧ (doubleFenceState.targets.filter (fun t => t.active)).length = 1
    ∧ ((UpdateTargets sqrtExact doubleFenceState (1 / 50)).targets.filter (fun t => !t.active)).length = 1
    ∧ (UpdateTargets sqrtExact doubleFenceState (1 / 50)).coins = doubleFenceState.coins + 2 := by
  decide!

/-- C4 (code at the failing input): after the first wave transition since reset the base
enemy speed is 3.2, and the enemy that `SpawnEnemies` emits next has speed 3.0, because
`SpawnEnemies` overwrites the base speed with 3.0 before it copies the enemy. -/
theorem C4_spawn_speed_unscaled :
    (UpdateWave resetWaveOneDone 5).waveNumber = 2
    ∧ (UpdateWave resetWaveOneDone 5).target.speed = 16 / 5
    ∧ (SpawnEnemies (UpdateWave resetWaveOneDone 5) 1).targets.map Target.speed = [3]
    ∧ (SpawnEnemies (UpdateWave resetWaveOneDone 5) 1).target.speed = 3 := by
  decide!

/-- C5 (code at the failing input): a single enemy touches the base, the contact timer is 0
and the frame time is 0.5 s. After one pass the timer is 1.0, not 0.5, because the pass adds
the frame time once for the touching enemy inside the loop and once more after the loop;
after the second pass, that is after 1.0 s of contact, `gameOver` is set. -/
theorem C5_contact_timer_double :
    touchesBase sqrtExact enemyAtBase = true
    ∧ (UpdateTargets sqrtExact baseContactState (1 / 2)).contactTimer = 1
    ∧ (UpdateTargets sqrtExact baseContactState (1 / 2)).contactTimer
        ≠ min 2 (baseContactState.contactTimer + 1 / 2)
    ∧ (UpdateTargets sqrtExact baseContactState (1 / 2)).gameOver = false
    ∧ (UpdateTargets sqrtExact (UpdateTargets sqrtExact baseContactState (1 / 2)) (1 / 2)).gameOver
        = true := by
  decide!

/-- C7 (code at the failing input): a fence that an earlier enemy touched keeps its
`fenceInContact` flag, which no line of the program clears. In a pass where the only enemy is
active and touches no fence, the reset of line 421 skips that fence: it stays active with its
contact timer at 1.0 instead of 0. -/
theorem C7_stale_timer_kept :
    staleFenceState.targets.map Target.active = [true]
    ∧ touchesFence sqrtExact farEnemy staleFence = false
    ∧ ((UpdateTargets sqrtExact staleFenceState (1 / 10)).targets.map
        (fun t => touchesFence sqrtExact t staleFence)) = [false]
    ∧ ((UpdateTargets sqrtExact staleFenceState (1 / 10)).fences.map
        (fun f => (f.fenceActive, f.fenceContactTimer))) = [(true, 1)] := by
  decide!

/-! ## Fields that the simulation stages leave alone -/

theorem UpdateWave_static (game : Game) (dt : ℚ) :
    (UpdateWave game dt).towerCount = game.towerCount
    ∧ (UpdateWave game dt).fenceCount = game.fenceCount
    ∧ (UpdateWave game dt).towers = game.towers := by
  unfold UpdateWave waveCountdown endWave activateSecondPath startNextWave
  simp only
  split_ifs <;> exact ⟨rfl, rfl, rfl⟩

theorem SpawnEnemies_static (game : Game) (dt : ℚ) :
    (SpawnEnemies game dt).towerCount = game.towerCount
    ∧ (SpawnEnemies game dt).fenceCount = game.fenceCount
    ∧ (SpawnEnemies game dt).towers = game.towers := by
  unfold SpawnEnemies
  simp only
  split_ifs <;> exact ⟨rfl, rfl, rfl⟩

theorem updateTarget_static (sqrtf : ℚ → ℚ) (dt : ℚ) (game : Game) (target : Target) :
    (updateTarget sqrtf dt game target).1.towerCount = game.towerCount
    ∧ (updateTarget sqrtf dt game target).1.fenceCount = game.fenceCount
    ∧ (updateTarget sqrtf dt game target).1.towers = game.towers := by
  obtain ⟨_, _, _, _, f5, f6, f7⟩ := fencePhase_fields sqrtf dt game target
  unfold updateTarget
  simp only
  split_ifs <;> first | exact ⟨rfl, rfl, rfl⟩ | exact ⟨f5, f6, f7⟩

theorem targetsLoop_static (sqrtf : ℚ → ℚ) (dt : ℚ) (targets : List Target) (game : Game) :
    (targetsLoop sqrtf dt game targets).1.towerCount = game.towerCount
    ∧ (targetsLoop sqrtf dt game targets).1.fenceCount = game.fenceCount
    ∧ (targetsLoop sqrtf dt game targets).1.towers = game.towers := by
  induction targets generalizing game with
  | nil => exact ⟨rfl, rfl, rfl⟩
  | cons target rest ih =>
    obtain ⟨u1, u2, u3⟩ := updateTarget_static sqrtf dt game target
    obtain ⟨i1, i2, i3⟩ := ih (updateTarget sqrtf dt game target).1
    simp only [targetsLoop]
    exact ⟨i1.trans u1, i2.trans u2, i3.trans u3⟩

theorem UpdateTargets_static (sqrtf : ℚ → ℚ) (game : Game) (dt : ℚ) :
    (UpdateTargets sqrtf game dt).towerCount = game.towerCount
    ∧ (UpdateTargets sqrtf game dt).fenceCount = game.fenceCount
    ∧ (UpdateTargets sqrtf game dt).towers = game.towers := by
  obtain ⟨i1, i2, i3⟩ := targetsLoop_static sqrtf dt game.targets { game with inContact := false }
  unfold UpdateTargets baseContactStep targetsPass
  simp only
  split_ifs <;> exact ⟨i1, i2, i3⟩

theorem updateTower_level (sqrtf : ℚ → ℚ) (dt : ℚ) (targets : List Target)
    (missiles : List Missile) (tower : Tower) :
    (updateTower sqrtf dt targets missiles tower).2.upgradeLevel = tower.upgradeLevel := by
  unfold updateTower
  simp only
  split_ifs <;> rfl

theorem towersLoop_levels (sqrtf : ℚ → ℚ) (dt : ℚ) (targets : List Target) (towers : List Tower)
    (missiles : List Missile) (h : LevelsBounded towers) :
    LevelsBounded (towersLoop sqrtf dt targets missiles towers).2 := by
  induction towers generalizing missiles with
  | nil => intro x hx; simp [towersLoop] at hx
  | cons tower rest ih =>
    intro x hx
    simp only [towersLoop, List.mem_cons] at hx
    rcases hx with hx | hx
    · rw [hx, updateTower_level]
      exact h tower (List.mem_cons_self _ _)
    · exact ih _ (fun y hy => h y (List.mem_cons_of_mem _ hy)) x hx

theorem compact_static (game : Game) :
    (compact game).towerCount = game.towerCount
    ∧ (compact game).fenceCount ≤ game.fenceCount
    ∧ (compact game).towers = game.towers := by
  unfold compact
  refine ⟨rfl, ?_, rfl⟩
  simp only
  omega

theorem UpdateGame_static (sqrtf : ℚ → ℚ) (game : Game) (dt : ℚ) :
    (UpdateGame sqrtf game dt).towerCount = game.towerCount
    ∧ (UpdateGame sqrtf game dt).fenceCount ≤ game.fenceCount
    ∧ (LevelsBounded game.towers → LevelsBounded (UpdateGame sqrtf game dt).towers) := by
  unfold UpdateGame
  split_ifs with h
  · exact ⟨rfl, le_refl _, fun hb => hb⟩
  · obtain ⟨w1, w2, w3⟩ := UpdateWave_static game dt
    obtain ⟨s1, s2, s3⟩ := SpawnEnemies_static (UpdateWave game dt) dt
    obtain ⟨t1, t2, t3⟩ := UpdateTargets_static sqrtf (SpawnEnemies (UpdateWave game dt) dt) dt
    obtain ⟨c1, c2, c3⟩ := compact_static (missileCollisions sqrtf
      (UpdateTowers sqrtf (UpdateFences (UpdateTargets sqrtf (SpawnEnemies (UpdateWave game dt) dt) dt)) dt) dt)
    simp only [UpdateMissiles]
    refine ⟨?_, ?_, ?_⟩
    · rw [c1]
      show (UpdateTargets sqrtf (SpawnEnemies (UpdateWave game dt) dt) dt).towerCount = _
      rw [t1, s1, w1]
    · refine le_trans c2 (le_of_eq ?_)
      show (UpdateTargets sqrtf (SpawnEnemies (UpdateWave game dt) dt) dt).fenceCount = _
      rw [t2, s2, w2]
    · intro hb
      rw [c3]
      show LevelsBounded (towersLoop sqrtf dt _ _
        (UpdateTargets sqrtf (SpawnEnemies (UpdateWave game dt) dt) dt).towers).2
      rw [t3, s3, w3]
      exact towersLoop_levels sqrtf dt _ _ _ hb

/-! ## Input handling theorems -/

theorem upgradeLoop_first (pre post : List Tower) (t : Tower) (coins : Int)
    (hpre : ∀ x ∈ pre, ¬ x.upgradeLevel < 3) (ht : t.upgradeLevel < 3) :
    upgradeLoop (pre ++ t :: post) coins
      = (pre ++ upgradeTower t :: post, payCost coins 50) := by
  induction pre with
  | nil => simp [upgradeLoop, ht]
  | cons p rest ih =>
    have hp : ¬ p.upgradeLevel < 3 := hpre p (List.mem_cons_self _ _)
    have ih2 := ih (fun x hx => hpre x (List.mem_cons_of_mem _ hx))
    show upgradeLoop (p :: (rest ++ t :: post)) coins = _
    simp only [upgradeLoop, hp, if_false, ih2, List.cons_append]

theorem upgradeLoop_none (towers : List Tower) (coins : Int)
    (h : ∀ x ∈ towers, ¬ x.upgradeLevel < 3) :
    upgradeLoop towers coins = (towers, coins) := by
  induction towers with
  | nil => rfl
  | cons p rest ih =>
    have hp : ¬ p.upgradeLevel < 3 := h p (List.mem_cons_self _ _)
    have ih2 := ih (fun x hx => h x (List.mem_cons_of_mem _ hx))
    simp only [upgradeLoop, hp, if_false, ih2]

theorem upgradeLoop_levels (towers : List Tower) (coins : Int) (h : LevelsBounded towers) :
    LevelsBounded (upgradeLoop towers coins).1 := by
  induction towers with
  | nil => exact h
  | cons p rest ih =>
    have ih2 := ih (fun x hx => h x (List.mem_cons_of_mem _ hx))
    intro x hx
    simp only [upgradeLoop] at hx
    split_ifs at hx with hp
    · simp only [List.mem_cons] at hx
      rcases hx with hx | hx
      · rw [hx]
        show p.upgradeLevel + 1 ≤ 3
        omega
      · exact h x (List.mem_cons_of_mem _ hx)
    · simp only [List.mem_cons] at hx
      rcases hx with hx | hx
      · rw [hx]; exact h p (List.mem_cons_self _ _)
      · exact ih2 x hx

theorem upgradeLoop_coins_le (towers : List Tower) (coins : Int) :
    (upgradeLoop towers coins).2 = coins
      ∨ (upgradeLoop towers coins).2 = payCost coins 50 := by
  induction towers with
  | nil => exact Or.inl rfl
  | cons p rest ih =>
    simp only [upgradeLoop]
    split_ifs
    · exact Or.inr rfl
    · exact ih

theorem any_upgradable_iff (towers : List Tower) :
    towers.any (fun tower => decide (tower.upgradeLevel < 3)) = true
      ↔ ∃ x ∈ towers, x.upgradeLevel < 3 := by
  simp [List.any_eq_true]

theorem buildOrUpgradeTower_poor (game : Game) (h : game.coins < 50) :
    buildOrUpgradeTower game = game := by
  unfold buildOrUpgradeTower
  rw [if_neg (not_le.mpr h)]

theorem buildOrUpgradeTower_upgrade (game : Game) (hc : game.coins ≥ 50) (ht : ¬ game.towerCount < 4) :
    (buildOrUpgradeTower game).towers
        = (if (∃ x ∈ game.towers, x.upgradeLevel < 3) then (upgradeLoop game.towers game.coins).1
            else game.towers)
    ∧ (buildOrUpgradeTower game).coins
        = (if (∃ x ∈ game.towers, x.upgradeLevel < 3) then (upgradeLoop game.towers game.coins).2
            else game.coins)
    ∧ (buildOrUpgradeTower game).towerCount = game.towerCount
    ∧ (buildOrUpgradeTower game).fenceCount = game.fenceCount
    ∧ (buildOrUpgradeTower game).fences = game.fences := by
  unfold buildOrUpgradeTower
  rw [if_pos hc, if_neg ht]
  by_cases hex : ∃ x ∈ game.towers, x.upgradeLevel < 3
  · have hany := (any_upgradable_iff game.towers).mpr hex
    rw [if_pos hex, if_pos hex]
    simp [hany]
  · have hany : ¬ (game.towers.any (fun tower => decide (tower.upgradeLevel < 3)) = true) :=
      fun h => hex ((any_upgradable_iff game.towers).mp h)
    rw [if_neg hex, if_neg hex]
    simp [hany]

theorem buildOrUpgradeTower_static (game : Game) :
    ((buildOrUpgradeTower game).towerCount = game.towerCount
      ∨ (game.towerCount < 4 ∧ (buildOrUpgradeTower game).towerCount = game.towerCount + 1))
    ∧ (buildOrUpgradeTower game).fenceCount = game.fenceCount
    ∧ (buildOrUpgradeTower game).fences = game.fences
    ∧ (LevelsBounded game.towers → LevelsBounded (buildOrUpgradeTower game).towers) := by
  by_cases hc : game.coins ≥ 50
  · by_cases ht : game.towerCount < 4
    · unfold buildOrUpgradeTower
      rw [if_pos hc, if_pos ht]
      refine ⟨Or.inr ⟨ht, rfl⟩, rfl, rfl, ?_⟩
      intro hb x hx
      simp only [List.mem_append, List.mem_singleton] at hx
      rcases hx with hx | hx
      · exact hb x hx
      · rw [hx]
        show (0 : Int) ≤ 3
        omega
    · obtain ⟨u1, _, u3, u4, u5⟩ := buildOrUpgradeTower_upgrade game hc ht
      refine ⟨Or.inl u3, u4, u5, ?_⟩
      intro hb
      rw [u1]
      split_ifs
      · exact upgradeLoop_levels _ _ hb
      · exact hb
  · rw [buildOrUpgradeTower_poor game (not_le.mp hc)]
    exact ⟨Or.inl rfl, rfl, rfl, fun hb => hb⟩

theorem buildFence_blocked (game : Game)
    (h : game.coins < 20 ∨ game.towerCount ≠ 4 ∨ game.fenceCount ≥ 4) :
    buildFence game = game := by
  unfold buildFence
  rw [if_neg]
  rintro ⟨h1, h2, h3⟩
  rcases h with h | h | h
  · exact absurd h1 (not_le.mpr h)
  · exact h h2
  · exact absurd h3 (not_lt.mpr h)

theorem buildFence_static (game : Game) :
    (buildFence game).towerCount = game.towerCount
    ∧ (buildFence game).towers = game.towers
    ∧ ((buildFence game).fenceCount = game.fenceCount
      ∨ (game.fenceCount < 4 ∧ (buildFence game).fenceCount = game.fenceCount + 1)) := by
  unfold buildFence
  split_ifs with h
  · exact ⟨rfl, rfl, Or.inr ⟨h.2.2, rfl⟩⟩
  · exact ⟨rfl, rfl, Or.inl rfl⟩

theorem shoot_static (sqrtf : ℚ → ℚ) (game : Game) :
    (shoot sqrtf game).towerCount = game.towerCount
    ∧ (shoot sqrtf game).fenceCount = game.fenceCount
    ∧ (shoot sqrtf game).towers = game.towers
    ∧ (shoot sqrtf game).fences = game.fences
    ∧ (shoot sqrtf game).coins = game.coins :=
  ⟨rfl, rfl, rfl, rfl, rfl⟩

theorem pauseToggle_static (game : Game) (input : Input) :
    (pauseToggle game input).towerCount = game.towerCount
    ∧ (pauseToggle game input).fenceCount = game.fenceCount
    ∧ (pauseToggle game input).towers = game.towers
    ∧ (pauseToggle game input).fences = game.fences
    ∧ (pauseToggle game input).coins = game.coins := by
  unfold pauseToggle
  simp only
  split_ifs <;> exact ⟨rfl, rfl, rfl, rfl, rfl⟩

theorem actions_static (sqrtf : ℚ → ℚ) (game : Game) (input : Input) :
    game.towerCount ≤ (actions sqrtf game input).towerCount
    ∧ (game.towerCount ≤ 4 → (actions sqrtf game input).towerCount ≤ 4)
    ∧ (game.fenceCount ≤ 4 → (actions sqrtf game input).fenceCount ≤ 4)
    ∧ (LevelsBounded game.towers → LevelsBounded (actions sqrtf game input).towers) := by
  have key : ∀ g1 : Game, g1.towerCount = game.towerCount → g1.fenceCount = game.fenceCount →
      g1.towers = game.towers →
      ∀ g2 : Game, (g2 = g1 ∨ g2 = buildOrUpgradeTower g1) →
      ∀ g3 : Game, (g3 = g2 ∨ g3 = buildFence g2) →
        game.towerCount ≤ g3.towerCount
        ∧ (game.towerCount ≤ 4 → g3.towerCount ≤ 4)
        ∧ (game.fenceCount ≤ 4 → g3.fenceCount ≤ 4)
        ∧ (LevelsBounded game.towers → LevelsBounded g3.towers) := by
    intro g1 e1 e2 e3 g2 h2 g3 h3
    obtain ⟨b1, b2, _, b4⟩ := buildOrUpgradeTower_static g1
    obtain ⟨f1, f2, f3⟩ := buildFence_static g2
    have t2 : game.towerCount ≤ g2.towerCount ∧ (game.towerCount ≤ 4 → g2.towerCount ≤ 4) := by
      rcases h2 with h2 | h2
      · rw [h2, e1]; exact ⟨le_refl _, fun h => h⟩
      · rw [h2]
        rcases b1 with b1 | ⟨b0, b1⟩
        · rw [b1, e1]; exact ⟨le_refl _, fun h => h⟩
        · rw [b1, ← e1]; exact ⟨by omega, fun _ => by omega⟩
    have c2 : g2.fenceCount = game.fenceCount := by
      rcases h2 with h2 | h2
      · rw [h2, e2]
      · rw [h2, b2, e2]
    have l2 : LevelsBounded game.towers → LevelsBounded g2.towers := by
      intro hb
      rcases h2 with h2 | h2
      · rw [h2, e3]; exact hb
      · rw [h2]; exact b4 (e3 ▸ hb)
    rcases h3 with h3 | h3
    · rw [h3]
      exact ⟨t2.1, t2.2, fun h => c2 ▸ h, l2⟩
    · rw [h3, f1, f2]
      refine ⟨t2.1, t2.2, ?_, l2⟩
      intro h
      rcases f3 with f3 | ⟨f0, f3⟩
      · rw [f3, c2]; exact h
      · rw [f3]; omega
  refine key (if input.keySpace = true then shoot sqrtf game else game) ?_ ?_ ?_
    (if input.keyT = true then
      buildOrUpgradeTower (if input.keySpace = true then shoot sqrtf game else game)
      else (if input.keySpace = true then shoot sqrtf game else game)) ?_
    (actions sqrtf game input) ?_
  · split_ifs <;> rfl
  · split_ifs <;> rfl
  · split_ifs <;> rfl
  · split_ifs <;> first | exact Or.inl rfl | exact Or.inr rfl
  · unfold actions
    simp only
    split_ifs <;> first | exact Or.inl rfl | exact Or.inr rfl

theorem HandleInput_static (sqrtf : ℚ → ℚ) (game : Game) (input : Input) :
    (game.towerCount ≤ 4 → (HandleInput sqrtf game input).towerCount ≤ 4)
    ∧ (game.fenceCount ≤ 4 → (HandleInput sqrtf game input).fenceCount ≤ 4)
    ∧ (LevelsBounded game.towers → LevelsBounded (HandleInput sqrtf game input).towers) := by
  obtain ⟨p1, p2, p3, _, _⟩ := pauseToggle_static game input
  obtain ⟨_, a2, a3, a4⟩ := actions_static sqrtf (pauseToggle game input) input
  unfold HandleInput
  simp only
  split_ifs
  · exact ⟨fun h => p1 ▸ h, fun h => p2 ▸ h, fun h => p3 ▸ h⟩
  · exact ⟨fun h => a2 (p1 ▸ h), fun h => a3 (p2 ▸ h), fun h => a4 (p3 ▸ h)⟩

theorem step_bounds (sqrtf : ℚ → ℚ) (game : Game) (event : Event) :
    (game.towerCount ≤ 4 → (step sqrtf game event).towerCount ≤ 4)
    ∧ (game.fenceCount ≤ 4 → (step sqrtf game event).fenceCount ≤ 4)
    ∧ (LevelsBounded game.towers → LevelsBounded (step sqrtf game event).towers) := by
  cases event with
  | input i => exact HandleInput_static sqrtf game i
  | update dt =>
    obtain ⟨u1, u2, u3⟩ := UpdateGame_static sqrtf game dt
    exact ⟨fun h => by show (UpdateGame sqrtf game dt).towerCount ≤ 4; rw [u1]; exact h,
      fun h => le_trans u2 h, u3⟩
  | reset =>
    refine ⟨fun _ => ?_, fun _ => ?_, fun _ => ?_⟩
    · show (0 : Int) ≤ 4
      omega
    · show (0 : Int) ≤ 4
      omega
    · intro x hx
      exact absurd hx (List.not_mem_nil x)

theorem run_bounds (sqrtf : ℚ → ℚ) (events : List Event) (game : Game)
    (h1 : game.towerCount ≤ 4) (h2 : game.fenceCount ≤ 4) (h3 : LevelsBounded game.towers) :
    (run sqrtf game events).towerCount ≤ 4
    ∧ (run sqrtf game events).fenceCount ≤ 4
    ∧ LevelsBounded (run sqrtf game events).towers := by
  induction events generalizing game with
  | nil => exact ⟨h1, h2, h3⟩
  | cons event rest ih =>
    obtain ⟨s1, s2, s3⟩ := step_bounds sqrtf game event
    exact ih (step sqrtf game event) (s1 h1) (s2 h2) (s3 h3)

theorem ResetGame_bounds (game : Game) :
    (ResetGame game).towerCount ≤ 4 ∧ (ResetGame game).fenceCount ≤ 4
    ∧ LevelsBounded (ResetGame game).towers := by
  refine ⟨?_, ?_, ?_⟩
  · show (0 : Int) ≤ 4
    omega
  · show (0 : Int) ≤ 4
    omega
  · intro x hx
    exact absurd hx (List.not_mem_nil x)

theorem initialGame_bounds :
    initialGame.towerCount ≤ 4 ∧ initialGame.fenceCount ≤ 4 ∧ LevelsBounded initialGame.towers :=
  ⟨by decide, by decide, fun x hx => absurd hx (List.not_mem_nil x)⟩

theorem HandleInput_fence_only (sqrtf : ℚ → ℚ) (game : Game) (input : Input)
    (hT : input.keyT = false) (hB : buildFence game = game) :
    (HandleInput sqrtf game input).fences = game.fences
    ∧ (HandleInput sqrtf game input).fenceCount = game.fenceCount
    ∧ (HandleInput sqrtf game input).coins = game.coins := by
  obtain ⟨p1, p2, _, p4, p5⟩ := pauseToggle_static game input
  have hcond : ¬ ((pauseToggle game input).coins ≥ 20 ∧ (pauseToggle game input).towerCount = 4
      ∧ (pauseToggle game input).fenceCount < 4) := by
    rw [p5, p1, p2]
    intro hc
    have h2 := congrArg Game.fenceCount hB
    unfold buildFence at h2
    rw [if_pos hc] at h2
    have h3 : game.fenceCount + 1 = game.fenceCount := h2
    omega
  have hA : ∀ g : Game, g.coins = (pauseToggle game input).coins →
      g.towerCount = (pauseToggle game input).towerCount →
      g.fenceCount = (pauseToggle game input).fenceCount →
      (if input.keyF = true then buildFence g else g) = g := by
    intro g e1 e2 e3
    split_ifs
    · unfold buildFence
      rw [if_neg]
      rw [e1, e2, e3]
      exact hcond
    · rfl
  unfold HandleInput
  simp only
  split_ifs
  · exact ⟨p4, p2, p5⟩
  · unfold actions
    simp only [hT, Bool.false_eq_true, if_false]
    rw [hA]
    · split_ifs <;> exact ⟨p4, p2, p5⟩
    · split_ifs <;> rfl
    · split_ifs <;> rfl
    · split_ifs <;> rfl

theorem HandleInput_tower_only (sqrtf : ℚ → ℚ) (game : Game) (input : Input)
    (hF : input.keyF = false) (hB : game.coins < 50) :
    (HandleInput sqrtf game input).towers = game.towers
    ∧ (HandleInput sqrtf game input).towerCount = game.towerCount
    ∧ (HandleInput sqrtf game input).coins = game.coins := by
  obtain ⟨p1, _, p3, _, p5⟩ := pauseToggle_static game input
  have hA : ∀ g : Game, g.coins = (pauseToggle game input).coins →
      (if input.keyT = true then buildOrUpgradeTower g else g) = g := by
    intro g e1
    split_ifs
    · exact buildOrUpgradeTower_poor g (by rw [e1, p5]; exact hB)
    · rfl
  unfold HandleInput
  simp only
  split_ifs
  · exact ⟨p3, p1, p5⟩
  · unfold actions
    simp only [hF, Bool.false_eq_true, if_false]
    rw [hA]
    · split_ifs <;> exact ⟨p3, p1, p5⟩
    · split_ifs <;> rfl

/-- C8: in every state reached from a reset state (and from the state after
`InitializeGame`) by any sequence of `HandleInput` calls with any keys, `UpdateGame` frames
and resets, `towerCount <= 4` and `fenceCount <= 4`; the build-fence action changes the fence
collection only when `towerCount == 4`, and with `towerCount != 4` it leaves the whole state,
in particular fences, `fenceCount` and coins, unchanged, also as the `KEY_F` press of a
`HandleInput` call in which `KEY_T` is not pressed. -/
theorem C8_purchase_caps (sqrtf : ℚ → ℚ) (game0 : Game) (events : List Event) :
    (run sqrtf (ResetGame game0) events).towerCount ≤ 4
    ∧ (run sqrtf (ResetGame game0) events).fenceCount ≤ 4
    ∧ (run sqrtf initialGame events).towerCount ≤ 4
    ∧ (run sqrtf initialGame events).fenceCount ≤ 4
    ∧ (∀ game : Game, (buildFence game).fences ≠ game.fences → game.towerCount = 4)
    ∧ (∀ game : Game, game.towerCount ≠ 4 → buildFence game = game)
    ∧ (∀ (game : Game) (input : Input), input.keyT = false → game.towerCount ≠ 4 →
        (HandleInput sqrtf game input).fences = game.fences
        ∧ (HandleInput sqrtf game input).fenceCount = game.fenceCount
        ∧ (HandleInput sqrtf game input).coins = game.coins) := by
  obtain ⟨r1, r2, r3⟩ := ResetGame_bounds game0
  obtain ⟨a1, a2, _⟩ := run_bounds sqrtf events (ResetGame game0) r1 r2 r3
  obtain ⟨i1, i2, i3⟩ := initialGame_bounds
  obtain ⟨b1, b2, _⟩ := run_bounds sqrtf events initialGame i1 i2 i3
  refine ⟨a1, a2, b1, b2, ?_, ?_, ?_⟩
  · intro game hne
    by_contra h4
    exact hne (congrArg Game.fences (buildFence_blocked game (Or.inr (Or.inl h4))))
  · intro game h4
    exact buildFence_blocked game (Or.inr (Or.inl h4))
  · intro game input hT h4
    exact HandleInput_fence_only sqrtf game input hT (buildFence_blocked game (Or.inr (Or.inl h4)))

/-- C9: a state with `coins < 50` is returned unchanged by the build-or-upgrade-tower action,
and a state with `coins < 20`, or `towerCount != 4`, or `fenceCount >= 4` is returned unchanged
by the build-fence action; so towers, `towerCount`, fences, `fenceCount` and coins are
unchanged. The same holds for `HandleInput` with `KEY_T` pressed and `KEY_F` not pressed
(towers, `towerCount`, coins), and with `KEY_F` pressed and `KEY_T` not pressed (fences,
`fenceCount`, coins). -/
theorem C9_failed_purchase_noop (sqrtf : ℚ → ℚ) (game : Game) :
    (game.coins < 50 →
      buildOrUpgradeTower game = game
      ∧ ∀ input : Input, input.keyF = false →
          (HandleInput sqrtf game input).towers = game.towers
          ∧ (HandleInput sqrtf game input).towerCount = game.towerCount
          ∧ (HandleInput sqrtf game input).coins = game.coins)
    ∧ (game.coins < 20 ∨ game.towerCount ≠ 4 ∨ game.fenceCount ≥ 4 →
      buildFence game = game
      ∧ ∀ input : Input, input.keyT = false →
          (HandleInput sqrtf game input).fences = game.fences
          ∧ (HandleInput sqrtf game input).fenceCount = game.fenceCount
          ∧ (HandleInput sqrtf game input).coins = game.coins) :=
  ⟨fun h => ⟨buildOrUpgradeTower_poor game h,
      fun input hF => HandleInput_tower_only sqrtf game input hF h⟩,
    fun h => ⟨buildFence_blocked game h,
      fun input hT => HandleInput_fence_only sqrtf game input hT (buildFence_blocked game h)⟩⟩

/-- C9 (witness): Scenario E, the tower purchase with 40 coins changes nothing. -/
theorem C9_failed_purchase_noop_witness :
    fortyCoins.coins = 40
    ∧ buildOrUpgradeTower fortyCoins = fortyCoins
    ∧ (HandleInput sqrtExact fortyCoins { noKeys fortyCoins.camera with keyT := true }).towerCount
        = fortyCoins.towerCount
    ∧ (HandleInput sqrtExact fortyCoins { noKeys fortyCoins.camera with keyT := true }).coins = 40 :=
  ⟨rfl, ((C9_failed_purchase_noop sqrtExact fortyCoins).1 (by decide)).1,
    (((C9_failed_purchase_noop sqrtExact fortyCoins).1 (by decide)).2 _ rfl).2.1,
    (((C9_failed_purchase_noop sqrtExact fortyCoins).1 (by decide)).2 _ rfl).2.2⟩

theorem buildOrUpgradeTower_congr (g h : Game) (e1 : g.coins = h.coins)
    (e2 : g.towerCount = h.towerCount) (e3 : g.towers = h.towers) :
    (buildOrUpgradeTower g).towers = (buildOrUpgradeTower h).towers
    ∧ (buildOrUpgradeTower g).coins = (buildOrUpgradeTower h).coins
    ∧ (buildOrUpgradeTower g).towerCount = (buildOrUpgradeTower h).towerCount := by
  unfold buildOrUpgradeTower
  simp only [e1, e2, e3]
  split_ifs <;> simp_all

theorem HandleInput_tower_press (sqrtf : ℚ → ℚ) (game : Game) (input : Input)
    (hPause : game.pause = false) (hOver : game.gameOver = false)
    (hP : input.keyP = false) (hT : input.keyT = true) (hF : input.keyF = false) :
    (HandleInput sqrtf game input).towers = (buildOrUpgradeTower game).towers
    ∧ (HandleInput sqrtf game input).coins = (buildOrUpgradeTower game).coins
    ∧ (HandleInput sqrtf game input).towerCount = (buildOrUpgradeTower game).towerCount := by
  have hg : pauseToggle game input = { game with camera := input.camera } := by
    unfold pauseToggle
    simp [hP]
  unfold HandleInput
  simp only [hg, hPause, hOver, Bool.false_eq_true, or_self, if_false]
  unfold actions
  simp only [hT, hF, Bool.false_eq_true, if_false, if_true]
  split_ifs
  · exact buildOrUpgradeTower_congr _ game rfl rfl rfl
  · exact buildOrUpgradeTower_congr _ game rfl rfl rfl

/-- C10: in a state with `towerCount == 4` and `coins >= 50` the build-or-upgrade-tower action
upgrades exactly the first tower in storage order whose `upgradeLevel` is below 3: its level
goes up by 1, its range by 2.0, its endpoints and active flag stay, and every other tower is
unchanged; the coins become `payCost coins 50`, the `float` difference of the source, which is
`coins - 50` for every balance up to `2^24`. If no tower is below level 3, towers and coins
are unchanged. The action keeps all levels at most 3, and in every state reached from a reset
state or from the state after `InitializeGame` no tower has a level above 3. `HandleInput`
runs this action, with this effect on towers and coins, when `KEY_T` is pressed without
`KEY_P` and `KEY_F` in a game that is neither paused nor over. At the balance
`2^24 + 1 = 16777217` the upgrade is the same and the coins go down by 51, not by 50. -/
theorem C10_upgrade_selection (game : Game) (hCount : game.towerCount = 4)
    (hCoins : game.coins ≥ 50) :
    (∀ (pre : List Tower) (t : Tower) (post : List Tower),
      game.towers = pre ++ t :: post → (∀ x ∈ pre, ¬ x.upgradeLevel < 3) → t.upgradeLevel < 3 →
        (buildOrUpgradeTower game).towers = pre ++ upgradeTower t :: post
        ∧ (upgradeTower t).upgradeLevel = t.upgradeLevel + 1
        ∧ (upgradeTower t).turretRange = t.turretRange + 2
        ∧ (upgradeTower t).startPos = t.startPos
        ∧ (upgradeTower t).endPos = t.endPos
        ∧ (upgradeTower t).active = t.active
        ∧ (buildOrUpgradeTower game).coins = payCost game.coins 50
        ∧ (game.coins ≤ 16777216 → (buildOrUpgradeTower game).coins = game.coins - 50))
    ∧ ((∀ x ∈ game.towers, ¬ x.upgradeLevel < 3) →
        (buildOrUpgradeTower game).towers = game.towers
        ∧ (buildOrUpgradeTower game).coins = game.coins)
    ∧ (LevelsBounded game.towers → LevelsBounded (buildOrUpgradeTower game).towers)
    ∧ (∀ (sqrtf : ℚ → ℚ) (game0 : Game) (events : List Event),
        LevelsBounded (run sqrtf (ResetGame game0) events).towers
        ∧ LevelsBounded (run sqrtf initialGame events).towers)
    ∧ (∀ (sqrtf : ℚ → ℚ) (input : Input), game.pause = false → game.gameOver = false →
        input.keyP = false → input.keyT = true → input.keyF = false →
          (HandleInput sqrtf game input).towers = (buildOrUpgradeTower game).towers
          ∧ (HandleInput sqrtf game input).coins = (buildOrUpgradeTower game).coins)
    ∧ richTowers.towerCount = 4 ∧ richTowers.coins = 16777217
    ∧ (buildOrUpgradeTower richTowers).towers
        = [maxedTower] ++ upgradeTower (newTower 1) :: [newTower 2, newTower 3]
    ∧ (buildOrUpgradeTower richTowers).coins = richTowers.coins - 51 := by
  have ht : ¬ game.towerCount < 4 := by omega
  obtain ⟨u1, u2, _, _, _⟩ := buildOrUpgradeTower_upgrade game hCoins ht
  refine ⟨?_, ?_, (buildOrUpgradeTower_static game).2.2.2, ?_, ?_, rfl, rfl, by decide!,
    by decide!⟩
  · intro pre t post hsplit hpre hlt
    have hex : ∃ x ∈ game.towers, x.upgradeLevel < 3 :=
      ⟨t, by rw [hsplit]; exact List.mem_append_right _ (List.mem_cons_self _ _), hlt⟩
    rw [u1, u2, if_pos hex, if_pos hex, hsplit, upgradeLoop_first pre post t game.coins hpre hlt]
    exact ⟨rfl, rfl, rfl, rfl, rfl, rfl, rfl,
      fun h => (payCost_fifty game.coins).2 (by omega) h⟩
  · intro hall
    have hex : ¬ ∃ x ∈ game.towers, x.upgradeLevel < 3 := fun ⟨x, hx, hl⟩ => hall x hx hl
    rw [u1, u2, if_neg hex, if_neg hex]
    exact ⟨rfl, rfl⟩
  · intro sqrtf game0 events
    obtain ⟨r1, r2, r3⟩ := ResetGame_bounds game0
    obtain ⟨i1, i2, i3⟩ := initialGame_bounds
    exact ⟨(run_bounds sqrtf events (ResetGame game0) r1 r2 r3).2.2,
      (run_bounds sqrtf events initialGame i1 i2 i3).2.2⟩
  · intro sqrtf input hPause hOver hP hT hF
    obtain ⟨k1, k2, _⟩ := HandleInput_tower_press sqrtf game input hPause hOver hP hT hF
    exact ⟨k1, k2⟩

/-- C10 (witness): with four towers of which the first is at level 3, the action upgrades the
second tower; it costs 50 coins at a balance of 650 and 51 coins at a balance of 16777217. -/
theorem C10_upgrade_selection_witness :
    fourTowers.towerCount = 4
    ∧ fourTowers.coins ≥ 50
    ∧ (buildOrUpgradeTower fourTowers).towers
        = [maxedTower] ++ upgradeTower (newTower 1) :: [newTower 2, newTower 3]
    ∧ (buildOrUpgradeTower fourTowers).coins = fourTowers.coins - 50
    ∧ (buildOrUpgradeTower richTowers).coins = richTowers.coins - 51 :=
  ⟨rfl, by decide,
    ((C10_upgrade_selection fourTowers rfl (by decide)).1 [maxedTower] (newTower 1)
      [newTower 2, newTower 3] rfl (by decide!) (by decide!)).1,
    ((C10_upgrade_selection fourTowers rfl (by decide)).1 [maxedTower] (newTower 1)
      [newTower 2, newTower 3] rfl (by decide!) (by decide!)).2.2.2.2.2.2.2 (by decide),
    (C10_upgrade_selection richTowers rfl (by decide)).2.2.2.2.2.2.2.2⟩

/-! ## Reset and gate theorems -/

/-- C17: `ResetGame` is idempotent, and the state it returns has coins 1000, wave 1,
`maxEnemies = baseEnemiesPerWave`, no enemy spawned, empty enemy, missile, tower and fence
collections, both counts 0, base enemy speed 3.0, spawn delay 1.0, an active wave, the second
path inactive, neither game-over nor pause, and the paths and the camera of the state it was
given. -/
theorem C17_reset_idempotent (game : Game) :
    ResetGame (ResetGame game) = ResetGame game
    ∧ (ResetGame game).coins = 1000
    ∧ (ResetGame game).waveNumber = 1
    ∧ (ResetGame game).maxEnemies = (ResetGame game).baseEnemiesPerWave
    ∧ (ResetGame game).baseEnemiesPerWave = game.baseEnemiesPerWave
    ∧ (ResetGame game).enemiesSpawned = 0
    ∧ (ResetGame game).targets = []
    ∧ (ResetGame game).missiles = []
    ∧ (ResetGame game).towers = []
    ∧ (ResetGame game).fences = []
    ∧ (ResetGame game).towerCount = 0
    ∧ (ResetGame game).fenceCount = 0
    ∧ (ResetGame game).target.speed = 3
    ∧ (ResetGame game).spawnDelay = 1
    ∧ (ResetGame game).waveActive = true
    ∧ (ResetGame game).secondPathActive = false
    ∧ (ResetGame game).gameOver = false
    ∧ (ResetGame game).pause = false
    ∧ (ResetGame game).allWaypoints = game.allWaypoints
    ∧ (ResetGame game).camera = game.camera :=
  ⟨rfl, rfl, rfl, rfl, rfl, rfl, rfl, rfl, rfl, rfl, rfl, rfl, rfl, rfl, rfl, rfl, rfl, rfl, rfl, rfl⟩

theorem HandleInput_gated (sqrtf : ℚ → ℚ) (game : Game) (input : Input)
    (hGate : game.pause = true ∨ game.gameOver = true)
    (hKey : input.keyP = false ∨ game.gameOver = true) :
    HandleInput sqrtf game input = { game with camera := input.camera } := by
  have hToggle : pauseToggle game input = { game with camera := input.camera } := by
    unfold pauseToggle
    rcases hKey with h | h
    · simp [h]
    · simp [h]
  unfold HandleInput
  simp only [hToggle]
  rw [if_pos hGate]

theorem HandleInput_unpause (sqrtf : ℚ → ℚ) (game : Game) (input : Input)
    (hPause : game.pause = true) (hOver : game.gameOver = false) (hKey : input.keyP = true) :
    HandleInput sqrtf game input
      = actions sqrtf { game with camera := input.camera, pause := false } input := by
  have hToggle : pauseToggle game input
      = { game with camera := input.camera, pause := false } := by
    unfold pauseToggle
    simp [hKey, hOver, hPause]
  unfold HandleInput
  simp only [hToggle]
  rw [if_neg]
  rintro (h | h)
  · exact Bool.noConfusion h
  · exact Bool.noConfusion (h.symm.trans hOver)

theorem HandleInput_pause (sqrtf : ℚ → ℚ) (game : Game) (input : Input)
    (hPause : game.pause = false) (hOver : game.gameOver = false) (hKey : input.keyP = true) :
    HandleInput sqrtf game input = { game with camera := input.camera, pause := true } := by
  have hToggle : pauseToggle game input
      = { game with camera := input.camera, pause := true } := by
    unfold pauseToggle
    simp [hKey, hOver, hPause]
  unfold HandleInput
  simp only [hToggle]
  exact if_pos (Or.inl trivial)

/-- C18 (amended): in a state with `pause = true` or `gameOver = true`, `UpdateGame` returns
the state unchanged for every frame time, so it never turns `gameOver` from true to false.
`HandleInput` tests the gate after the pause toggle of `KEY_P`: its shoot, tower and fence
actions are no-ops (only the camera changes) in such a state when `KEY_P` is not pressed in
the same call or the game is over; in a paused game that is not over, a call with `KEY_P`
pressed unpauses the game and runs the actions whose keys are pressed with it. In a running
game a call with `KEY_P` pressed pauses the game and runs no action. In every state the
actions are no-ops exactly as the state after the toggle demands: when it is paused or over,
`HandleInput` returns that state. -/
theorem C18_pause_gate (sqrtf : ℚ → ℚ) (game : Game)
    (hGate : game.pause = true ∨ game.gameOver = true) :
    (∀ dt : ℚ, UpdateGame sqrtf game dt = game)
    ∧ (∀ input : Input, input.keyP = false ∨ game.gameOver = true →
        HandleInput sqrtf game input = { game with camera := input.camera })
    ∧ (∀ input : Input, input.keyP = true → game.gameOver = false →
        HandleInput sqrtf game input
          = actions sqrtf { game with camera := input.camera, pause := false } input)
    ∧ (∀ (running : Game) (input : Input),
        running.pause = false → running.gameOver = false → input.keyP = true →
          HandleInput sqrtf running input
            = { running with camera := input.camera, pause := true })
    ∧ (∀ (any : Game) (input : Input),
        (pauseToggle any input).pause = true ∨ (pauseToggle any input).gameOver = true →
          HandleInput sqrtf any input = pauseToggle any input)
    ∧ (∀ dt : ℚ, game.gameOver = true → (UpdateGame sqrtf game dt).gameOver = true) := by
  have hU : ∀ dt : ℚ, UpdateGame sqrtf game dt = game := by
    intro dt
    unfold UpdateGame
    rw [if_pos hGate]
  refine ⟨hU, fun input hKey => HandleInput_gated sqrtf game input hGate hKey, ?_,
    fun running input h1 h2 h3 => HandleInput_pause sqrtf running input h1 h2 h3, ?_,
    fun dt h => by rw [hU dt]; exact h⟩
  · intro input hKey hOver
    have hPause : game.pause = true := by
      rcases hGate with h | h
      · exact h
      · rw [hOver] at h; exact Bool.noConfusion h
    exact HandleInput_unpause sqrtf game input hPause hOver hKey
  · intro any input h
    unfold HandleInput
    simp only
    rw [if_pos h]

/-- C18 (counterexample): in the paused state that one press of `KEY_P` reaches from the
state after `InitializeGame`, a call of `HandleInput` with `KEY_P`, `KEY_SPACE`, `KEY_T` and
`KEY_F` pressed builds a tower for 50 coins and adds a missile; in a paused game with four
towers and 650 coins the same call upgrades a tower, builds a fence (650 -> 580 coins) and
adds a missile. -/
theorem C18_counterexample :
    (pausedAtStart.pause = true
      ∧ pausedAtStart.coins = 1000
      ∧ pausedAtStart.towers = []
      ∧ pausedAtStart.missiles = []
      ∧ (HandleInput sqrtExact pausedAtStart (pauseAndActionKeys pausedAtStart.camera)).coins
          = 950
      ∧ (HandleInput sqrtExact pausedAtStart (pauseAndActionKeys pausedAtStart.camera)).towers
          = [newTower 0]
      ∧ (HandleInput sqrtExact pausedAtStart
          (pauseAndActionKeys pausedAtStart.camera)).missiles.length = 1)
    ∧ (pausedGame.pause = true
      ∧ pausedGame.coins = 650
      ∧ (HandleInput sqrtExact pausedGame (pauseAndActionKeys pausedGame.camera)).coins = 580
      ∧ (HandleInput sqrtExact pausedGame (pauseAndActionKeys pausedGame.camera)).fences.length
          = pausedGame.fences.length + 1
      ∧ (HandleInput sqrtExact pausedGame (pauseAndActionKeys pausedGame.camera)).missiles.length
          = pausedGame.missiles.length + 1
      ∧ (HandleInput sqrtExact pausedGame (pauseAndActionKeys pausedGame.camera)).towers
          ≠ pausedGame.towers) := by
  decide!

/-- C18 (witness): in a paused game with four towers and 650 coins, a frame of one second
and the three action keys pressed together change nothing but the camera; with `KEY_P`
pressed as well the call is the three actions on the unpaused game. -/
theorem C18_pause_gate_witness :
    pausedGame.pause = true
    ∧ UpdateGame sqrtExact pausedGame 1 = pausedGame
    ∧ HandleInput sqrtExact pausedGame (allActionKeys pausedGame.camera) = pausedGame
    ∧ HandleInput sqrtExact pausedGame (pauseAndActionKeys pausedGame.camera)
        = actions sqrtExact { pausedGame with camera := pausedGame.camera, pause := false }
            (pauseAndActionKeys pausedGame.camera) :=
  ⟨rfl, (C18_pause_gate sqrtExact pausedGame (Or.inl rfl)).1 1,
    (C18_pause_gate sqrtExact pausedGame (Or.inl rfl)).2.1 (allActionKeys pausedGame.camera)
      (Or.inl rfl),
    (C18_pause_gate sqrtExact pausedGame (Or.inl rfl)).2.2.1
      (pauseAndActionKeys pausedGame.camera) rfl rfl⟩

/-! ## Spawner theorems -/

theorem SpawnEnemies_idle (game : Game) (dt : ℚ)
    (h : game.waveActive = false ∨ game.enemiesSpawned ≥ game.maxEnemies) :
    SpawnEnemies game dt = game := by
  unfold SpawnEnemies
  rw [if_pos h]

theorem SpawnEnemies_wait (game : Game) (dt : ℚ) (hA : game.waveActive = true)
    (hQ : game.enemiesSpawned < game.maxEnemies)
    (hT : f32 (game.spawnTimer + dt) < f32 game.spawnDelay) :
    SpawnEnemies game dt = { game with spawnTimer := f32 (game.spawnTimer + dt) } := by
  unfold SpawnEnemies
  have h1 : ¬ (game.waveActive = false ∨ game.enemiesSpawned ≥ game.maxEnemies) := by
    rintro (h | h)
    · rw [hA] at h; exact Bool.noConfusion h
    · exact absurd hQ (not_lt.mpr h)
  rw [if_neg h1]
  simp only
  rw [if_neg (not_le.mpr hT)]

theorem SpawnEnemies_fire (game : Game) (dt : ℚ) (hA : game.waveActive = true)
    (hQ : game.enemiesSpawned < game.maxEnemies)
    (hT : f32 (game.spawnTimer + dt) ≥ f32 game.spawnDelay) :
    ∃ e : Target,
      (SpawnEnemies game dt).targets = game.targets ++ [e]
      ∧ (SpawnEnemies game dt).enemiesSpawned = game.enemiesSpawned + 1
      ∧ (SpawnEnemies game dt).spawnTimer = 0
      ∧ e.radius = 1 / 2 ∧ e.active = true ∧ e.speed = 3 ∧ e.currentWaypoint = 0
      ∧ e.stopped = false ∧ e.lifeTimer = 0
      ∧ e.position = waypointAt game.allWaypoints e.pathIndex 0
      ∧ e.pathIndex = (if game.secondPathActive = true then Int.tmod game.enemiesSpawned 2 else 0) := by
  unfold SpawnEnemies
  have h1 : ¬ (game.waveActive = false ∨ game.enemiesSpawned ≥ game.maxEnemies) := by
    rintro (h | h)
    · rw [hA] at h; exact Bool.noConfusion h
    · exact absurd hQ (not_lt.mpr h)
  rw [if_neg h1]
  simp only
  rw [if_pos hT]
  cases hS : game.secondPathActive
  · exact ⟨_, rfl, rfl, rfl, rfl, rfl, rfl, rfl, rfl, rfl, rfl, rfl⟩
  · exact ⟨_, rfl, rfl, rfl, rfl, rfl, rfl, rfl, rfl, rfl, rfl, rfl⟩

/-- The exact sum reaching the delay is enough for the emission: rounding is monotone. -/
theorem SpawnEnemies_fire_exact (game : Game) (dt : ℚ) (hA : game.waveActive = true)
    (hQ : game.enemiesSpawned < game.maxEnemies)
    (hT : game.spawnTimer + dt ≥ game.spawnDelay) :
    ∃ e : Target,
      (SpawnEnemies game dt).targets = game.targets ++ [e]
      ∧ (SpawnEnemies game dt).enemiesSpawned = game.enemiesSpawned + 1
      ∧ (SpawnEnemies game dt).spawnTimer = 0
      ∧ e.radius = 1 / 2 ∧ e.active = true ∧ e.speed = 3 ∧ e.currentWaypoint = 0
      ∧ e.stopped = false ∧ e.lifeTimer = 0
      ∧ e.position = waypointAt game.allWaypoints e.pathIndex 0
      ∧ e.pathIndex = (if game.secondPathActive = true then Int.tmod game.enemiesSpawned 2 else 0) :=
  SpawnEnemies_fire game dt hA hQ (f32_mono _ _ hT)

theorem f32_one : f32 1 = 1 := by
  have := f32_natCast 1 (by norm_num)
  exact_mod_cast this

/-- While the `float` timer stays below the delay, the spawner only advances the timer. -/
theorem spawnFrames_waiting (dts : List ℚ) :
    ∀ game : Game, game.waveActive = true → game.enemiesSpawned < game.maxEnemies →
      (∀ p ∈ dts.inits, floatSum game.spawnTimer p < f32 game.spawnDelay) →
      spawnFrames game dts = { game with spawnTimer := floatSum game.spawnTimer dts } := by
  induction dts with
  | nil => intro game _ _ _; rfl
  | cons d rest ih =>
    intro game hA hQ hlow
    have hT : f32 (game.spawnTimer + d) < f32 game.spawnDelay :=
      hlow [d] ((List.mem_inits _ _).mpr (List.prefix_cons_inj d |>.mpr (List.nil_prefix)))
    have hstep : spawnFrames game (d :: rest)
        = spawnFrames { game with spawnTimer := f32 (game.spawnTimer + d) } rest := by
      show List.foldl SpawnEnemies (SpawnEnemies game d) rest = _
      rw [SpawnEnemies_wait game d hA hQ hT]
      rfl
    rw [hstep, ih { game with spawnTimer := f32 (game.spawnTimer + d) } hA hQ
      (fun p hp => hlow (d :: p)
        ((List.mem_inits _ _).mpr ((List.prefix_cons_inj d).mpr ((List.mem_inits _ _).mp hp))))]
    rfl

/-- The first frame in which the `float` timer reaches the delay emits the first enemy. -/
theorem spawnFrames_first (dts : List ℚ) (last : ℚ) (game : Game)
    (hA : game.waveActive = true) (hQ : game.enemiesSpawned < game.maxEnemies)
    (hlow : ∀ p ∈ dts.inits, floatSum game.spawnTimer p < f32 game.spawnDelay)
    (hlast : f32 game.spawnDelay ≤ floatSum game.spawnTimer (dts ++ [last])) :
    ∃ e : Target,
      (spawnFrames game (dts ++ [last])).targets = game.targets ++ [e]
      ∧ (spawnFrames game (dts ++ [last])).enemiesSpawned = game.enemiesSpawned + 1
      ∧ e.position = waypointAt game.allWaypoints e.pathIndex 0
      ∧ e.pathIndex = (if game.secondPathActive = true then Int.tmod game.enemiesSpawned 2 else 0) := by
  have hsplit : spawnFrames game (dts ++ [last])
      = SpawnEnemies (spawnFrames game dts) last := by
    unfold spawnFrames
    rw [List.foldl_append]
    rfl
  rw [hsplit, spawnFrames_waiting dts game hA hQ hlow]
  have hT : f32 (floatSum game.spawnTimer dts + last) ≥ f32 game.spawnDelay := by
    rw [floatSum_append] at hlast
    exact hlast
  obtain ⟨e, h1, h2, _, _, _, _, _, _, _, h10, h11⟩ := SpawnEnemies_fire
    { game with spawnTimer := floatSum game.spawnTimer dts } last hA hQ hT
  exact ⟨e, h1, h2, h10, h11⟩

/-- C15 (amended): `SpawnEnemies` emits exactly one enemy when the wave is active, the quota
is not reached and the `float` sum `spawnTimer + dt` is at least `spawnDelay`; then
`enemiesSpawned` goes up by 1 and `spawnTimer` becomes 0. For that it is enough that the
exact sum is at least `spawnDelay`. When the wave is inactive or the quota is reached the
state is unchanged, and when only the `float` sum is short the state is unchanged but for
`spawnTimer`, which holds that sum. Scenario A: from a reset state (quota positive), over
frame times whose `float` running sum stays below 1.0 before the last frame and reaches 1.0
in it, exactly one enemy is emitted, on path 0 at its first waypoint; while the running sum
stays below 1.0 no enemy is emitted. With the frame time of 60 frames per second, the `float`
nearest to 1/60, no enemy exists after 60 frames and the first one is emitted in frame 61. -/
theorem C15_spawn_cadence (game : Game) (dt : ℚ) :
    (game.waveActive = true → game.enemiesSpawned < game.maxEnemies →
      f32 (game.spawnTimer + dt) ≥ f32 game.spawnDelay →
        ∃ e : Target,
          (SpawnEnemies game dt).targets = game.targets ++ [e]
          ∧ (SpawnEnemies game dt).enemiesSpawned = game.enemiesSpawned + 1
          ∧ (SpawnEnemies game dt).spawnTimer = 0)
    ∧ (game.waveActive = true → game.enemiesSpawned < game.maxEnemies →
      game.spawnTimer + dt ≥ game.spawnDelay →
        ∃ e : Target,
          (SpawnEnemies game dt).targets = game.targets ++ [e]
          ∧ (SpawnEnemies game dt).enemiesSpawned = game.enemiesSpawned + 1
          ∧ (SpawnEnemies game dt).spawnTimer = 0)
    ∧ (game.waveActive = false ∨ game.enemiesSpawned ≥ game.maxEnemies →
        SpawnEnemies game dt = game)
    ∧ (game.waveActive = true → game.enemiesSpawned < game.maxEnemies →
      f32 (game.spawnTimer + dt) < f32 game.spawnDelay →
        SpawnEnemies game dt = { game with spawnTimer := f32 (game.spawnTimer + dt) })
    ∧ (∀ (dts : List ℚ) (last : ℚ), 0 < game.baseEnemiesPerWave →
        (∀ p ∈ dts.inits, floatSum 0 p < 1) → 1 ≤ floatSum 0 (dts ++ [last]) →
        ∃ e : Target,
          (spawnFrames (ResetGame game) (dts ++ [last])).targets = [e]
          ∧ (spawnFrames (ResetGame game) (dts ++ [last])).enemiesSpawned = 1
          ∧ e.pathIndex = 0
          ∧ e.position = waypointAt game.allWaypoints 0 0)
    ∧ (∀ dts : List ℚ, 0 < game.baseEnemiesPerWave → (∀ p ∈ dts.inits, floatSum 0 p < 1) →
        (spawnFrames (ResetGame game) dts).targets = []
        ∧ (spawnFrames (ResetGame game) dts).enemiesSpawned = 0
        ∧ (spawnFrames (ResetGame game) dts).spawnTimer = floatSum 0 dts)
    ∧ (spawnFrames (ResetGame initialGame) (List.replicate 60 (f32 (1 / 60)))).targets = []
    ∧ (spawnFrames (ResetGame initialGame) (List.replicate 61 (f32 (1 / 60)))).targets.map
        Target.position = [⟨-15, 1 / 10, -10⟩] := by
  have hdelay : f32 (ResetGame game).spawnDelay = 1 := f32_one
  have hSixty :
      (spawnFrames (ResetGame initialGame) (List.replicate 60 (f32 (1 / 60)))).targets = []
      ∧ (spawnFrames (ResetGame initialGame) (List.replicate 61 (f32 (1 / 60)))).targets.map
          Target.position = [⟨-15, 1 / 10, -10⟩] := by decide!
  refine ⟨?_, ?_, SpawnEnemies_idle game dt, SpawnEnemies_wait game dt, ?_, ?_, hSixty.1,
    hSixty.2⟩
  · intro hA hQ hT
    obtain ⟨e, h1, h2, h3, _⟩ := SpawnEnemies_fire game dt hA hQ hT
    exact ⟨e, h1, h2, h3⟩
  · intro hA hQ hT
    obtain ⟨e, h1, h2, h3, _⟩ := SpawnEnemies_fire_exact game dt hA hQ hT
    exact ⟨e, h1, h2, h3⟩
  · intro dts last hbase hlow hlast
    obtain ⟨e, h1, h2, h3, h4⟩ := spawnFrames_first dts last (ResetGame game) rfl hbase
      (by rw [hdelay]; exact hlow) (by rw [hdelay]; exact hlast)
    have h5 : e.pathIndex = 0 := h4
    refine ⟨e, h1, h2, h5, ?_⟩
    rw [h3, h5]
    rfl
  · intro dts hbase hlow
    rw [spawnFrames_waiting dts (ResetGame game) rfl hbase (by rw [hdelay]; exact hlow)]
    exact ⟨rfl, rfl, rfl⟩

/-- C15 (counterexample): after a first frame of 0.75 s from the reset state of the program,
a frame of `0.25 - 2^-26` s leaves the exact sum of timer and frame time below the delay 1.0,
and yet an enemy is emitted, because the `float` sum is 1.0. And over the positive frame times
0.75, four times `2^-26`, and `0.25 - 2^-24`, which add up to exactly 1.0 and not before the
last frame, no enemy is emitted: the `float` timer ends at `1 - 2^-24`. -/
theorem C15_counterexample :
    ((SpawnEnemies (ResetGame initialGame) (3 / 4)).waveActive = true
      ∧ (SpawnEnemies (ResetGame initialGame) (3 / 4)).enemiesSpawned
          < (SpawnEnemies (ResetGame initialGame) (3 / 4)).maxEnemies
      ∧ (SpawnEnemies (ResetGame initialGame) (3 / 4)).spawnTimer + (1 / 4 - 1 / 67108864)
          < (SpawnEnemies (ResetGame initialGame) (3 / 4)).spawnDelay
      ∧ (SpawnEnemies (SpawnEnemies (ResetGame initialGame) (3 / 4))
          (1 / 4 - 1 / 67108864)).targets.length = 1)
    ∧ ((∀ d ∈ [3 / 4, 1 / 67108864, 1 / 67108864, 1 / 67108864, 1 / 67108864,
          1 / 4 - 1 / 16777216], (0 : ℚ) < d)
      ∧ ([3 / 4, 1 / 67108864, 1 / 67108864, 1 / 67108864, 1 / 67108864,
          1 / 4 - 1 / 16777216] : List ℚ).sum = 1
      ∧ (spawnFrames (ResetGame initialGame)
          [3 / 4, 1 / 67108864, 1 / 67108864, 1 / 67108864, 1 / 67108864,
            1 / 4 - 1 / 16777216]).targets = []
      ∧ (spawnFrames (ResetGame initialGame)
          [3 / 4, 1 / 67108864, 1 / 67108864, 1 / 67108864, 1 / 67108864,
            1 / 4 - 1 / 16777216]).spawnTimer = 1 - 1 / 16777216) := by
  decide!

/-- C15 (witness): Scenario A with the frame times 0.25, 0.25 and 0.5 from the reset state of
the program: one enemy, at the first waypoint of path 0; also when the three frames are whole
`UpdateGame` frames, after two of which no enemy exists yet. -/
theorem C15_spawn_cadence_witness :
    (spawnFrames (ResetGame initialGame) [1 / 4, 1 / 4, 1 / 2]).targets.map Target.position
      = [⟨-15, 1 / 10, -10⟩]
    ∧ (run sqrtExact (ResetGame initialGame)
        [Event.update (1 / 4), Event.update (1 / 4)]).targets = []
    ∧ (run sqrtExact (ResetGame initialGame)
        [Event.update (1 / 4), Event.update (1 / 4), Event.update (1 / 2)]).targets.map
          Target.position = [⟨-15, 1 / 10, -10⟩]
    ∧ ∃ e : Target,
        (spawnFrames (ResetGame initialGame) ([1 / 4, 1 / 4] ++ [1 / 2])).targets = [e]
        ∧ (spawnFrames (ResetGame initialGame) ([1 / 4, 1 / 4] ++ [1 / 2])).enemiesSpawned = 1
        ∧ e.pathIndex = 0
        ∧ e.position = waypointAt initialGame.allWaypoints 0 0 :=
  ⟨by decide!, by decide!, by decide!,
    (C15_spawn_cadence initialGame 0).2.2.2.2.1 [1 / 4, 1 / 4] (1 / 2) (by decide) (by decide!)
      (by decide!)⟩

theorem nearestScan_spec (sqrtf : ℚ → ℚ) (turretPos : Vector3) (targets : List Target) :
    ∀ (d : ℚ) (n : Option Target),
      (nearestScan sqrtf turretPos targets d n = (d, n)
        ∧ ∀ u ∈ targets, u.active = true → d ≤ Vector3Distance sqrtf turretPos u.position)
      ∨ (∃ t ∈ targets, t.active = true
          ∧ Vector3Distance sqrtf turretPos t.position < d
          ∧ nearestScan sqrtf turretPos targets d n
              = (Vector3Distance sqrtf turretPos t.position, some t)
          ∧ ∀ u ∈ targets, u.active = true →
              Vector3Distance sqrtf turretPos t.position
                ≤ Vector3Distance sqrtf turretPos u.position) := by
  induction targets with
  | nil =>
    intro d n
    exact Or.inl ⟨rfl, fun u hu => absurd hu (List.not_mem_nil u)⟩
  | cons a rest ih =>
    intro d n
    by_cases ha : a.active = false
    · have hstep : nearestScan sqrtf turretPos (a :: rest) d n
          = nearestScan sqrtf turretPos rest d n := by
        simp only [nearestScan, ha, if_true]
      rw [hstep]
      rcases ih d n with ⟨h1, h2⟩ | ⟨t, ht, h1, h2, h3, h4⟩
      · refine Or.inl ⟨h1, fun u hu hact => ?_⟩
        rcases List.mem_cons.mp hu with hu | hu
        · rw [hu, ha] at hact; exact Bool.noConfusion hact
        · exact h2 u hu hact
      · refine Or.inr ⟨t, List.mem_cons_of_mem _ ht, h1, h2, h3, fun u hu hact => ?_⟩
        rcases List.mem_cons.mp hu with hu | hu
        · rw [hu, ha] at hact; exact Bool.noConfusion hact
        · exact h4 u hu hact
    · have hact : a.active = true := by
        cases h : a.active
        · exact absurd h ha
        · rfl
      by_cases hlt : Vector3Distance sqrtf turretPos a.position < d
      · have hstep : nearestScan sqrtf turretPos (a :: rest) d n
            = nearestScan sqrtf turretPos rest (Vector3Distance sqrtf turretPos a.position)
                (some a) := by
          simp only [nearestScan, hact, Bool.true_eq_false, if_false, hlt, if_true]
        rw [hstep]
        rcases ih (Vector3Distance sqrtf turretPos a.position) (some a) with
          ⟨h1, h2⟩ | ⟨t, ht, h1, h2, h3, h4⟩
        · refine Or.inr ⟨a, List.mem_cons_self _ _, hact, hlt, h1, fun u hu hua => ?_⟩
          rcases List.mem_cons.mp hu with hu | hu
          · rw [hu]
          · exact h2 u hu hua
        · refine Or.inr ⟨t, List.mem_cons_of_mem _ ht, h1, lt_trans h2 hlt, h3,
            fun u hu hua => ?_⟩
          rcases List.mem_cons.mp hu with hu | hu
          · rw [hu]; exact le_of_lt h2
          · exact h4 u hu hua
      · have hstep : nearestScan sqrtf turretPos (a :: rest) d n
            = nearestScan sqrtf turretPos rest d n := by
          simp only [nearestScan, hact, Bool.true_eq_false, if_false, hlt]
        rw [hstep]
        rcases ih d n with ⟨h1, h2⟩ | ⟨t, ht, h1, h2, h3, h4⟩
        · refine Or.inl ⟨h1, fun u hu hua => ?_⟩
          rcases List.mem_cons.mp hu with hu | hu
          · rw [hu]; exact not_lt.mp hlt
          · exact h2 u hu hua
        · refine Or.inr ⟨t, List.mem_cons_of_mem _ ht, h1, h2, h3, fun u hu hua => ?_⟩
          rcases List.mem_cons.mp hu with hu | hu
          · rw [hu]; exact le_trans (le_of_lt h2) (not_lt.mp hlt)
          · exact h4 u hu hua

theorem fireTurret_spec (sqrtf : ℚ → ℚ) (targets : List Target) (tower : Tower)
    (endpoint : Vector3) (missiles : List Missile) :
    ((∃ u ∈ targets, u.active = true
        ∧ Vector3Distance sqrtf { endpoint with y := endpoint.y + 1 } u.position
            < tower.turretRange) →
      ∃ t ∈ targets, t.active = true
        ∧ Vector3Distance sqrtf { endpoint with y := endpoint.y + 1 } t.position
            < tower.turretRange
        ∧ (∀ u ∈ targets, u.active = true →
            Vector3Distance sqrtf { endpoint with y := endpoint.y + 1 } t.position
              ≤ Vector3Distance sqrtf { endpoint with y := endpoint.y + 1 } u.position)
        ∧ fireTurret sqrtf targets tower endpoint missiles
            = missiles ++
                [{ position := { endpoint with y := endpoint.y + 1 }
                   direction := Vector3Normalize sqrtf
                     (Vector3Subtract t.position { endpoint with y := endpoint.y + 1 })
                   active := true
                   speed := 40
                   lifetime := 2 }])
    ∧ ((∀ u ∈ targets, u.active = true →
          tower.turretRange
            ≤ Vector3Distance sqrtf { endpoint with y := endpoint.y + 1 } u.position) →
        fireTurret sqrtf targets tower endpoint missiles = missiles) := by
  rcases nearestScan_spec sqrtf { endpoint with y := endpoint.y + 1 } targets
      tower.turretRange none with ⟨h1, h2⟩ | ⟨t, ht, h1, h2, h3, h4⟩
  · constructor
    · rintro ⟨u, hu, hact, hlt⟩
      exact absurd hlt (not_lt.mpr (h2 u hu hact))
    · intro _
      unfold fireTurret
      simp only [h1]
  · constructor
    · intro _
      refine ⟨t, ht, h1, h2, h4, ?_⟩
      unfold fireTurret
      simp only [h3]
    · intro hall
      exact absurd h2 (not_lt.mpr (hall t ht h1))

theorem updateTower_expired (sqrtf : ℚ → ℚ) (dt : ℚ) (targets : List Target)
    (missiles : List Missile) (tower : Tower) (hActive : tower.active = true)
    (hExpired : tower.turretCooldown - dt ≤ 0) :
    updateTower sqrtf dt targets missiles tower
      = (fireTurret sqrtf targets tower tower.endPos
          (fireTurret sqrtf targets tower tower.startPos missiles),
        { tower with turretCooldown := 7 / 2 - (tower.upgradeLevel : ℚ) * (1 / 2) }) := by
  unfold updateTower
  simp only [hActive, Bool.true_eq_false, if_false, hExpired, if_true]
  rfl

theorem updateTower_running (sqrtf : ℚ → ℚ) (dt : ℚ) (targets : List Target)
    (missiles : List Missile) (tower : Tower) (hActive : tower.active = true)
    (hRunning : tower.turretCooldown - dt > 0) :
    updateTower sqrtf dt targets missiles tower
      = (missiles, { tower with turretCooldown := tower.turretCooldown - dt }) := by
  unfold updateTower
  simp only [hActive, Bool.true_eq_false, if_false, not_le.mpr hRunning]

theorem updateTower_inactive (sqrtf : ℚ → ℚ) (dt : ℚ) (targets : List Target)
    (missiles : List Missile) (tower : Tower) (hInactive : tower.active = false) :
    updateTower sqrtf dt targets missiles tower = (missiles, tower) := by
  unfold updateTower
  simp only [hInactive, if_true]

theorem updateTower_tower (sqrtf : ℚ → ℚ) (dt : ℚ) (targets : List Target)
    (missiles : List Missile) (tower : Tower) :
    (updateTower sqrtf dt targets missiles tower).2 = (updateTower sqrtf dt targets [] tower).2 := by
  cases hA : tower.active
  · rw [updateTower_inactive _ _ _ _ _ hA, updateTower_inactive _ _ _ _ _ hA]
  · by_cases hE : tower.turretCooldown - dt ≤ 0
    · rw [updateTower_expired _ _ _ _ _ hA hE, updateTower_expired _ _ _ _ _ hA hE]
    · rw [updateTower_running _ _ _ _ _ hA (not_le.mp hE),
        updateTower_running _ _ _ _ _ hA (not_le.mp hE)]

theorem towersLoop_towers (sqrtf : ℚ → ℚ) (dt : ℚ) (targets : List Target)
    (towers : List Tower) (missiles : List Missile) :
    (towersLoop sqrtf dt targets missiles towers).2
      = towers.map (fun t => (updateTower sqrtf dt targets [] t).2) := by
  induction towers generalizing missiles with
  | nil => rfl
  | cons tower rest ih =>
    simp only [towersLoop, List.map_cons]
    rw [ih, updateTower_tower]

theorem fireTurret_append (sqrtf : ℚ → ℚ) (targets : List Target) (tower : Tower)
    (endpoint : Vector3) (missiles : List Missile) :
    fireTurret sqrtf targets tower endpoint missiles
      = missiles ++ fireTurret sqrtf targets tower endpoint [] := by
  unfold fireTurret
  simp only
  split <;> simp

theorem updateTower_missiles (sqrtf : ℚ → ℚ) (dt : ℚ) (targets : List Target)
    (missiles : List Missile) (tower : Tower) :
    (updateTower sqrtf dt targets missiles tower).1
      = missiles ++ (updateTower sqrtf dt targets [] tower).1 := by
  cases hA : tower.active
  · rw [updateTower_inactive _ _ _ _ _ hA, updateTower_inactive _ _ _ _ _ hA]
    simp
  · by_cases hE : tower.turretCooldown - dt ≤ 0
    · rw [updateTower_expired _ _ _ _ _ hA hE, updateTower_expired _ _ _ _ _ hA hE]
      show fireTurret sqrtf targets tower tower.endPos
          (fireTurret sqrtf targets tower tower.startPos missiles)
        = missiles ++ fireTurret sqrtf targets tower tower.endPos
          (fireTurret sqrtf targets tower tower.startPos [])
      rw [fireTurret_append sqrtf targets tower tower.endPos
          (fireTurret sqrtf targets tower tower.startPos missiles),
        fireTurret_append sqrtf targets tower tower.startPos missiles,
        fireTurret_append sqrtf targets tower tower.endPos
          (fireTurret sqrtf targets tower tower.startPos []),
        List.append_assoc]
    · rw [updateTower_running _ _ _ _ _ hA (not_le.mp hE),
        updateTower_running _ _ _ _ _ hA (not_le.mp hE)]
      simp

theorem towersLoop_missiles (sqrtf : ℚ → ℚ) (dt : ℚ) (targets : List Target)
    (towers : List Tower) (missiles : List Missile) :
    (towersLoop sqrtf dt targets missiles towers).1
      = missiles ++ (towers.map (fun t => (updateTower sqrtf dt targets [] t).1)).flatten := by
  induction towers generalizing missiles with
  | nil => simp [towersLoop]
  | cons tower rest ih =>
    simp only [towersLoop, List.map_cons, List.flatten_cons]
    rw [ih, updateTower_missiles, List.append_assoc]

/-- The towers that add no missile in a pass: the inactive ones and those whose cooldown is
still running after the frame. -/
theorem updateTower_silent (sqrtf : ℚ → ℚ) (dt : ℚ) (targets : List Target) (tower : Tower)
    (h : tower.active = false ∨ tower.turretCooldown - dt > 0) :
    (updateTower sqrtf dt targets [] tower).1 = [] := by
  cases hA : tower.active
  · rw [updateTower_inactive _ _ _ _ _ hA]
  · rcases h with h | h
    · rw [hA] at h; exact Bool.noConfusion h
    · rw [updateTower_running _ _ _ _ _ hA h]

theorem flatten_silent (sqrtf : ℚ → ℚ) (dt : ℚ) (targets : List Target) (towers : List Tower)
    (h : ∀ t ∈ towers, t.active = false ∨ t.turretCooldown - dt > 0) :
    (towers.map (fun t => (updateTower sqrtf dt targets [] t).1)).flatten = [] := by
  induction towers with
  | nil => rfl
  | cons tower rest ih =>
    simp only [List.map_cons, List.flatten_cons]
    rw [updateTower_silent sqrtf dt targets tower (h tower (List.mem_cons_self _ _)),
      ih (fun t ht => h t (List.mem_cons_of_mem _ ht))]
    rfl

/-- C11: on a frame where the cooldown of an active tower expires, the tower fires its turret
at `startPos` and then its turret at `endPos`. A turret (standing one unit above its
endpoint) adds a missile exactly when some active enemy is at a distance strictly below the
tower's range; the missile starts at the turret and is aimed at an active enemy in range
whose distance to the turret is minimal among all active enemies. When every active enemy is
at a distance of at least the range, the turret adds no missile. `UpdateTowers` appends the
missiles of all towers, in storage order and turret 0 before turret 1, to the missile
collection of the game and leaves the enemies as they are; when this tower is the only one
that fires in the frame, the missiles after `UpdateTowers` are those of the game followed by
the missiles of its two turrets. -/
theorem C11_nearest_in_range (sqrtf : ℚ → ℚ) (dt : ℚ) (targets : List Target)
    (missiles : List Missile) (tower : Tower) (hActive : tower.active = true)
    (hExpired : tower.turretCooldown - dt ≤ 0) :
    (updateTower sqrtf dt targets missiles tower).1
      = fireTurret sqrtf targets tower tower.endPos
          (fireTurret sqrtf targets tower tower.startPos missiles)
    ∧ (∀ (endpoint : Vector3) (ms : List Missile),
        ((∃ u ∈ targets, u.active = true
            ∧ Vector3Distance sqrtf { endpoint with y := endpoint.y + 1 } u.position
                < tower.turretRange) →
          ∃ t ∈ targets, t.active = true
            ∧ Vector3Distance sqrtf { endpoint with y := endpoint.y + 1 } t.position
                < tower.turretRange
            ∧ (∀ u ∈ targets, u.active = true →
                Vector3Distance sqrtf { endpoint with y := endpoint.y + 1 } t.position
                  ≤ Vector3Distance sqrtf { endpoint with y := endpoint.y + 1 } u.position)
            ∧ fireTurret sqrtf targets tower endpoint ms
                = ms ++
                    [{ position := { endpoint with y := endpoint.y + 1 }
                       direction := Vector3Normalize sqrtf
                         (Vector3Subtract t.position { endpoint with y := endpoint.y + 1 })
                       active := true
                       speed := 40
                       lifetime := 2 }])
        ∧ ((∀ u ∈ targets, u.active = true →
              tower.turretRange
                ≤ Vector3Distance sqrtf { endpoint with y := endpoint.y + 1 } u.position) →
            fireTurret sqrtf targets tower endpoint ms = ms))
    ∧ (updateTower sqrtf dt targets missiles tower).1
        = missiles ++ fireTurret sqrtf targets tower tower.startPos []
            ++ fireTurret sqrtf targets tower tower.endPos []
    ∧ (∀ game : Game,
        (UpdateTowers sqrtf game dt).missiles
          = game.missiles
              ++ (game.towers.map (fun t => (updateTower sqrtf dt game.targets [] t).1)).flatten
        ∧ (UpdateTowers sqrtf game dt).targets = game.targets)
    ∧ (∀ (game : Game) (pre post : List Tower),
        game.targets = targets → game.towers = pre ++ tower :: post →
        (∀ t ∈ pre ++ post, t.active = false ∨ t.turretCooldown - dt > 0) →
          (UpdateTowers sqrtf game dt).missiles
            = game.missiles ++ fireTurret sqrtf targets tower tower.startPos []
                ++ fireTurret sqrtf targets tower tower.endPos []) := by
  have hOwn : ∀ ms : List Missile, (updateTower sqrtf dt targets ms tower).1
      = ms ++ fireTurret sqrtf targets tower tower.startPos []
          ++ fireTurret sqrtf targets tower tower.endPos [] := by
    intro ms
    rw [updateTower_expired sqrtf dt targets ms tower hActive hExpired]
    show fireTurret sqrtf targets tower tower.endPos
        (fireTurret sqrtf targets tower tower.startPos ms) = _
    rw [fireTurret_append sqrtf targets tower tower.endPos
        (fireTurret sqrtf targets tower tower.startPos ms),
      fireTurret_append sqrtf targets tower tower.startPos ms]
  have hAll : ∀ game : Game, (UpdateTowers sqrtf game dt).missiles
      = game.missiles
          ++ (game.towers.map (fun t => (updateTower sqrtf dt game.targets [] t).1)).flatten :=
    fun game => towersLoop_missiles sqrtf dt game.targets game.towers game.missiles
  refine ⟨?_, fun endpoint ms => fireTurret_spec sqrtf targets tower endpoint ms, hOwn missiles,
    fun game => ⟨hAll game, rfl⟩, ?_⟩
  · rw [updateTower_expired sqrtf dt targets missiles tower hActive hExpired]
  · intro game pre post hT hSplit hSilent
    rw [hAll game, hSplit, hT, List.map_append, List.map_cons, List.flatten_append,
      List.flatten_cons,
      flatten_silent sqrtf dt targets pre
        (fun t ht => hSilent t (List.mem_append_left _ ht)),
      flatten_silent sqrtf dt targets post
        (fun t ht => hSilent t (List.mem_append_right _ ht)),
      hOwn []]
    simp

/-- C11 (witness): Scenario B, a new tower (range 7.0) whose only enemy is at distance 8.0
from the first turret fires no missile from that turret; with a second enemy at distance 3.0
from the first turret and 5.0 from the second, `UpdateTowers` adds two missiles, both aimed
at that enemy. -/
theorem C11_nearest_in_range_witness :
    ((newTower 0).active = true
      ∧ (newTower 0).turretCooldown - 1 / 60 ≤ 0
      ∧ (newTower 0).turretRange = 7
      ∧ Vector3Distance sqrtExact
          { (newTower 0).startPos with y := (newTower 0).startPos.y + 1 }
          outOfRangeEnemy.position = 8
      ∧ fireTurret sqrtExact [outOfRangeEnemy] (newTower 0) (newTower 0).startPos [] = [])
    ∧ (towerFrame.missiles = []
      ∧ (UpdateTowers sqrtExact towerFrame (1 / 60)).missiles
          = towerFrame.missiles
              ++ fireTurret sqrtExact towerFrame.targets (newTower 0) (newTower 0).startPos []
              ++ fireTurret sqrtExact towerFrame.targets (newTower 0) (newTower 0).endPos []
      ∧ (UpdateTowers sqrtExact towerFrame (1 / 60)).missiles.map
          (fun m => (m.position, m.direction))
          = [(⟨-3, 11 / 10, -2⟩, ⟨-1, 0, 0⟩), (⟨-3, 11 / 10, 2⟩, ⟨-3 / 5, 0, -4 / 5⟩)]) :=
  ⟨⟨rfl, by decide!, rfl, by decide!,
    ((C11_nearest_in_range sqrtExact (1 / 60) [outOfRangeEnemy] [] (newTower 0) rfl
      (by decide!)).2.1 (newTower 0).startPos []).2 (by decide!)⟩,
   rfl,
   (C11_nearest_in_range sqrtExact (1 / 60) towerFrame.targets [] (newTower 0) rfl
      (by decide!)).2.2.2.2 towerFrame [] [] rfl rfl (by decide),
   by decide!⟩

/-- C12: for an active tower, when `turretCooldown - dt <= 0` the cooldown after the pass is
`3.5 - 0.5 * upgradeLevel`, whatever the enemies are and whether or not a turret found a
target; when `turretCooldown - dt > 0` the cooldown is `turretCooldown - dt` and the tower
adds no missile. The tower that `UpdateTowers` leaves in the collection is the one of the
loop body, whatever missiles the earlier towers added. -/
theorem C12_cooldown_reset (sqrtf : ℚ → ℚ) (dt : ℚ) (targets : List Target)
    (missiles : List Missile) (tower : Tower) (hActive : tower.active = true) :
    (tower.turretCooldown - dt ≤ 0 →
      (updateTower sqrtf dt targets missiles tower).2
        = { tower with turretCooldown := 7 / 2 - (tower.upgradeLevel : ℚ) * (1 / 2) }
      ∧ (updateTower sqrtf dt targets missiles tower).2.turretCooldown
        = 7 / 2 - 1 / 2 * (tower.upgradeLevel : ℚ))
    ∧ (tower.turretCooldown - dt > 0 →
      (updateTower sqrtf dt targets missiles tower).2
        = { tower with turretCooldown := tower.turretCooldown - dt }
      ∧ (updateTower sqrtf dt targets missiles tower).2.turretCooldown = tower.turretCooldown - dt
      ∧ (updateTower sqrtf dt targets missiles tower).1 = missiles)
    ∧ (∀ game : Game,
        (UpdateTowers sqrtf game dt).towers
          = game.towers.map (fun t => (updateTower sqrtf dt game.targets [] t).2))
    ∧ (∀ ms : List Missile,
        (updateTower sqrtf dt targets ms tower).2 = (updateTower sqrtf dt targets [] tower).2) := by
  refine ⟨?_, ?_, ?_, fun ms => updateTower_tower sqrtf dt targets ms tower⟩
  · intro hE
    rw [updateTower_expired sqrtf dt targets missiles tower hActive hE]
    exact ⟨rfl, by show (7 : ℚ) / 2 - (tower.upgradeLevel : ℚ) * (1 / 2) = _; ring⟩
  · intro hR
    rw [updateTower_running sqrtf dt targets missiles tower hActive hR]
    exact ⟨rfl, rfl, rfl⟩
  · intro game
    exact towersLoop_towers sqrtf dt game.targets game.towers game.missiles

/-- C12 (witness): a tower at upgrade level 1 with 0.5 s of cooldown left has cooldown 3.0
after a frame of one second with no enemy on the field. -/
theorem C12_cooldown_reset_witness :
    (upgradeTower (newTower 0)).active = true
    ∧ (upgradeTower (newTower 0)).turretCooldown - 1 ≤ 0
    ∧ (upgradeTower (newTower 0)).upgradeLevel = 1
    ∧ (updateTower sqrtExact 1 [] [] (upgradeTower (newTower 0))).2.turretCooldown
        = 7 / 2 - 1 / 2 * ((upgradeTower (newTower 0)).upgradeLevel : ℚ) :=
  ⟨rfl, by decide!, rfl,
    ((C12_cooldown_reset sqrtExact 1 [] [] (upgradeTower (newTower 0)) rfl).1 (by decide!)).2⟩

/-! ## Missile theorems -/

theorem hitScan_none (sqrtf : ℚ → ℚ) (pos : Vector3) (targets : List Target)
    (h : ∀ u ∈ targets, u.active = true →
      ¬ Vector3Distance sqrtf pos u.position < u.radius + 1 / 10) :
    hitScan sqrtf pos targets = none := by
  induction targets with
  | nil => rfl
  | cons a rest ih =>
    have ihr := ih (fun u hu => h u (List.mem_cons_of_mem _ hu))
    cases ha : a.active
    · simp only [hitScan, ha, if_true, ihr, Option.map_none']
    · have hn := h a (List.mem_cons_self _ _) ha
      simp only [hitScan, ha, Bool.true_eq_false, if_false, hn, ihr, Option.map_none']

theorem hitScan_first (sqrtf : ℚ → ℚ) (pos : Vector3) (pre post : List Target) (t : Target)
    (hpre : ∀ u ∈ pre, u.active = true →
      ¬ Vector3Distance sqrtf pos u.position < u.radius + 1 / 10)
    (hact : t.active = true)
    (hhit : Vector3Distance sqrtf pos t.position < t.radius + 1 / 10) :
    hitScan sqrtf pos (pre ++ t :: post) = some (pre ++ { t with active := false } :: post) := by
  induction pre with
  | nil =>
    simp only [List.nil_append, hitScan, hact, Bool.true_eq_false, if_false, hhit, if_true]
  | cons a rest ih =>
    have ihr := ih (fun u hu => hpre u (List.mem_cons_of_mem _ hu))
    show hitScan sqrtf pos (a :: (rest ++ t :: post)) = _
    cases ha : a.active
    · simp only [hitScan, ha, if_true, ihr, Option.map_some', List.cons_append]
    · have hn := hpre a (List.mem_cons_self _ _) ha
      simp only [hitScan, ha, Bool.true_eq_false, if_false, hn, ihr, Option.map_some',
        List.cons_append]

theorem activeTargets_cons (a : Target) (rest : List Target) :
    activeTargets (a :: rest) = (if a.active = true then 1 else 0) + activeTargets rest := by
  cases ha : a.active
  · simp [activeTargets, ha]
  · simp [activeTargets, ha, Nat.add_comm]

theorem hitScan_some_count (sqrtf : ℚ → ℚ) (pos : Vector3) (targets hit : List Target)
    (h : hitScan sqrtf pos targets = some hit) :
    activeTargets hit + 1 = activeTargets targets ∧ hit.length = targets.length := by
  induction targets generalizing hit with
  | nil => simp [hitScan] at h
  | cons a rest ih =>
    cases ha : a.active
    · simp only [hitScan, ha, if_true] at h
      cases hr : hitScan sqrtf pos rest with
      | none => rw [hr] at h; simp at h
      | some r =>
        rw [hr] at h
        simp only [Option.map_some', Option.some.injEq] at h
        obtain ⟨i1, i2⟩ := ih r hr
        rw [← h, activeTargets_cons, activeTargets_cons]
        simp only [ha, Bool.false_eq_true, if_false, List.length_cons]
        omega
    · by_cases hd : Vector3Distance sqrtf pos a.position < a.radius + 1 / 10
      · simp only [hitScan, ha, Bool.true_eq_false, if_false, hd, if_true,
          Option.some.injEq] at h
        rw [← h, activeTargets_cons, activeTargets_cons]
        simp only [ha, Bool.false_eq_true, if_false, if_true, List.length_cons]
        exact ⟨by omega, trivial⟩
      · simp only [hitScan, ha, Bool.true_eq_false, if_false, hd] at h
        cases hr : hitScan sqrtf pos rest with
        | none => rw [hr] at h; simp at h
        | some r =>
          rw [hr] at h
          simp only [Option.map_some', Option.some.injEq] at h
          obtain ⟨i1, i2⟩ := ih r hr
          rw [← h, activeTargets_cons, activeTargets_cons]
          simp only [ha, if_true, List.length_cons]
          omega

theorem updateMissile_inactive (sqrtf : ℚ → ℚ) (dt : ℚ) (st : MissileScan) (m : Missile)
    (h : m.active = false) : updateMissile sqrtf dt st m = (st, m) := by
  unfold updateMissile
  simp only [h, if_true]

theorem updateMissile_miss (sqrtf : ℚ → ℚ) (dt : ℚ) (st : MissileScan) (m : Missile)
    (hact : m.active = true)
    (h : hitScan sqrtf (advanceMissile dt m).position st.targets = none) :
    updateMissile sqrtf dt st m
      = (st, if (advanceMissile dt m).lifetime ≤ 0 then
          { advanceMissile dt m with active := false } else advanceMissile dt m) := by
  have h2 : hitScan sqrtf
      (Vector3Add m.position (Vector3Scale m.direction (m.speed * dt))) st.targets = none := h
  unfold updateMissile
  simp only [hact, Bool.true_eq_false, Bool.false_eq_true, if_false, h2, Option.isSome_none]
  unfold advanceMissile
  simp only [hact]

theorem updateMissile_hit (sqrtf : ℚ → ℚ) (dt : ℚ) (st : MissileScan) (m : Missile)
    (hact : m.active = true) (hit : List Target)
    (h : hitScan sqrtf (advanceMissile dt m).position st.targets = some hit) :
    updateMissile sqrtf dt st m
      = (⟨hit, st.coins + 1⟩, { advanceMissile dt m with active := false }) := by
  have h2 : hitScan sqrtf
      (Vector3Add m.position (Vector3Scale m.direction (m.speed * dt))) st.targets = some hit := h
  unfold updateMissile
  simp only [hact, Bool.true_eq_false, if_false, h2, Option.isSome_some, if_true]
  unfold advanceMissile
  split_ifs <;> rfl

theorem updateMissile_step (sqrtf : ℚ → ℚ) (dt : ℚ) (st : MissileScan) (m : Missile) :
    ∃ k : Nat, k ≤ (if m.active = true then 1 else 0)
      ∧ (updateMissile sqrtf dt st m).1.coins = st.coins + (k : Int)
      ∧ activeTargets (updateMissile sqrtf dt st m).1.targets + k = activeTargets st.targets
      ∧ (updateMissile sqrtf dt st m).1.targets.length = st.targets.length := by
  cases hact : m.active
  · rw [updateMissile_inactive sqrtf dt st m hact]
    exact ⟨0, by simp, by simp, by simp, rfl⟩
  · cases hs : hitScan sqrtf (advanceMissile dt m).position st.targets with
    | none =>
      rw [updateMissile_miss sqrtf dt st m hact hs]
      exact ⟨0, by simp, by simp, by simp, rfl⟩
    | some hit =>
      rw [updateMissile_hit sqrtf dt st m hact hit hs]
      obtain ⟨c1, c2⟩ := hitScan_some_count sqrtf _ _ _ hs
      exact ⟨1, by simp, by simp, c1, c2⟩

theorem updateMissile_survivor (sqrtf : ℚ → ℚ) (dt : ℚ) (st : MissileScan) (m : Missile)
    (h : (updateMissile sqrtf dt st m).2.active = true) :
    0 < (updateMissile sqrtf dt st m).2.lifetime := by
  cases hact : m.active
  · rw [updateMissile_inactive sqrtf dt st m hact] at h
    rw [hact] at h
    exact Bool.noConfusion h
  · cases hs : hitScan sqrtf (advanceMissile dt m).position st.targets with
    | none =>
      rw [updateMissile_miss sqrtf dt st m hact hs] at h ⊢
      by_cases hl : (advanceMissile dt m).lifetime ≤ 0
      · rw [if_pos hl] at h
        exact Bool.noConfusion h
      · rw [if_neg hl]
        exact not_le.mp hl
    | some hit =>
      rw [updateMissile_hit sqrtf dt st m hact hit hs] at h
      exact Bool.noConfusion h

theorem missilesLoop_count (sqrtf : ℚ → ℚ) (dt : ℚ) (missiles : List Missile) :
    ∀ st : MissileScan, ∃ k : Nat, k ≤ activeMissiles missiles
      ∧ (missilesLoop sqrtf dt st missiles).1.coins = st.coins + (k : Int)
      ∧ activeTargets (missilesLoop sqrtf dt st missiles).1.targets + k = activeTargets st.targets
      ∧ (missilesLoop sqrtf dt st missiles).1.targets.length = st.targets.length := by
  induction missiles with
  | nil => intro st; exact ⟨0, by simp, by simp [missilesLoop], by simp [missilesLoop], rfl⟩
  | cons m rest ih =>
    intro st
    obtain ⟨k1, a1, a2, a3, a4⟩ := updateMissile_step sqrtf dt st m
    obtain ⟨k2, b1, b2, b3, b4⟩ := ih (updateMissile sqrtf dt st m).1
    refine ⟨k1 + k2, ?_, ?_, ?_, ?_⟩
    · have hm : activeMissiles (m :: rest)
          = (if m.active = true then 1 else 0) + activeMissiles rest := by
        cases ha : m.active
        · simp [activeMissiles, ha]
        · simp [activeMissiles, ha, Nat.add_comm]
      rw [hm]
      omega
    · simp only [missilesLoop]
      rw [b2, a2]
      push_cast
      ring
    · simp only [missilesLoop]
      omega
    · simp only [missilesLoop]
      rw [b4, a4]

theorem missilesLoop_survivors (sqrtf : ℚ → ℚ) (dt : ℚ) (missiles : List Missile) :
    ∀ st : MissileScan, ∀ m ∈ (missilesLoop sqrtf dt st missiles).2,
      m.active = true → 0 < m.lifetime := by
  induction missiles with
  | nil => intro st m hm; simp [missilesLoop] at hm
  | cons a rest ih =>
    intro st m hm hact
    simp only [missilesLoop, List.mem_cons] at hm
    rcases hm with hm | hm
    · rw [hm] at hact ⊢
      exact updateMissile_survivor sqrtf dt st a hact
    · exact ih _ m hm hact

/-- C13: an active missile whose advanced position is within `radius + 0.1` of no active
enemy changes neither the enemies nor the coins; otherwise it deactivates exactly the first
such enemy in collection order, the missile itself is deactivated and one coin is paid. An
inactive missile does nothing. Over the whole collision step of `UpdateMissiles` the coins go
up by exactly the number of enemies that the step deactivates (active before minus active
after), that number is at most the number of active missiles, and the compaction that
follows keeps exactly the enemies still active and leaves the coins alone. -/
theorem C13_missile_hits (sqrtf : ℚ → ℚ) (game : Game) (dt : ℚ) :
    (∀ (st : MissileScan) (m : Missile), m.active = true →
      ((∀ u ∈ st.targets, u.active = true →
          ¬ Vector3Distance sqrtf (advanceMissile dt m).position u.position < u.radius + 1 / 10) →
        (updateMissile sqrtf dt st m).1 = st)
      ∧ (∀ (pre post : List Target) (t : Target), st.targets = pre ++ t :: post →
          (∀ u ∈ pre, u.active = true →
            ¬ Vector3Distance sqrtf (advanceMissile dt m).position u.position
                < u.radius + 1 / 10) →
          t.active = true →
          Vector3Distance sqrtf (advanceMissile dt m).position t.position < t.radius + 1 / 10 →
            (updateMissile sqrtf dt st m).1.targets = pre ++ { t with active := false } :: post
            ∧ (updateMissile sqrtf dt st m).1.coins = st.coins + 1
            ∧ (updateMissile sqrtf dt st m).2.active = false))
    ∧ (∀ (st : MissileScan) (m : Missile), m.active = false →
        updateMissile sqrtf dt st m = (st, m))
    ∧ activeTargets (missileCollisions sqrtf game dt).targets ≤ activeTargets game.targets
    ∧ (missileCollisions sqrtf game dt).coins
        = game.coins
          + ((activeTargets game.targets - activeTargets (missileCollisions sqrtf game dt).targets
              : Nat) : Int)
    ∧ activeTargets game.targets - activeTargets (missileCollisions sqrtf game dt).targets
        ≤ activeMissiles game.missiles
    ∧ (UpdateMissiles sqrtf game dt).coins = (missileCollisions sqrtf game dt).coins
    ∧ (UpdateMissiles sqrtf game dt).targets.length
        = activeTargets (missileCollisions sqrtf game dt).targets := by
  obtain ⟨k, k1, k2, k3, _⟩ := missilesLoop_count sqrtf dt game.missiles ⟨game.targets, game.coins⟩
  have k2' : (missileCollisions sqrtf game dt).coins = game.coins + (k : Int) := k2
  have k3' : activeTargets (missileCollisions sqrtf game dt).targets + k
      = activeTargets game.targets := k3
  refine ⟨?_, fun st m h => updateMissile_inactive sqrtf dt st m h, ?_, ?_, ?_, rfl, rfl⟩
  · intro st m hact
    constructor
    · intro hnone
      rw [updateMissile_miss sqrtf dt st m hact (hitScan_none sqrtf _ _ hnone)]
    · intro pre post t hsplit hpre htact hthit
      have hs := hitScan_first sqrtf (advanceMissile dt m).position pre post t hpre htact hthit
      rw [← hsplit] at hs
      rw [updateMissile_hit sqrtf dt st m hact _ hs]
      exact ⟨rfl, rfl, rfl⟩
  · omega
  · rw [k2']
    congr 1
    omega
  · omega

/-- C14: after `UpdateMissiles` the missile, enemy and fence collections are the entries
that were active after the collision step, in their original order (a filter on the active
flag; the collision step does not touch the fences), so every remaining entry is active;
every remaining missile has a lifetime above 0; and `fenceCount` has gone down by exactly
the number of fences removed, which is the number of inactive fences. -/
theorem C14_compaction (sqrtf : ℚ → ℚ) (game : Game) (dt : ℚ) :
    (UpdateMissiles sqrtf game dt).missiles
      = (missileCollisions sqrtf game dt).missiles.filter (fun m => m.active)
    ∧ (UpdateMissiles sqrtf game dt).targets
      = (missileCollisions sqrtf game dt).targets.filter (fun t => t.active)
    ∧ (UpdateMissiles sqrtf game dt).fences
      = (missileCollisions sqrtf game dt).fences.filter (fun f => f.fenceActive)
    ∧ (missileCollisions sqrtf game dt).fences = game.fences
    ∧ (∀ m ∈ (UpdateMissiles sqrtf game dt).missiles, m.active = true ∧ 0 < m.lifetime)
    ∧ (∀ t ∈ (UpdateMissiles sqrtf game dt).targets, t.active = true)
    ∧ (∀ f ∈ (UpdateMissiles sqrtf game dt).fences, f.fenceActive = true)
    ∧ (UpdateMissiles sqrtf game dt).fences.length ≤ game.fences.length
    ∧ (UpdateMissiles sqrtf game dt).fenceCount
      = game.fenceCount
        - ((game.fences.length - (UpdateMissiles sqrtf game dt).fences.length : Nat) : Int)
    ∧ game.fences.length - (UpdateMissiles sqrtf game dt).fences.length
      = (game.fences.filter (fun f => !f.fenceActive)).length := by
  have hlen : (game.fences.filter (fun f => f.fenceActive)).length
      + (game.fences.filter (fun f => !f.fenceActive)).length = game.fences.length := by
    induction game.fences with
    | nil => rfl
    | cons f rest ih =>
      cases hf : f.fenceActive
      · simp [List.filter, hf]; omega
      · simp [List.filter, hf]; omega
  refine ⟨rfl, rfl, rfl, rfl, ?_, ?_, ?_, ?_, rfl, ?_⟩
  · intro m hm
    have hm2 : m ∈ (missilesLoop sqrtf dt ⟨game.targets, game.coins⟩ game.missiles).2.filter
        (fun m => m.active) := hm
    rw [List.mem_filter] at hm2
    exact ⟨hm2.2, missilesLoop_survivors sqrtf dt game.missiles _ m hm2.1 hm2.2⟩
  · intro t ht
    have ht2 : t ∈ (missileCollisions sqrtf game dt).targets.filter (fun t => t.active) := ht
    rw [List.mem_filter] at ht2
    exact ht2.2
  · intro f hf
    have hf2 : f ∈ game.fences.filter (fun f => f.fenceActive) := hf
    rw [List.mem_filter] at hf2
    exact hf2.2
  · exact List.length_filter_le _ _
  · show game.fences.length - (game.fences.filter (fun f => f.fenceActive)).length = _
    omega

/-! ## Waypoint and fence-attrition theorems -/

theorem fenceContact_target (sqrtf : ℚ → ℚ) (dt : ℚ) (st : FenceScan) (fence : Fence) :
    (fenceContact sqrtf dt st fence).1.target.position = st.target.position
    ∧ (fenceContact sqrtf dt st fence).1.target.radius = st.target.radius
    ∧ (fenceContact sqrtf dt st fence).1.target.currentWaypoint = st.target.currentWaypoint
    ∧ (fenceContact sqrtf dt st fence).1.target.pathIndex = st.target.pathIndex
    ∧ (fenceContact sqrtf dt st fence).1.target.speed = st.target.speed
    ∧ (fenceContact sqrtf dt st fence).1.target.lifeTimeLimit = st.target.lifeTimeLimit := by
  unfold fenceContact
  simp only
  split_ifs <;> exact ⟨rfl, rfl, rfl, rfl, rfl, rfl⟩

theorem scanFences_target (sqrtf : ℚ → ℚ) (dt : ℚ) (fences : List Fence) :
    ∀ st : FenceScan,
      (scanFences sqrtf dt st fences).1.target.position = st.target.position
      ∧ (scanFences sqrtf dt st fences).1.target.radius = st.target.radius
      ∧ (scanFences sqrtf dt st fences).1.target.currentWaypoint = st.target.currentWaypoint
      ∧ (scanFences sqrtf dt st fences).1.target.pathIndex = st.target.pathIndex
      ∧ (scanFences sqrtf dt st fences).1.target.speed = st.target.speed
      ∧ (scanFences sqrtf dt st fences).1.target.lifeTimeLimit = st.target.lifeTimeLimit := by
  induction fences with
  | nil => intro st; exact ⟨rfl, rfl, rfl, rfl, rfl, rfl⟩
  | cons fence rest ih =>
    intro st
    obtain ⟨a1, a2, a3, a4, a5, a6⟩ := fenceContact_target sqrtf dt st fence
    obtain ⟨b1, b2, b3, b4, b5, b6⟩ := ih (fenceContact sqrtf dt st fence).1
    simp only [scanFences]
    exact ⟨b1.trans a1, b2.trans a2, b3.trans a3, b4.trans a4, b5.trans a5, b6.trans a6⟩

theorem fencePhase_target (sqrtf : ℚ → ℚ) (dt : ℚ) (game : Game) (target : Target) :
    (fencePhase sqrtf dt game target).2.position = target.position
    ∧ (fencePhase sqrtf dt game target).2.radius = target.radius
    ∧ (fencePhase sqrtf dt game target).2.currentWaypoint = target.currentWaypoint
    ∧ (fencePhase sqrtf dt game target).2.pathIndex = target.pathIndex
    ∧ (fencePhase sqrtf dt game target).2.speed = target.speed
    ∧ (fencePhase sqrtf dt game target).2.lifeTimeLimit = target.lifeTimeLimit := by
  obtain ⟨s1, s2, s3, s4, s5, s6⟩ := scanFences_target sqrtf dt game.fences
    ⟨{ target with stopped := false }, game.coins, false⟩
  unfold fencePhase
  simp only
  split_ifs <;> exact ⟨s1, s2, s3, s4, s5, s6⟩

theorem moveTarget_spec (sqrtf : ℚ → ℚ) (dt : ℚ) (allWaypoints : List (List Vector3))
    (target : Target) :
    (moveTarget sqrtf dt allWaypoints target).pathIndex = target.pathIndex
    ∧ (moveTarget sqrtf dt allWaypoints target).stopped = target.stopped
    ∧ (moveTarget sqrtf dt allWaypoints target).active = target.active
    ∧ (moveTarget sqrtf dt allWaypoints target).radius = target.radius
    ∧ target.currentWaypoint ≤ (moveTarget sqrtf dt allWaypoints target).currentWaypoint
    ∧ (moveTarget sqrtf dt allWaypoints target).currentWaypoint ≤ target.currentWaypoint + 1
    ∧ (target.currentWaypoint ≤ ((vecAt allWaypoints target.pathIndex []).length : Int) →
        (moveTarget sqrtf dt allWaypoints target).currentWaypoint
          ≤ ((vecAt allWaypoints target.pathIndex []).length : Int))
    ∧ (target.stopped = true → moveTarget sqrtf dt allWaypoints target = target) := by
  unfold moveTarget
  by_cases hc : ltSize target.currentWaypoint (vecAt allWaypoints target.pathIndex []).length = true
      ∧ target.stopped = false
  · rw [if_pos hc]
    have hlt : target.currentWaypoint < ((vecAt allWaypoints target.pathIndex []).length : Int) := by
      have h := hc.1
      simp only [ltSize, Bool.and_eq_true, decide_eq_true_eq] at h
      exact h.2
    simp only
    split_ifs
    · refine ⟨rfl, rfl, rfl, rfl, ?_, ?_, ?_, ?_⟩
      · show target.currentWaypoint ≤ target.currentWaypoint + 1
        omega
      · exact le_refl _
      · intro _
        show target.currentWaypoint + 1 ≤ _
        omega
      · intro hs
        rw [hc.2] at hs
        exact Bool.noConfusion hs
    · refine ⟨rfl, rfl, rfl, rfl, le_refl _, ?_, fun h => h, ?_⟩
      · show target.currentWaypoint ≤ target.currentWaypoint + 1
        omega
      · intro hs
        rw [hc.2] at hs
        exact Bool.noConfusion hs
  · rw [if_neg hc]
    exact ⟨rfl, rfl, rfl, rfl, le_refl _, by omega, fun h => h, fun _ => rfl⟩

theorem updateTarget_waypoint (sqrtf : ℚ → ℚ) (dt : ℚ) (game : Game) (target : Target) :
    (updateTarget sqrtf dt game target).2.pathIndex = target.pathIndex
    ∧ target.currentWaypoint ≤ (updateTarget sqrtf dt game target).2.currentWaypoint
    ∧ (updateTarget sqrtf dt game target).2.currentWaypoint ≤ target.currentWaypoint + 1
    ∧ (target.currentWaypoint ≤ ((vecAt game.allWaypoints target.pathIndex []).length : Int) →
        (updateTarget sqrtf dt game target).2.currentWaypoint
          ≤ ((vecAt game.allWaypoints target.pathIndex []).length : Int))
    ∧ ((updateTarget sqrtf dt game target).2.stopped = true →
        (updateTarget sqrtf dt game target).2.currentWaypoint = target.currentWaypoint
        ∧ (updateTarget sqrtf dt game target).2.position = target.position) := by
  cases ha : target.active
  · have hu : updateTarget sqrtf dt game target = (game, target) := by
      unfold updateTarget
      simp only [ha, if_true]
    rw [hu]
    exact ⟨rfl, le_refl _, by show target.currentWaypoint ≤ target.currentWaypoint + 1; omega,
      fun h => h, fun _ => ⟨rfl, rfl⟩⟩
  · obtain ⟨f1, _⟩ := fencePhase_fields sqrtf dt game target
    obtain ⟨p1, _, p3, p4, _, _⟩ := fencePhase_target sqrtf dt game target
    obtain ⟨m1, m2, _, _, m5, m6, m7, m8⟩ := moveTarget_spec sqrtf dt
      (fencePhase sqrtf dt game target).1.allWaypoints (fencePhase sqrtf dt game target).2
    have hfields : (updateTarget sqrtf dt game target).2.pathIndex
          = (moveTarget sqrtf dt (fencePhase sqrtf dt game target).1.allWaypoints
              (fencePhase sqrtf dt game target).2).pathIndex
        ∧ (updateTarget sqrtf dt game target).2.currentWaypoint
          = (moveTarget sqrtf dt (fencePhase sqrtf dt game target).1.allWaypoints
              (fencePhase sqrtf dt game target).2).currentWaypoint
        ∧ (updateTarget sqrtf dt game target).2.stopped
          = (moveTarget sqrtf dt (fencePhase sqrtf dt game target).1.allWaypoints
              (fencePhase sqrtf dt game target).2).stopped
        ∧ (updateTarget sqrtf dt game target).2.position
          = (moveTarget sqrtf dt (fencePhase sqrtf dt game target).1.allWaypoints
              (fencePhase sqrtf dt game target).2).position := by
      unfold updateTarget
      simp only [ha, Bool.true_eq_false, if_false]
      split_ifs <;> exact ⟨rfl, rfl, rfl, rfl⟩
    obtain ⟨u1, u2, u3, u4⟩ := hfields
    rw [u1, u2, u3, u4]
    have m7b := m7
    rw [p4, p3] at m7b
    nth_rewrite 1 [f1] at m7b
    nth_rewrite 2 [f1] at m7b
    refine ⟨m1.trans p4, ?_, ?_, m7b, ?_⟩
    · rw [← p3]; exact m5
    · rw [← p3]; exact m6
    · intro hs
      rw [m2] at hs
      rw [m8 hs]
      exact ⟨p3, p1⟩

theorem targetsLoop_length (sqrtf : ℚ → ℚ) (dt : ℚ) (targets : List Target) :
    ∀ game : Game, (targetsLoop sqrtf dt game targets).2.length = targets.length := by
  induction targets with
  | nil => intro game; rfl
  | cons target rest ih =>
    intro game
    simp only [targetsLoop, List.length_cons, ih]

theorem targetsLoop_waypoint (sqrtf : ℚ → ℚ) (dt : ℚ) (targets : List Target) :
    ∀ game : Game, ∀ p ∈ List.zip targets (targetsLoop sqrtf dt game targets).2,
      p.2.pathIndex = p.1.pathIndex
      ∧ p.1.currentWaypoint ≤ p.2.currentWaypoint
      ∧ p.2.currentWaypoint ≤ p.1.currentWaypoint + 1
      ∧ (p.1.currentWaypoint ≤ ((vecAt game.allWaypoints p.1.pathIndex []).length : Int) →
          p.2.currentWaypoint ≤ ((vecAt game.allWaypoints p.1.pathIndex []).length : Int))
      ∧ (p.2.stopped = true →
          p.2.currentWaypoint = p.1.currentWaypoint ∧ p.2.position = p.1.position) := by
  induction targets with
  | nil => intro game p hp; simp [targetsLoop] at hp
  | cons target rest ih =>
    intro game p hp
    simp only [targetsLoop, List.zip_cons_cons, List.mem_cons] at hp
    rcases hp with hp | hp
    · rw [hp]
      exact updateTarget_waypoint sqrtf dt game target
    · have h := ih (updateTarget sqrtf dt game target).1 p hp
      rw [updateTarget_allWaypoints] at h
      exact h

/-- C19: an `UpdateTargets` pass keeps the number, the order and the path of the enemies;
the waypoint index of every enemy after the pass is at least its old value and at most the
old value plus 1, and when the old value was at most the length of the enemy's path the new
one is too; an enemy that the pass leaves stopped (held by a fence) keeps its index and its
position. The paths themselves are unchanged. -/
theorem C19_waypoint_index (sqrtf : ℚ → ℚ) (game : Game) (dt : ℚ) :
    (UpdateTargets sqrtf game dt).targets.length = game.targets.length
    ∧ (UpdateTargets sqrtf game dt).allWaypoints = game.allWaypoints
    ∧ ∀ p ∈ List.zip game.targets (UpdateTargets sqrtf game dt).targets,
        p.2.pathIndex = p.1.pathIndex
        ∧ p.1.currentWaypoint ≤ p.2.currentWaypoint
        ∧ p.2.currentWaypoint ≤ p.1.currentWaypoint + 1
        ∧ (p.1.currentWaypoint ≤ ((vecAt game.allWaypoints p.1.pathIndex []).length : Int) →
            p.2.currentWaypoint ≤ ((vecAt game.allWaypoints p.1.pathIndex []).length : Int))
        ∧ (p.2.stopped = true →
            p.2.currentWaypoint = p.1.currentWaypoint ∧ p.2.position = p.1.position) := by
  have hT : (UpdateTargets sqrtf game dt).targets
      = (targetsLoop sqrtf dt { game with inContact := false } game.targets).2 :=
    baseContactStep_targets (targetsPass sqrtf game dt) dt
  have hW : (UpdateTargets sqrtf game dt).allWaypoints = game.allWaypoints := by
    have h1 : (UpdateTargets sqrtf game dt).allWaypoints
        = (targetsLoop sqrtf dt { game with inContact := false } game.targets).1.allWaypoints := by
      unfold UpdateTargets baseContactStep
      simp only
      split_ifs <;> rfl
    rw [h1, targetsLoop_allWaypoints]
  refine ⟨?_, hW, ?_⟩
  · rw [hT, targetsLoop_length]
  · intro p hp
    rw [hT] at hp
    exact targetsLoop_waypoint sqrtf dt game.targets { game with inContact := false } p hp

/-! ## Scenario C: one enemy held by one fence -/

theorem touchesFence_congr (sqrtf : ℚ → ℚ) (t t2 : Target) (f f2 : Fence)
    (h1 : t2.position = t.position) (h2 : t2.radius = t.radius)
    (h3 : f2.startPos = f.startPos) (h4 : f2.endPos = f.endPos) :
    touchesFence sqrtf t2 f2 = touchesFence sqrtf t f := by
  unfold touchesFence
  rw [h1, h2, h3, h4]

theorem touchesBase_congr (sqrtf : ℚ → ℚ) (t t2 : Target)
    (h1 : t2.position = t.position) (h2 : t2.radius = t.radius) :
    touchesBase sqrtf t2 = touchesBase sqrtf t := by
  unfold touchesBase
  rw [h1, h2]

theorem fenceContact_inactive (sqrtf : ℚ → ℚ) (dt : ℚ) (st : FenceScan) (f : Fence)
    (h : f.fenceActive = false) : fenceContact sqrtf dt st f = (st, f) := by
  unfold fenceContact
  simp [h]

theorem scanFences_inactive (sqrtf : ℚ → ℚ) (dt : ℚ) (fences : List Fence)
    (h : ∀ x ∈ fences, x.fenceActive = false) :
    ∀ st : FenceScan, scanFences sqrtf dt st fences = (st, fences) := by
  induction fences with
  | nil => intro st; rfl
  | cons f rest ih =>
    intro st
    simp only [scanFences, fenceContact_inactive sqrtf dt st f (h f (List.mem_cons_self _ _)),
      ih (fun x hx => h x (List.mem_cons_of_mem _ hx))]

theorem scanFences_append (sqrtf : ℚ → ℚ) (dt : ℚ) (a b : List Fence) :
    ∀ st : FenceScan,
      scanFences sqrtf dt st (a ++ b)
        = ((scanFences sqrtf dt (scanFences sqrtf dt st a).1 b).1,
            (scanFences sqrtf dt st a).2 ++ (scanFences sqrtf dt (scanFences sqrtf dt st a).1 b).2) := by
  induction a with
  | nil => intro st; rfl
  | cons f rest ih =>
    intro st
    show scanFences sqrtf dt st (f :: (rest ++ b)) = _
    simp only [scanFences, ih, List.cons_append]

theorem fenceContact_held (sqrtf : ℚ → ℚ) (dt : ℚ) (st : FenceScan) (f : Fence)
    (hf : f.fenceActive = true) (ht : st.target.active = true)
    (hTouch : touchesFence sqrtf st.target f = true) :
    fenceContact sqrtf dt st f
      = (⟨heldTarget dt st.target,
          st.coins + (if f32 (st.target.lifeTimer + dt) ≥ st.target.lifeTimeLimit then 1 else 0),
          true⟩, heldFence dt f) := by
  unfold fenceContact heldTarget heldFence
  simp only [hf, hTouch, if_true]
  by_cases h1 : f32 (st.target.lifeTimer + dt) ≥ st.target.lifeTimeLimit
  · by_cases h2 : f32 (f.fenceContactTimer + dt) ≥ f.fenceContactTimeLimit
    · simp [h1, h2, not_lt.mpr h1, not_lt.mpr h2]
    · simp [h1, h2, not_lt.mpr h1, not_le.mp h2]
  · by_cases h2 : f32 (f.fenceContactTimer + dt) ≥ f.fenceContactTimeLimit
    · simp [h1, h2, not_le.mp h1, not_lt.mpr h2, ht]
    · simp [h1, h2, not_le.mp h1, not_le.mp h2, ht]

theorem scanFences_single (sqrtf : ℚ → ℚ) (dt : ℚ) (st : FenceScan) (f : Fence)
    (fpre fpost : List Fence) (hpre : ∀ x ∈ fpre, x.fenceActive = false)
    (hpost : ∀ x ∈ fpost, x.fenceActive = false) :
    scanFences sqrtf dt st (fpre ++ f :: fpost)
      = ((fenceContact sqrtf dt st f).1, fpre ++ (fenceContact sqrtf dt st f).2 :: fpost) := by
  have hcons : scanFences sqrtf dt st (f :: fpost)
      = ((fenceContact sqrtf dt st f).1, (fenceContact sqrtf dt st f).2 :: fpost) := by
    simp only [scanFences]
    rw [scanFences_inactive sqrtf dt fpost hpost]
  rw [scanFences_append, scanFences_inactive sqrtf dt fpre hpre]
  simp only [hcons]

theorem fencePhase_held (sqrtf : ℚ → ℚ) (dt : ℚ) (game : Game) (e : Target) (f : Fence)
    (fpre fpost : List Fence) (hFences : game.fences = fpre ++ f :: fpost)
    (hOthers : ∀ x ∈ fpre ++ fpost, x.fenceActive = false)
    (he : e.active = true) (hf : f.fenceActive = true)
    (hTouch : touchesFence sqrtf e f = true) :
    (fencePhase sqrtf dt game e).2 = heldTarget dt e
    ∧ (fencePhase sqrtf dt game e).1.fences = fpre ++ heldFence dt f :: fpost
    ∧ (fencePhase sqrtf dt game e).1.coins
        = game.coins + (if f32 (e.lifeTimer + dt) ≥ e.lifeTimeLimit then 1 else 0) := by
  have hpre : ∀ x ∈ fpre, x.fenceActive = false :=
    fun x hx => hOthers x (List.mem_append_left _ hx)
  have hpost : ∀ x ∈ fpost, x.fenceActive = false :=
    fun x hx => hOthers x (List.mem_append_right _ hx)
  have hT0 : touchesFence sqrtf { e with stopped := false } f = true :=
    (touchesFence_congr sqrtf e { e with stopped := false } f f rfl rfl rfl rfl).trans hTouch
  have hc := fenceContact_held sqrtf dt ⟨{ e with stopped := false }, game.coins, false⟩ f hf he hT0
  have hscan := scanFences_single sqrtf dt ⟨{ e with stopped := false }, game.coins, false⟩ f
    fpre fpost hpre hpost
  rw [hc, ← hFences] at hscan
  unfold fencePhase
  simp only [hscan, Bool.true_eq_false, if_false]
  refine ⟨?_, ?_, ?_⟩ <;> first | rfl | trivial

theorem updateTarget_held (sqrtf : ℚ → ℚ) (dt : ℚ) (game : Game) (e : Target) (f : Fence)
    (fpre fpost : List Fence) (hFences : game.fences = fpre ++ f :: fpost)
    (hOthers : ∀ x ∈ fpre ++ fpost, x.fenceActive = false)
    (he : e.active = true) (hf : f.fenceActive = true)
    (hTouch : touchesFence sqrtf e f = true)
    (hSafe : ltSize e.currentWaypoint (vecAt game.allWaypoints e.pathIndex []).length = true
      ∨ game.contactTimer < 2) :
    (updateTarget sqrtf dt game e).2 = heldTarget dt e
    ∧ (updateTarget sqrtf dt game e).1.fences = fpre ++ heldFence dt f :: fpost
    ∧ (updateTarget sqrtf dt game e).1.coins
        = game.coins + (if f32 (e.lifeTimer + dt) ≥ e.lifeTimeLimit then 1 else 0)
    ∧ (updateTarget sqrtf dt game e).1.inContact = (game.inContact || touchesBase sqrtf e) := by
  obtain ⟨p2, pf, pc⟩ := fencePhase_held sqrtf dt game e f fpre fpost hFences hOthers he hf hTouch
  obtain ⟨f1, f2, f3, _⟩ := fencePhase_fields sqrtf dt game e
  have hmove : moveTarget sqrtf dt (fencePhase sqrtf dt game e).1.allWaypoints (heldTarget dt e)
      = heldTarget dt e :=
    (moveTarget_spec sqrtf dt _ (heldTarget dt e)).2.2.2.2.2.2.2 rfl
  have hend : pathEndReached (fencePhase sqrtf dt game e).1 (heldTarget dt e) = false := by
    rw [pathEndReached_congr _ game (heldTarget dt e) e f1 f2 rfl rfl]
    unfold pathEndReached
    rcases hSafe with h | h
    · simp only [h, Bool.not_true, Bool.false_and]
    · have h2 : ¬ (game.contactTimer ≥ 2) := not_le.mpr h
      simp only [h2, decide_False, Bool.and_false]
  have hbase : touchesBase sqrtf (heldTarget dt e) = touchesBase sqrtf e :=
    touchesBase_congr sqrtf e _ rfl rfl
  unfold updateTarget
  simp only [he, Bool.true_eq_false, if_false]
  rw [p2, hmove, hend]
  simp only [Bool.false_eq_true, if_false, hbase]
  cases hb : touchesBase sqrtf e
  · simp only [Bool.false_eq_true, if_false, Bool.or_false]
    exact ⟨trivial, pf, pc, f3⟩
  · simp only [if_true, Bool.or_true]
    exact ⟨trivial, pf, pc, trivial⟩

theorem targetsLoop_inactive (sqrtf : ℚ → ℚ) (dt : ℚ) (targets : List Target)
    (h : ∀ t ∈ targets, t.active = false) :
    ∀ game : Game, targetsLoop sqrtf dt game targets = (game, targets) := by
  induction targets with
  | nil => intro game; rfl
  | cons t rest ih =>
    intro game
    have hu : updateTarget sqrtf dt game t = (game, t) := by
      unfold updateTarget
      simp only [h t (List.mem_cons_self _ _), if_true]
    simp only [targetsLoop, hu, ih (fun x hx => h x (List.mem_cons_of_mem _ hx))]

theorem targetsLoop_append (sqrtf : ℚ → ℚ) (dt : ℚ) (a b : List Target) :
    ∀ game : Game,
      targetsLoop sqrtf dt game (a ++ b)
        = ((targetsLoop sqrtf dt (targetsLoop sqrtf dt game a).1 b).1,
            (targetsLoop sqrtf dt game a).2 ++ (targetsLoop sqrtf dt (targetsLoop sqrtf dt game a).1 b).2) := by
  induction a with
  | nil => intro game; rfl
  | cons t rest ih =>
    intro game
    show targetsLoop sqrtf dt game (t :: (rest ++ b)) = _
    simp only [targetsLoop, ih, List.cons_append]

theorem targetsLoop_single (sqrtf : ℚ → ℚ) (dt : ℚ) (game : Game) (e : Target)
    (pre post : List Target) (hpre : ∀ t ∈ pre, t.active = false)
    (hpost : ∀ t ∈ post, t.active = false) :
    targetsLoop sqrtf dt game (pre ++ e :: post)
      = ((updateTarget sqrtf dt game e).1, pre ++ (updateTarget sqrtf dt game e).2 :: post) := by
  have hcons : targetsLoop sqrtf dt game (e :: post)
      = ((updateTarget sqrtf dt game e).1, (updateTarget sqrtf dt game e).2 :: post) := by
    simp only [targetsLoop]
    rw [targetsLoop_inactive sqrtf dt post hpost]
  rw [targetsLoop_append, targetsLoop_inactive sqrtf dt pre hpre]
  simp only [hcons]

theorem UpdateTargets_held (sqrtf : ℚ → ℚ) (dt : ℚ) (game : Game) (e : Target) (f : Fence)
    (pre post : List Target) (fpre fpost : List Fence)
    (hTargets : game.targets = pre ++ e :: post)
    (hOtherTargets : ∀ t ∈ pre ++ post, t.active = false)
    (hFences : game.fences = fpre ++ f :: fpost)
    (hOthers : ∀ x ∈ fpre ++ fpost, x.fenceActive = false)
    (he : e.active = true) (hf : f.fenceActive = true)
    (hTouch : touchesFence sqrtf e f = true)
    (hSafe : ltSize e.currentWaypoint (vecAt game.allWaypoints e.pathIndex []).length = true
      ∨ game.contactTimer < 2) :
    (UpdateTargets sqrtf game dt).targets = pre ++ heldTarget dt e :: post
    ∧ (UpdateTargets sqrtf game dt).fences = fpre ++ heldFence dt f :: fpost
    ∧ (UpdateTargets sqrtf game dt).coins
        = game.coins + (if f32 (e.lifeTimer + dt) ≥ e.lifeTimeLimit then 1 else 0)
    ∧ (UpdateTargets sqrtf game dt).allWaypoints = game.allWaypoints
    ∧ (touchesBase sqrtf e = false → (UpdateTargets sqrtf game dt).contactTimer = 0) := by
  have hpre : ∀ t ∈ pre, t.active = false :=
    fun x hx => hOtherTargets x (List.mem_append_left _ hx)
  have hpost : ∀ t ∈ post, t.active = false :=
    fun x hx => hOtherTargets x (List.mem_append_right _ hx)
  obtain ⟨u1, u2, u3, u4⟩ := updateTarget_held sqrtf dt { game with inContact := false } e f
    fpre fpost hFences hOthers he hf hTouch hSafe
  have hloop : targetsLoop sqrtf dt { game with inContact := false } game.targets
      = ((updateTarget sqrtf dt { game with inContact := false } e).1,
          pre ++ heldTarget dt e :: post) := by
    have h0 := targetsLoop_single sqrtf dt { game with inContact := false } e pre post hpre hpost
    rw [u1] at h0
    exact (congrArg (targetsLoop sqrtf dt { game with inContact := false }) hTargets).trans h0
  have hpass : targetsPass sqrtf game dt
      = { (updateTarget sqrtf dt { game with inContact := false } e).1 with
          targets := pre ++ heldTarget dt e :: post } := by
    unfold targetsPass
    simp only [hloop]
  have hW : (updateTarget sqrtf dt { game with inContact := false } e).1.allWaypoints
      = game.allWaypoints := updateTarget_allWaypoints sqrtf dt _ e
  obtain ⟨b1, b2, _, _, _⟩ := baseContactStep_fields (targetsPass sqrtf game dt) dt
  have hfields : (UpdateTargets sqrtf game dt).targets = (targetsPass sqrtf game dt).targets
      ∧ (UpdateTargets sqrtf game dt).fences = (targetsPass sqrtf game dt).fences
      ∧ (UpdateTargets sqrtf game dt).coins = (targetsPass sqrtf game dt).coins
      ∧ (UpdateTargets sqrtf game dt).allWaypoints = (targetsPass sqrtf game dt).allWaypoints := by
    unfold UpdateTargets baseContactStep
    simp only
    split_ifs <;> exact ⟨rfl, rfl, rfl, rfl⟩
  obtain ⟨g1, g2, g3, g4⟩ := hfields
  rw [g1, g2, g3, g4, hpass]
  refine ⟨rfl, u2, u3, hW, ?_⟩
  intro hb
  apply b2
  rw [hpass]
  show (updateTarget sqrtf dt { game with inContact := false } e).1.inContact = false
  rw [u4, hb]
  rfl

theorem targetFrames_held (sqrtf : ℚ → ℚ) (pre post : List Target) (fpre fpost : List Fence)
    (hOtherTargets : ∀ t ∈ pre ++ post, t.active = false)
    (hOthers : ∀ x ∈ fpre ++ fpost, x.fenceActive = false) (last : ℚ) (dts : List ℚ) :
    ∀ (game : Game) (e : Target) (f : Fence),
      game.targets = pre ++ e :: post → game.fences = fpre ++ f :: fpost →
      e.active = true → f.fenceActive = true →
      f.fenceContactTimer = e.lifeTimer → e.lifeTimeLimit = 3 → f.fenceContactTimeLimit = 3 →
      touchesFence sqrtf e f = true →
      (ltSize e.currentWaypoint (vecAt game.allWaypoints e.pathIndex []).length = true
        ∨ (touchesBase sqrtf e = false ∧ game.contactTimer < 2)) →
      (∀ p ∈ dts.inits, floatSum e.lifeTimer p < 3) →
      ∃ (e2 : Target) (f2 : Fence),
        (targetFrames sqrtf game (dts ++ [last])).targets = pre ++ e2 :: post
        ∧ (targetFrames sqrtf game (dts ++ [last])).fences = fpre ++ f2 :: fpost
        ∧ e2.lifeTimer = floatSum e.lifeTimer (dts ++ [last])
        ∧ f2.fenceContactTimer = floatSum e.lifeTimer (dts ++ [last])
        ∧ e2.position = e.position
        ∧ e2.active = decide (floatSum e.lifeTimer (dts ++ [last]) < 3)
        ∧ f2.fenceActive = decide (floatSum e.lifeTimer (dts ++ [last]) < 3)
        ∧ (targetFrames sqrtf game (dts ++ [last])).coins
            = game.coins + (if floatSum e.lifeTimer (dts ++ [last]) ≥ 3 then 1 else 0) := by
  induction dts with
  | nil =>
    intro game e f hT hF he hf hτ hLe hLf hTouch hSafe _
    have hSafe2 : ltSize e.currentWaypoint (vecAt game.allWaypoints e.pathIndex []).length = true
        ∨ game.contactTimer < 2 := hSafe.imp id (fun h => h.2)
    obtain ⟨r1, r2, r3, _, _⟩ := UpdateTargets_held sqrtf last game e f pre post fpre fpost
      hT hOtherTargets hF hOthers he hf hTouch hSafe2
    have hsum : floatSum e.lifeTimer ([] ++ [last]) = f32 (e.lifeTimer + last) := rfl
    rw [hsum]
    refine ⟨heldTarget last e, heldFence last f, r1, r2, rfl, ?_, rfl, ?_, ?_, ?_⟩
    · show f32 (f.fenceContactTimer + last) = f32 (e.lifeTimer + last)
      rw [hτ]
    · show decide (f32 (e.lifeTimer + last) < e.lifeTimeLimit) = _
      rw [hLe]
    · show decide (f32 (f.fenceContactTimer + last) < f.fenceContactTimeLimit) = _
      rw [hLf, hτ]
    · show (UpdateTargets sqrtf game last).coins = _
      rw [r3, hLe]
  | cons d rest ih =>
    intro game e f hT hF he hf hτ hLe hLf hTouch hSafe hBelow
    have hSafe2 : ltSize e.currentWaypoint (vecAt game.allWaypoints e.pathIndex []).length = true
        ∨ game.contactTimer < 2 := hSafe.imp id (fun h => h.2)
    obtain ⟨r1, r2, r3, r4, r5⟩ := UpdateTargets_held sqrtf d game e f pre post fpre fpost
      hT hOtherTargets hF hOthers he hf hTouch hSafe2
    have hd : f32 (e.lifeTimer + d) < 3 :=
      hBelow [d] ((List.mem_inits _ _).mpr ((List.prefix_cons_inj d).mpr List.nil_prefix))
    have he1 : (heldTarget d e).active = true := by
      show decide (f32 (e.lifeTimer + d) < e.lifeTimeLimit) = true
      rw [hLe]; exact decide_eq_true hd
    have hf1 : (heldFence d f).fenceActive = true := by
      show decide (f32 (f.fenceContactTimer + d) < f.fenceContactTimeLimit) = true
      rw [hLf, hτ]; exact decide_eq_true hd
    have hτ1 : (heldFence d f).fenceContactTimer = (heldTarget d e).lifeTimer := by
      show f32 (f.fenceContactTimer + d) = f32 (e.lifeTimer + d)
      rw [hτ]
    have hTouch1 : touchesFence sqrtf (heldTarget d e) (heldFence d f) = true :=
      (touchesFence_congr sqrtf e (heldTarget d e) f (heldFence d f) rfl rfl rfl rfl).trans hTouch
    have hSafe1 : ltSize (heldTarget d e).currentWaypoint
          (vecAt (UpdateTargets sqrtf game d).allWaypoints (heldTarget d e).pathIndex []).length
            = true
        ∨ (touchesBase sqrtf (heldTarget d e) = false
            ∧ (UpdateTargets sqrtf game d).contactTimer < 2) := by
      rcases hSafe with h | h
      · left
        rw [r4]
        exact h
      · right
        have hb : touchesBase sqrtf (heldTarget d e) = false :=
          (touchesBase_congr sqrtf e (heldTarget d e) rfl rfl).trans h.1
        refine ⟨hb, ?_⟩
        rw [r5 h.1]
        norm_num
    have hBelow1 : ∀ p ∈ rest.inits, floatSum (heldTarget d e).lifeTimer p < 3 :=
      fun p hp => hBelow (d :: p)
        ((List.mem_inits _ _).mpr ((List.prefix_cons_inj d).mpr ((List.mem_inits _ _).mp hp)))
    obtain ⟨e2, f2, s1, s2, s3, s4, s5, s6, s7, s8⟩ := ih (UpdateTargets sqrtf game d)
      (heldTarget d e) (heldFence d f) r1 r2 he1 hf1 hτ1 hLe hLf hTouch1 hSafe1 hBelow1
    have hstep : targetFrames sqrtf game (d :: rest ++ [last])
        = targetFrames sqrtf (UpdateTargets sqrtf game d) (rest ++ [last]) := rfl
    have hl : floatSum (heldTarget d e).lifeTimer (rest ++ [last])
        = floatSum e.lifeTimer (d :: rest ++ [last]) := rfl
    have hcoins : (UpdateTargets sqrtf game d).coins = game.coins := by
      rw [r3, hLe, if_neg (not_le.mpr hd)]; simp
    rw [hstep]
    rw [hl] at s3 s4 s6 s7 s8
    rw [hcoins] at s8
    exact ⟨e2, f2, s1, s2, s3, s4, s5, s6, s7, s8⟩

/-- C20 (amended): a state has exactly one active enemy and exactly one active fence (other
entries of the two collections are inactive), both contact timers are 0 and both limits are
the 3.0 s of the program, and the enemy is within `radius + 0.1` of the fence segment; the
path-end rule does not apply to the enemy (it has a waypoint left, or it does not touch the
base and the base contact timer is below 2.0). The two timers are `float`s to which each frame
time is added: after any number of `UpdateTargets` passes, the `float` running sum having
stayed below 3.0 before the last pass, both timers equal the `float` running sum of all frame
times (`floatSum`) and the enemy has not moved. If that running sum is below 3.0 the enemy and
the fence are still active and the coins are unchanged; if it has reached 3.0, the enemy and
the fence are both inactive after this pass and the coins have gone up by exactly 1. -/
theorem C20_scenario_c (sqrtf : ℚ → ℚ) (game : Game) (pre post : List Target) (e : Target)
    (fpre fpost : List Fence) (f : Fence) (dts : List ℚ) (last : ℚ)
    (hTargets : game.targets = pre ++ e :: post)
    (hOtherTargets : ∀ t ∈ pre ++ post, t.active = false)
    (hFences : game.fences = fpre ++ f :: fpost)
    (hOtherFences : ∀ x ∈ fpre ++ fpost, x.fenceActive = false)
    (hEnemy : e.active = true) (hFence : f.fenceActive = true)
    (hEnemyTimer : e.lifeTimer = 0) (hFenceTimer : f.fenceContactTimer = 0)
    (hEnemyLimit : e.lifeTimeLimit = 3) (hFenceLimit : f.fenceContactTimeLimit = 3)
    (hTouch : touchesFence sqrtf e f = true)
    (hPath : ltSize e.currentWaypoint (vecAt game.allWaypoints e.pathIndex []).length = true
      ∨ (touchesBase sqrtf e = false ∧ game.contactTimer < 2))
    (hBelow : ∀ p ∈ dts.inits, floatSum 0 p < 3) :
    ∃ (e2 : Target) (f2 : Fence),
      (targetFrames sqrtf game (dts ++ [last])).targets = pre ++ e2 :: post
      ∧ (targetFrames sqrtf game (dts ++ [last])).fences = fpre ++ f2 :: fpost
      ∧ e2.lifeTimer = floatSum 0 (dts ++ [last])
      ∧ f2.fenceContactTimer = floatSum 0 (dts ++ [last])
      ∧ e2.position = e.position
      ∧ (floatSum 0 (dts ++ [last]) < 3 →
          e2.active = true ∧ f2.fenceActive = true
          ∧ (targetFrames sqrtf game (dts ++ [last])).coins = game.coins)
      ∧ (3 ≤ floatSum 0 (dts ++ [last]) →
          e2.active = false ∧ f2.fenceActive = false
          ∧ (targetFrames sqrtf game (dts ++ [last])).coins = game.coins + 1) := by
  obtain ⟨e2, f2, s1, s2, s3, s4, s5, s6, s7, s8⟩ := targetFrames_held sqrtf pre post fpre fpost
    hOtherTargets hOtherFences last dts game e f hTargets hFences hEnemy hFence
    (hFenceTimer.trans hEnemyTimer.symm) hEnemyLimit hFenceLimit hTouch hPath
    (by rw [hEnemyTimer]; exact hBelow)
  rw [hEnemyTimer] at s3 s4 s6 s7 s8
  refine ⟨e2, f2, s1, s2, s3, s4, s5, ?_, ?_⟩
  · intro h
    rw [s6, s7, s8, if_neg (not_le.mpr h)]
    exact ⟨decide_eq_true h, decide_eq_true h, by simp⟩
  · intro h
    rw [s6, s7, s8, if_pos h]
    exact ⟨decide_eq_false (not_lt.mpr h), decide_eq_false (not_lt.mpr h), rfl⟩

/-- C20 (counterexample): in Scenario C with the positive frame times 2.5, four times
`2^-24`, and `0.5 - 2^-22`, the sum of the frame times reaches 3.0 in the last pass and not
before, yet after that pass the enemy and the fence are still active, no coin is paid and
both timers hold `3 - 2^-22`: the four small frame times are lost in the rounding of the
`float` sums. And when the enemy has no waypoint left and touches the base (a fence next to
the base), three passes of 0.5 s deactivate it by the path-end rule, the frame times adding
up to 1.5, without a coin. -/
theorem C20_counterexample :
    ((∀ d ∈ [5 / 2, 1 / 16777216, 1 / 16777216, 1 / 16777216, 1 / 16777216,
          1 / 2 - 1 / 4194304], (0 : ℚ) < d)
      ∧ ([5 / 2, 1 / 16777216, 1 / 16777216, 1 / 16777216, 1 / 16777216,
          1 / 2 - 1 / 4194304] : List ℚ).sum = 3
      ∧ ([5 / 2, 1 / 16777216, 1 / 16777216, 1 / 16777216, 1 / 16777216] : List ℚ).sum < 3
      ∧ (targetFrames sqrtExact scenarioC
          [5 / 2, 1 / 16777216, 1 / 16777216, 1 / 16777216, 1 / 16777216,
            1 / 2 - 1 / 4194304]).targets.map (fun t => (t.active, t.lifeTimer))
          = [(true, 3 - 1 / 4194304)]
      ∧ (targetFrames sqrtExact scenarioC
          [5 / 2, 1 / 16777216, 1 / 16777216, 1 / 16777216, 1 / 16777216,
            1 / 2 - 1 / 4194304]).fences.map (fun x => (x.fenceActive, x.fenceContactTimer))
          = [(true, 3 - 1 / 4194304)]
      ∧ (targetFrames sqrtExact scenarioC
          [5 / 2, 1 / 16777216, 1 / 16777216, 1 / 16777216, 1 / 16777216,
            1 / 2 - 1 / 4194304]).coins = scenarioC.coins)
    ∧ (pathEndState.targets.map
          (fun t => (t.active, t.lifeTimer, t.lifeTimeLimit)) = [(true, 0, 3)]
      ∧ pathEndState.fences.map
          (fun x => (x.fenceActive, x.fenceContactTimer, x.fenceContactTimeLimit))
            = [(true, 0, 3)]
      ∧ (targetFrames sqrtExact pathEndState [1 / 2, 1 / 2]).targets.map
          (fun t => (t.active, t.lifeTimer)) = [(true, 1)]
      ∧ (targetFrames sqrtExact pathEndState [1 / 2, 1 / 2, 1 / 2]).targets.map
          (fun t => (t.active, t.lifeTimer)) = [(false, 3 / 2)]
      ∧ (targetFrames sqrtExact pathEndState [1 / 2, 1 / 2, 1 / 2]).coins
          = pathEndState.coins) := by
  decide!

/-- C20 (witness): Scenario C with three frames of one second; the enemy and the fence are
deactivated in the third frame, with both timers at 3.0, and one coin is paid. -/
theorem C20_scenario_c_witness :
    ((targetFrames sqrtExact scenarioC [1, 1, 1]).targets.map
        (fun t => (t.active, t.lifeTimer)) = [(false, 3)]
      ∧ (targetFrames sqrtExact scenarioC [1, 1, 1]).fences.map
        (fun x => (x.fenceActive, x.fenceContactTimer)) = [(false, 3)]
      ∧ (targetFrames sqrtExact scenarioC [1, 1]).targets.map
        (fun t => (t.active, t.lifeTimer)) = [(true, 2)]
      ∧ (targetFrames sqrtExact scenarioC [1, 1, 1]).coins = scenarioC.coins + 1
      ∧ floatSum 0 ([1, 1] ++ [1]) = 3)
    ∧ ∃ (e2 : Target) (f2 : Fence),
        (targetFrames sqrtExact scenarioC ([1, 1] ++ [1])).targets = [] ++ e2 :: []
        ∧ (targetFrames sqrtExact scenarioC ([1, 1] ++ [1])).fences = [] ++ f2 :: []
        ∧ e2.lifeTimer = floatSum 0 ([1, 1] ++ [1])
        ∧ f2.fenceContactTimer = floatSum 0 ([1, 1] ++ [1])
        ∧ e2.position = scenarioEnemy.position
        ∧ (floatSum 0 ([1, 1] ++ [1]) < 3 →
            e2.active = true ∧ f2.fenceActive = true
            ∧ (targetFrames sqrtExact scenarioC ([1, 1] ++ [1])).coins = scenarioC.coins)
        ∧ (3 ≤ floatSum 0 ([1, 1] ++ [1]) →
            e2.active = false ∧ f2.fenceActive = false
            ∧ (targetFrames sqrtExact scenarioC ([1, 1] ++ [1])).coins = scenarioC.coins + 1) :=
  ⟨by decide!,
    C20_scenario_c sqrtExact scenarioC [] [] scenarioEnemy [] [] (newFence 4 0) [1, 1] 1
      rfl (by decide) rfl (by decide) rfl rfl rfl rfl rfl rfl (by decide!)
      (Or.inl (by decide!)) (by decide!)⟩

/-! ## What the enemy simulation does to fences, coins and the wave fields -/

theorem fenceContact_frame (sqrtf : ℚ → ℚ) (dt : ℚ) (st : FenceScan) (fence : Fence) :
    fenceShape (fenceContact sqrtf dt st fence).2 = fenceShape fence
    ∧ st.coins ≤ (fenceContact sqrtf dt st fence).1.coins := by
  unfold fenceContact
  simp only
  split_ifs <;> first | exact ⟨rfl, le_refl _⟩ | exact ⟨rfl, by show st.coins ≤ st.coins + 1; omega⟩

theorem scanFences_frame (sqrtf : ℚ → ℚ) (dt : ℚ) (fences : List Fence) :
    ∀ st : FenceScan,
      (scanFences sqrtf dt st fences).2.map fenceShape = fences.map fenceShape
      ∧ st.coins ≤ (scanFences sqrtf dt st fences).1.coins := by
  induction fences with
  | nil => intro st; exact ⟨rfl, le_refl _⟩
  | cons fence rest ih =>
    intro st
    obtain ⟨a1, a2⟩ := fenceContact_frame sqrtf dt st fence
    obtain ⟨b1, b2⟩ := ih (fenceContact sqrtf dt st fence).1
    simp only [scanFences, List.map_cons]
    exact ⟨by rw [a1, b1], le_trans a2 b2⟩

theorem resetStaleFence_shape (fence : Fence) :
    fenceShape (resetStaleFence fence) = fenceShape fence := by
  unfold resetStaleFence
  split_ifs <;> rfl

theorem fencePhase_frame (sqrtf : ℚ → ℚ) (dt : ℚ) (game : Game) (target : Target) :
    (fencePhase sqrtf dt game target).1.fences.map fenceShape = game.fences.map fenceShape
    ∧ game.coins ≤ (fencePhase sqrtf dt game target).1.coins
    ∧ waveState (fencePhase sqrtf dt game target).1 = waveState game
    ∧ (fencePhase sqrtf dt game target).1.pause = game.pause := by
  obtain ⟨s1, s2⟩ := scanFences_frame sqrtf dt game.fences
    ⟨{ target with stopped := false }, game.coins, false⟩
  unfold fencePhase
  simp only
  split_ifs
  · refine ⟨?_, s2, rfl, rfl⟩
    show (List.map resetStaleFence _).map fenceShape = _
    rw [List.map_map]
    have hcomp : fenceShape ∘ resetStaleFence = fenceShape := by
      funext x
      exact resetStaleFence_shape x
    rw [hcomp]
    exact s1
  · exact ⟨s1, s2, rfl, rfl⟩

theorem updateTarget_frame (sqrtf : ℚ → ℚ) (dt : ℚ) (game : Game) (target : Target) :
    (updateTarget sqrtf dt game target).1.fences.map fenceShape = game.fences.map fenceShape
    ∧ game.coins ≤ (updateTarget sqrtf dt game target).1.coins
    ∧ waveState (updateTarget sqrtf dt game target).1 = waveState game
    ∧ (updateTarget sqrtf dt game target).1.pause = game.pause := by
  obtain ⟨p1, p2, p3, p4⟩ := fencePhase_frame sqrtf dt game target
  unfold updateTarget
  simp only
  split_ifs <;> first | exact ⟨rfl, le_refl _, rfl, rfl⟩ | exact ⟨p1, p2, p3, p4⟩

theorem targetsLoop_frame (sqrtf : ℚ → ℚ) (dt : ℚ) (targets : List Target) :
    ∀ game : Game,
      (targetsLoop sqrtf dt game targets).1.fences.map fenceShape = game.fences.map fenceShape
      ∧ game.coins ≤ (targetsLoop sqrtf dt game targets).1.coins
      ∧ waveState (targetsLoop sqrtf dt game targets).1 = waveState game
      ∧ (targetsLoop sqrtf dt game targets).1.pause = game.pause := by
  induction targets with
  | nil => intro game; exact ⟨rfl, le_refl _, rfl, rfl⟩
  | cons target rest ih =>
    intro game
    obtain ⟨u1, u2, u3, u4⟩ := updateTarget_frame sqrtf dt game target
    obtain ⟨i1, i2, i3, i4⟩ := ih (updateTarget sqrtf dt game target).1
    simp only [targetsLoop]
    exact ⟨i1.trans u1, le_trans u2 i2, i3.trans u3, i4.trans u4⟩

theorem UpdateTargets_frame (sqrtf : ℚ → ℚ) (game : Game) (dt : ℚ) :
    (UpdateTargets sqrtf game dt).fences.map fenceShape = game.fences.map fenceShape
    ∧ game.coins ≤ (UpdateTargets sqrtf game dt).coins
    ∧ waveState (UpdateTargets sqrtf game dt) = waveState game
    ∧ (UpdateTargets sqrtf game dt).pause = game.pause := by
  obtain ⟨i1, i2, i3, i4⟩ := targetsLoop_frame sqrtf dt game.targets { game with inContact := false }
  unfold UpdateTargets baseContactStep targetsPass
  simp only
  split_ifs <;> exact ⟨i1, i2, i3, i4⟩

theorem expireFence_spec (fence : Fence) :
    fenceShape (expireFence fence) = fenceShape fence
    ∧ (expireFence fence).fenceContactTimer = fence.fenceContactTimer
    ∧ ¬ ((expireFence fence).fenceActive = true
        ∧ (expireFence fence).fenceContactTimer ≥ (expireFence fence).fenceContactTimeLimit)
    ∧ (fence.fenceContactTimer ≥ fence.fenceContactTimeLimit →
        (expireFence fence).fenceActive = false) := by
  unfold expireFence
  split_ifs with h
  · exact ⟨rfl, rfl, fun hc => hc.1.elim, fun _ => rfl⟩
  · refine ⟨rfl, rfl, fun hc => h hc, fun ht => ?_⟩
    cases ha : fence.fenceActive
    · rfl
    · exact absurd ⟨ha, ht⟩ h

theorem UpdateWave_frame (game : Game) (dt : ℚ) :
    (UpdateWave game dt).fences = game.fences
    ∧ (UpdateWave game dt).coins = game.coins
    ∧ (UpdateWave game dt).pause = game.pause := by
  unfold UpdateWave waveCountdown endWave activateSecondPath startNextWave
  simp only
  split_ifs <;> exact ⟨rfl, rfl, rfl⟩

theorem SpawnEnemies_frame (game : Game) (dt : ℚ) :
    (SpawnEnemies game dt).fences = game.fences
    ∧ (SpawnEnemies game dt).coins = game.coins
    ∧ (SpawnEnemies game dt).pause = game.pause := by
  unfold SpawnEnemies
  simp only
  split_ifs <;> exact ⟨rfl, rfl, rfl⟩

theorem missileCollisions_coins (sqrtf : ℚ → ℚ) (game : Game) (dt : ℚ) :
    game.coins ≤ (missileCollisions sqrtf game dt).coins := by
  obtain ⟨k, _, k2, _, _⟩ := missilesLoop_count sqrtf dt game.missiles ⟨game.targets, game.coins⟩
  have h : (missileCollisions sqrtf game dt).coins = game.coins + (k : Int) := k2
  rw [h]
  omega

/-- The fences at the end of an `UpdateGame` frame that passed the gate: the active ones
among the fences that `UpdateFences` leaves after the enemy simulation. -/
theorem UpdateGame_fences (sqrtf : ℚ → ℚ) (game : Game) (dt : ℚ)
    (h : ¬ (game.pause = true ∨ game.gameOver = true)) :
    (UpdateGame sqrtf game dt).fences
      = ((UpdateTargets sqrtf (SpawnEnemies (UpdateWave game dt) dt) dt).fences.map
          expireFence).filter (fun f => f.fenceActive) := by
  unfold UpdateGame
  rw [if_neg h]
  rfl

theorem UpdateGame_fence_sound (sqrtf : ℚ → ℚ) (game : Game) (dt : ℚ)
    (h : ¬ (game.pause = true ∨ game.gameOver = true)) :
    ∀ f ∈ (UpdateGame sqrtf game dt).fences,
      f.fenceActive = true ∧ f.fenceContactTimer < f.fenceContactTimeLimit
      ∧ ∃ x ∈ game.fences, fenceShape x = fenceShape f := by
  intro f hf
  rw [UpdateGame_fences sqrtf game dt h, List.mem_filter, List.mem_map] at hf
  obtain ⟨⟨x, hx, hxf⟩, hact⟩ := hf
  obtain ⟨e1, _, e3, _⟩ := expireFence_spec x
  rw [hxf] at e1 e3
  refine ⟨hact, ?_, ?_⟩
  · by_contra hn
    exact e3 ⟨hact, not_lt.mp hn⟩
  · have hshape : fenceShape x ∈ (UpdateTargets sqrtf (SpawnEnemies (UpdateWave game dt) dt)
        dt).fences.map fenceShape := List.mem_map_of_mem _ hx
    rw [(UpdateTargets_frame sqrtf _ dt).1, (SpawnEnemies_frame _ dt).1,
      (UpdateWave_frame game dt).1, List.mem_map] at hshape
    obtain ⟨y, hy, hyx⟩ := hshape
    exact ⟨y, hy, hyx.trans e1.symm⟩

/-- Game state after the last three stages of a frame, run on `game`. -/
theorem afterTargets_frame (sqrtf : ℚ → ℚ) (game : Game) (dt : ℚ) :
    game.coins ≤ (UpdateMissiles sqrtf (UpdateTowers sqrtf (UpdateFences game) dt) dt).coins
    ∧ (UpdateMissiles sqrtf (UpdateTowers sqrtf (UpdateFences game) dt) dt).pause = game.pause
    ∧ waveState (UpdateMissiles sqrtf (UpdateTowers sqrtf (UpdateFences game) dt) dt)
        = waveState game
    ∧ (UpdateMissiles sqrtf (UpdateTowers sqrtf (UpdateFences game) dt) dt).fences
        = (game.fences.map expireFence).filter (fun f => f.fenceActive)
    ∧ (UpdateMissiles sqrtf (UpdateTowers sqrtf (UpdateFences game) dt) dt).fenceCount
        = game.fenceCount
          - ((game.fences.length
              - ((game.fences.map expireFence).filter (fun f => f.fenceActive)).length : Nat)
              : Int) := by
  refine ⟨missileCollisions_coins sqrtf (UpdateTowers sqrtf (UpdateFences game) dt) dt,
    rfl, rfl, rfl, ?_⟩
  show game.fenceCount
      - (((game.fences.map expireFence).length
          - ((game.fences.map expireFence).filter (fun f => f.fenceActive)).length : Nat) : Int)
      = _
  rw [List.length_map]

theorem UpdateGame_stages (sqrtf : ℚ → ℚ) (game : Game) (dt : ℚ)
    (h : ¬(game.pause = true ∨ game.gameOver = true)) :
    UpdateGame sqrtf game dt
      = UpdateMissiles sqrtf (UpdateTowers sqrtf (UpdateFences
          (UpdateTargets sqrtf (SpawnEnemies (UpdateWave game dt) dt) dt)) dt) dt := by
  unfold UpdateGame
  rw [if_neg h]

theorem UpdateGame_frame (sqrtf : ℚ → ℚ) (game : Game) (dt : ℚ) :
    game.coins ≤ (UpdateGame sqrtf game dt).coins
    ∧ (UpdateGame sqrtf game dt).pause = game.pause
    ∧ (game.fenceCount = (game.fences.length : Int) →
        (UpdateGame sqrtf game dt).fenceCount = ((UpdateGame sqrtf game dt).fences.length : Int)) := by
  by_cases h : game.pause = true ∨ game.gameOver = true
  · have hU : UpdateGame sqrtf game dt = game := by
      unfold UpdateGame
      rw [if_pos h]
    rw [hU]
    exact ⟨le_refl _, rfl, fun hc => hc⟩
  · obtain ⟨w1, w2, w3⟩ := UpdateWave_frame game dt
    obtain ⟨s1, s2, s3⟩ := SpawnEnemies_frame (UpdateWave game dt) dt
    obtain ⟨t1, t2, _, t4⟩ := UpdateTargets_frame sqrtf (SpawnEnemies (UpdateWave game dt) dt) dt
    obtain ⟨_, c2, _⟩ := UpdateTargets_static sqrtf (SpawnEnemies (UpdateWave game dt) dt) dt
    obtain ⟨_, c3, _⟩ := SpawnEnemies_static (UpdateWave game dt) dt
    obtain ⟨_, c4, _⟩ := UpdateWave_static game dt
    rw [UpdateGame_stages sqrtf game dt h]
    generalize UpdateTargets sqrtf (SpawnEnemies (UpdateWave game dt) dt) dt = T at *
    generalize SpawnEnemies (UpdateWave game dt) dt = S at *
    generalize UpdateWave game dt = W at *
    obtain ⟨a1, a2, _, a4, a5⟩ := afterTargets_frame sqrtf T dt
    refine ⟨?_, ?_, ?_⟩
    · refine le_trans (le_of_eq ?_) (le_trans t2 a1)
      rw [s2, w2]
    · rw [a2, t4, s3, w3]
    · intro hc
      have hlen : T.fences.length = game.fences.length := by
        have h1 := congrArg List.length t1
        rw [List.length_map, List.length_map, s1, w1] at h1
        exact h1
      have hfilter : ((T.fences.map expireFence).filter (fun f => f.fenceActive)).length
            ≤ (T.fences.map expireFence).length := List.length_filter_le _ _
      rw [List.length_map] at hfilter
      rw [a5, a4, c2, c3, c4, hc, hlen]
      rw [hlen] at hfilter
      omega

theorem buildOrUpgradeTower_frame (game : Game) :
    (buildOrUpgradeTower game).fences = game.fences
    ∧ (buildOrUpgradeTower game).fenceCount = game.fenceCount
    ∧ waveState (buildOrUpgradeTower game) = waveState game
    ∧ (buildOrUpgradeTower game).pause = game.pause
    ∧ (0 ≤ game.coins → 0 ≤ (buildOrUpgradeTower game).coins) := by
  have hw : (buildOrUpgradeTower game).fences = game.fences
      ∧ (buildOrUpgradeTower game).fenceCount = game.fenceCount
      ∧ waveState (buildOrUpgradeTower game) = waveState game
      ∧ (buildOrUpgradeTower game).pause = game.pause := by
    unfold buildOrUpgradeTower
    simp only
    split_ifs <;> exact ⟨rfl, rfl, rfl, rfl⟩
  refine ⟨hw.1, hw.2.1, hw.2.2.1, hw.2.2.2, fun h0 => ?_⟩
  by_cases hc : game.coins ≥ 50
  · by_cases ht : game.towerCount < 4
    · unfold buildOrUpgradeTower
      rw [if_pos hc, if_pos ht]
      show 0 ≤ payCost game.coins 50
      exact (payCost_fifty game.coins).1 hc
    · obtain ⟨_, u2, _⟩ := buildOrUpgradeTower_upgrade game hc ht
      rw [u2]
      split_ifs
      · rcases upgradeLoop_coins_le game.towers game.coins with h | h
        · rw [h]; exact h0
        · rw [h]; exact (payCost_fifty game.coins).1 hc
      · exact h0
  · rw [buildOrUpgradeTower_poor game (not_le.mp hc)]
    exact h0

theorem buildFence_frame (game : Game) :
    waveState (buildFence game) = waveState game
    ∧ (buildFence game).pause = game.pause
    ∧ (buildFence game = game
      ∨ ((buildFence game).fences = game.fences ++ [newFence game.towerCount game.fenceCount]
          ∧ (buildFence game).fenceCount = game.fenceCount + 1
          ∧ game.coins ≥ 20
          ∧ (buildFence game).coins = payCost game.coins 20)) := by
  unfold buildFence
  split_ifs with h
  · exact ⟨rfl, rfl, Or.inr ⟨rfl, rfl, h.1, rfl⟩⟩
  · exact ⟨rfl, rfl, Or.inl rfl⟩

theorem newFence_sound (towerCount fenceCount : Int) :
    (newFence towerCount fenceCount).fenceActive = true
    ∧ (newFence towerCount fenceCount).fenceContactTimer = 0
    ∧ (newFence towerCount fenceCount).fenceContactTimeLimit = 3 :=
  ⟨rfl, rfl, rfl⟩

theorem actions_frame (sqrtf : ℚ → ℚ) (game : Game) (input : Input) :
    waveState (actions sqrtf game input) = waveState game
    ∧ (actions sqrtf game input).pause = game.pause
    ∧ (0 ≤ game.coins → 0 ≤ (actions sqrtf game input).coins)
    ∧ (((actions sqrtf game input).fences = game.fences
          ∧ (actions sqrtf game input).fenceCount = game.fenceCount)
      ∨ ((actions sqrtf game input).fences
            = game.fences ++ [newFence (actions sqrtf game input).towerCount game.fenceCount]
          ∧ (actions sqrtf game input).fenceCount = game.fenceCount + 1)) := by
  have key : ∀ g1 : Game, (g1 = game ∨ g1 = shoot sqrtf game) →
      ∀ g2 : Game, (g2 = g1 ∨ g2 = buildOrUpgradeTower g1) →
      ∀ g3 : Game, (g3 = g2 ∨ g3 = buildFence g2) →
        waveState g3 = waveState game
        ∧ g3.pause = game.pause
        ∧ (0 ≤ game.coins → 0 ≤ g3.coins)
        ∧ ((g3.fences = game.fences ∧ g3.fenceCount = game.fenceCount)
          ∨ (g3.fences = game.fences ++ [newFence g3.towerCount game.fenceCount]
              ∧ g3.fenceCount = game.fenceCount + 1)) := by
    intro g1 h1 g2 h2 g3 h3
    have e1 : waveState g1 = waveState game ∧ g1.pause = game.pause ∧ g1.coins = game.coins
        ∧ g1.fences = game.fences ∧ g1.fenceCount = game.fenceCount := by
      rcases h1 with h1 | h1 <;> rw [h1] <;> exact ⟨rfl, rfl, rfl, rfl, rfl⟩
    obtain ⟨b1, b2, b3, b4, b5⟩ := buildOrUpgradeTower_frame g1
    have e2 : waveState g2 = waveState game ∧ g2.pause = game.pause
        ∧ (0 ≤ game.coins → 0 ≤ g2.coins)
        ∧ g2.fences = game.fences ∧ g2.fenceCount = game.fenceCount := by
      rcases h2 with h2 | h2
      · rw [h2]
        exact ⟨e1.1, e1.2.1, fun h => e1.2.2.1 ▸ h, e1.2.2.2.1, e1.2.2.2.2⟩
      · rw [h2]
        exact ⟨b3.trans e1.1, b4.trans e1.2.1, fun h => b5 (e1.2.2.1 ▸ h),
          b1.trans e1.2.2.2.1, b2.trans e1.2.2.2.2⟩
    obtain ⟨f1, f2, f3⟩ := buildFence_frame g2
    obtain ⟨ft, _, _⟩ := buildFence_static g2
    rcases h3 with h3 | h3
    · rw [h3]
      exact ⟨e2.1, e2.2.1, e2.2.2.1, Or.inl ⟨e2.2.2.2.1, e2.2.2.2.2⟩⟩
    · rw [h3]
      refine ⟨f1.trans e2.1, f2.trans e2.2.1, ?_, ?_⟩
      · intro h0
        rcases f3 with f3 | ⟨_, _, f5, f6⟩
        · rw [f3]; exact e2.2.2.1 h0
        · rw [f6]; exact (payCost_twenty _).1 f5
      · rcases f3 with f3 | ⟨f4, f5, _, _⟩
        · rw [f3]; exact Or.inl ⟨e2.2.2.2.1, e2.2.2.2.2⟩
        · refine Or.inr ⟨?_, ?_⟩
          · rw [f4, ft, e2.2.2.2.1, e2.2.2.2.2]
          · rw [f5, e2.2.2.2.2]
  refine key (if input.keySpace = true then shoot sqrtf game else game) ?_
    (if input.keyT = true then
      buildOrUpgradeTower (if input.keySpace = true then shoot sqrtf game else game)
      else (if input.keySpace = true then shoot sqrtf game else game)) ?_
    (actions sqrtf game input) ?_
  · split_ifs <;> first | exact Or.inl rfl | exact Or.inr rfl
  · split_ifs <;> first | exact Or.inl rfl | exact Or.inr rfl
  · unfold actions
    simp only
    split_ifs <;> first | exact Or.inl rfl | exact Or.inr rfl

theorem HandleInput_frame (sqrtf : ℚ → ℚ) (game : Game) (input : Input) :
    waveState (HandleInput sqrtf game input) = waveState game
    ∧ (0 ≤ game.coins → 0 ≤ (HandleInput sqrtf game input).coins)
    ∧ (((HandleInput sqrtf game input).fences = game.fences
          ∧ (HandleInput sqrtf game input).fenceCount = game.fenceCount)
      ∨ ((HandleInput sqrtf game input).fences
            = game.fences ++ [newFence (HandleInput sqrtf game input).towerCount game.fenceCount]
          ∧ (HandleInput sqrtf game input).fenceCount = game.fenceCount + 1)) := by
  have hp : waveState (pauseToggle game input) = waveState game := by
    unfold pauseToggle
    simp only
    split_ifs <;> rfl
  obtain ⟨_, p2, _, p4, p5⟩ := pauseToggle_static game input
  obtain ⟨a1, _, a3, a4⟩ := actions_frame sqrtf (pauseToggle game input) input
  unfold HandleInput
  simp only
  split_ifs
  · exact ⟨hp, fun h => p5 ▸ h, Or.inl ⟨p4, p2⟩⟩
  · rw [p4, p2, p5] at *
    exact ⟨a1.trans hp, a3, a4⟩

theorem FencesFresh_append (fences : List Fence) (towerCount fenceCount : Int)
    (h : FencesFresh fences) : FencesFresh (fences ++ [newFence towerCount fenceCount]) := by
  intro f hf
  simp only [List.mem_append, List.mem_singleton] at hf
  rcases hf with hf | hf
  · exact h f hf
  · rw [hf]
    exact ⟨rfl, by show (0 : ℚ) < 3; norm_num, rfl⟩

theorem UpdateGame_fresh (sqrtf : ℚ → ℚ) (game : Game) (dt : ℚ)
    (h : FencesFresh game.fences) : FencesFresh (UpdateGame sqrtf game dt).fences := by
  by_cases hg : game.pause = true ∨ game.gameOver = true
  · have hU : UpdateGame sqrtf game dt = game := by
      unfold UpdateGame
      rw [if_pos hg]
    rw [hU]
    exact h
  · intro f hf
    obtain ⟨s1, s2, x, hx, hs⟩ := UpdateGame_fence_sound sqrtf game dt hg f hf
    have hl : f.fenceContactTimeLimit = 3 := by
      have := congrArg (fun p => p.2.2) hs
      simp only [fenceShape] at this
      rw [← this]
      exact (h x hx).2.2
    exact ⟨s1, hl ▸ s2, hl⟩

/-- The invariant of the purchases: no debt, only fresh fences, and `fenceCount` is the size
of the fence collection. -/
theorem step_sound (sqrtf : ℚ → ℚ) (game : Game) (event : Event)
    (h : 0 ≤ game.coins ∧ FencesFresh game.fences
      ∧ game.fenceCount = (game.fences.length : Int)) :
    0 ≤ (step sqrtf game event).coins ∧ FencesFresh (step sqrtf game event).fences
      ∧ (step sqrtf game event).fenceCount = ((step sqrtf game event).fences.length : Int) := by
  obtain ⟨h1, h2, h3⟩ := h
  cases event with
  | input i =>
    obtain ⟨_, i2, i3⟩ := HandleInput_frame sqrtf game i
    refine ⟨i2 h1, ?_, ?_⟩
    · show FencesFresh (HandleInput sqrtf game i).fences
      rcases i3 with ⟨e, _⟩ | ⟨e, _⟩
      · rw [e]; exact h2
      · rw [e]; exact FencesFresh_append _ _ _ h2
    · show (HandleInput sqrtf game i).fenceCount = ((HandleInput sqrtf game i).fences.length : Int)
      rcases i3 with ⟨e, c⟩ | ⟨e, c⟩
      · rw [e, c]; exact h3
      · rw [e, c, List.length_append, h3]
        simp
  | update dt =>
    obtain ⟨u1, _, u3⟩ := UpdateGame_frame sqrtf game dt
    exact ⟨le_trans h1 u1, UpdateGame_fresh sqrtf game dt h2, u3 h3⟩
  | reset =>
    refine ⟨?_, ?_, ?_⟩
    · show (0 : Int) ≤ 1000
      omega
    · intro x hx
      exact absurd hx (List.not_mem_nil x)
    · rfl

theorem run_sound (sqrtf : ℚ → ℚ) (events : List Event) (game : Game)
    (h : 0 ≤ game.coins ∧ FencesFresh game.fences
      ∧ game.fenceCount = (game.fences.length : Int)) :
    0 ≤ (run sqrtf game events).coins ∧ FencesFresh (run sqrtf game events).fences
      ∧ (run sqrtf game events).fenceCount = ((run sqrtf game events).fences.length : Int) := by
  induction events generalizing game with
  | nil => exact h
  | cons event rest ih => exact ih (step sqrtf game event) (step_sound sqrtf game event h)

theorem ResetGame_sound (game : Game) :
    0 ≤ (ResetGame game).coins ∧ FencesFresh (ResetGame game).fences
      ∧ (ResetGame game).fenceCount = ((ResetGame game).fences.length : Int) :=
  ⟨by show (0 : Int) ≤ 1000; omega, fun x hx => absurd hx (List.not_mem_nil x), rfl⟩

theorem initialGame_sound :
    0 ≤ initialGame.coins ∧ FencesFresh initialGame.fences
      ∧ initialGame.fenceCount = (initialGame.fences.length : Int) :=
  ⟨by decide, fun x hx => absurd hx (List.not_mem_nil x), rfl⟩

/-! ## C21: fence durability -/

/-- C21: after `UpdateFences` no fence is both active and has its contact timer at or above
its contact time limit, whatever the enemy collection is (`UpdateFences` maps the loop body
over the fences and reads nothing else; a fence whose timer has reached the limit comes out
inactive). Every fence left in the collection at the end of an `UpdateGame` frame that runs
(not paused, not game over) is active with its timer strictly below its limit, and in every
state reached from a reset state or from the state after `InitializeGame`, and after one more
frame, every fence is active with limit 3 and timer strictly below 3. With no enemy at all,
the worn fence is deactivated by `UpdateFences` and gone after the frame. -/
theorem C21_fence_durability (sqrtf : ℚ → ℚ) (game game0 : Game) (dt : ℚ)
    (events : List Event) :
    (∀ f ∈ (UpdateFences game).fences,
        ¬(f.fenceActive = true ∧ f.fenceContactTimer ≥ f.fenceContactTimeLimit))
    ∧ (UpdateFences game).fences = game.fences.map expireFence
    ∧ (UpdateFences { game with targets := [] }).fences = (UpdateFences game).fences
    ∧ (∀ f : Fence, f.fenceContactTimer ≥ f.fenceContactTimeLimit →
        (expireFence f).fenceActive = false)
    ∧ (game.pause = false → game.gameOver = false →
        ∀ f ∈ (UpdateGame sqrtf game dt).fences,
          f.fenceActive = true ∧ f.fenceContactTimer < f.fenceContactTimeLimit)
    ∧ FencesFresh (run sqrtf (ResetGame game0) events).fences
    ∧ FencesFresh (UpdateGame sqrtf (run sqrtf (ResetGame game0) events) dt).fences
    ∧ FencesFresh (run sqrtf initialGame events).fences
    ∧ FencesFresh (UpdateGame sqrtf (run sqrtf initialGame events) dt).fences
    ∧ wornFenceState.targets = []
    ∧ (UpdateFences wornFenceState).fences
        = [{ wornFence with fenceActive := false }, newFence 4 1]
    ∧ (UpdateGame sqrtExact wornFenceState (1 / 60)).fences = [newFence 4 1] := by
  have hr := (run_sound sqrtf events (ResetGame game0) (ResetGame_sound game0)).2.1
  have hi := (run_sound sqrtf events initialGame initialGame_sound).2.1
  refine ⟨?_, rfl, rfl, fun f hf => (expireFence_spec f).2.2.2 hf, ?_, hr,
    UpdateGame_fresh sqrtf _ dt hr, hi, UpdateGame_fresh sqrtf _ dt hi, rfl, by decide!,
    by decide!⟩
  · intro f hf
    have hf2 : f ∈ game.fences.map expireFence := hf
    rw [List.mem_map] at hf2
    obtain ⟨x, _, hx⟩ := hf2
    rw [← hx]
    exact (expireFence_spec x).2.2.1
  · intro hp hg f hf
    have hgate : ¬(game.pause = true ∨ game.gameOver = true) := by
      rw [hp, hg]
      simp
    obtain ⟨s1, s2, _⟩ := UpdateGame_fence_sound sqrtf game dt hgate f hf
    exact ⟨s1, s2⟩

/-! ## The second path -/

theorem endWave_wave (game : Game) :
    (endWave game).secondPathActive = game.secondPathActive
    ∧ (endWave game).baseEnemiesPerWave = game.baseEnemiesPerWave
    ∧ (endWave game = game ∨ (endWave game).waveActive = false) := by
  unfold endWave
  split_ifs
  · exact ⟨rfl, rfl, Or.inr rfl⟩
  · exact ⟨rfl, rfl, Or.inl rfl⟩

theorem waveCountdown_cases (game : Game) (dt : ℚ) :
    (waveCountdown game dt).secondPathActive = game.secondPathActive
    ∧ (waveCountdown game dt).baseEnemiesPerWave = game.baseEnemiesPerWave
    ∧ (((waveCountdown game dt).waveNumber = game.waveNumber
          ∧ (waveCountdown game dt).maxEnemies = game.maxEnemies
          ∧ (waveCountdown game dt).enemiesSpawned = game.enemiesSpawned
          ∧ (waveCountdown game dt).waveActive = game.waveActive)
      ∨ (game.waveActive = false
          ∧ (waveCountdown game dt).waveNumber = game.waveNumber + 1
          ∧ (waveCountdown game dt).maxEnemies
              = game.baseEnemiesPerWave + (game.waveNumber + 1 - 1) * 5
                + (if game.secondPathActive = true then 10 else 0)
          ∧ (waveCountdown game dt).enemiesSpawned = 0
          ∧ (waveCountdown game dt).waveActive = true)) := by
  by_cases hA : game.waveActive = true
  · rw [waveCountdown_of_active game dt hA]
    exact ⟨rfl, rfl, Or.inl ⟨rfl, rfl, rfl, rfl⟩⟩
  · have hA2 : game.waveActive = false := by
      cases hw : game.waveActive
      · rfl
      · exact absurd hw hA
    rw [waveCountdown_of_inactive game dt hA2]
    by_cases hT : game.waveDelayTimer + dt ≥ 5
    · rw [if_pos hT]
      obtain ⟨s1, _, _, s4, s5, s6, s7, s8⟩ :=
        startNextWave_fields { game with waveDelayTimer := game.waveDelayTimer + dt }
      exact ⟨s7, s8, Or.inr ⟨hA2, s1, s4, s5, s6⟩⟩
    · rw [if_neg hT]
      exact ⟨rfl, rfl, Or.inl ⟨rfl, rfl, rfl, rfl⟩⟩

theorem UpdateWave_wave (game : Game) (dt : ℚ) :
    (UpdateWave game dt).secondPathActive
        = (game.secondPathActive || decide (game.waveNumber ≥ 10))
    ∧ (UpdateWave game dt).baseEnemiesPerWave = game.baseEnemiesPerWave
    ∧ (((UpdateWave game dt).waveNumber = game.waveNumber
          ∧ (UpdateWave game dt).maxEnemies = (activateSecondPath game).maxEnemies
          ∧ (UpdateWave game dt).enemiesSpawned = game.enemiesSpawned
          ∧ ((UpdateWave game dt).waveActive = true → game.waveActive = true))
      ∨ ((UpdateWave game dt).waveNumber = game.waveNumber + 1
          ∧ (UpdateWave game dt).maxEnemies
              = game.baseEnemiesPerWave + ((UpdateWave game dt).waveNumber - 1) * 5
                + (if (UpdateWave game dt).secondPathActive = true then 10 else 0)
          ∧ (UpdateWave game dt).enemiesSpawned = 0
          ∧ (UpdateWave game dt).waveActive = true)) := by
  obtain ⟨a1, a2, _, _, a5, _, _, a8, a9, _⟩ := activateSecondPath_fields game
  obtain ⟨e1, _, e3, _, e5⟩ := endWave_fields (activateSecondPath game)
  obtain ⟨w1, w2, w3⟩ := endWave_wave (activateSecondPath game)
  obtain ⟨c1, c2, c3⟩ := waveCountdown_cases (endWave (activateSecondPath game)) dt
  have hflag : (UpdateWave game dt).secondPathActive
      = (game.secondPathActive || decide (game.waveNumber ≥ 10)) := by
    show (waveCountdown (endWave (activateSecondPath game)) dt).secondPathActive = _
    rw [c1, w1, a9]
  refine ⟨hflag, ?_, ?_⟩
  · show (waveCountdown (endWave (activateSecondPath game)) dt).baseEnemiesPerWave = _
    rw [c2, w2, a8]
  · rcases c3 with ⟨d1, d2, d3, d4⟩ | ⟨_, d1, d2, d3, d4⟩
    · refine Or.inl ⟨?_, ?_, ?_, ?_⟩
      · show (waveCountdown (endWave (activateSecondPath game)) dt).waveNumber = _
        rw [d1, e1, a2]
      · show (waveCountdown (endWave (activateSecondPath game)) dt).maxEnemies = _
        rw [d2, e5]
      · show (waveCountdown (endWave (activateSecondPath game)) dt).enemiesSpawned = _
        rw [d3, e3, a5]
      · intro hT
        have hT2 : (waveCountdown (endWave (activateSecondPath game)) dt).waveActive = true := hT
        rw [d4] at hT2
        rcases w3 with w3 | w3
        · rw [w3, a1] at hT2
          exact hT2
        · rw [w3] at hT2
          exact Bool.noConfusion hT2
    · have hwn : (UpdateWave game dt).waveNumber = game.waveNumber + 1 := by
        show (waveCountdown (endWave (activateSecondPath game)) dt).waveNumber = _
        rw [d1, e1, a2]
      refine Or.inr ⟨hwn, ?_, d3, d4⟩
      rw [hwn, hflag]
      show (waveCountdown (endWave (activateSecondPath game)) dt).maxEnemies = _
      rw [d2, w2, a8, e1, a2, w1, a9]

theorem SpawnEnemies_wave (game : Game) (dt : ℚ) :
    (SpawnEnemies game dt).secondPathActive = game.secondPathActive
    ∧ (SpawnEnemies game dt).baseEnemiesPerWave = game.baseEnemiesPerWave
    ∧ (SpawnEnemies game dt).waveNumber = game.waveNumber
    ∧ (SpawnEnemies game dt).waveActive = game.waveActive
    ∧ (SpawnEnemies game dt).maxEnemies = game.maxEnemies
    ∧ ((SpawnEnemies game dt).enemiesSpawned = game.enemiesSpawned
      ∨ (SpawnEnemies game dt).enemiesSpawned = game.enemiesSpawned + 1) := by
  unfold SpawnEnemies
  simp only
  split_ifs <;>
    first
    | exact ⟨rfl, rfl, rfl, rfl, rfl, Or.inl rfl⟩
    | exact ⟨rfl, rfl, rfl, rfl, rfl, Or.inr rfl⟩

theorem waveState_fields (a b : Game) (h : waveState a = waveState b) :
    a.waveNumber = b.waveNumber ∧ a.waveActive = b.waveActive
    ∧ a.enemiesSpawned = b.enemiesSpawned ∧ a.secondPathActive = b.secondPathActive
    ∧ a.baseEnemiesPerWave = b.baseEnemiesPerWave ∧ a.maxEnemies = b.maxEnemies := by
  unfold waveState at h
  simp only [Prod.mk.injEq] at h
  exact h

theorem UpdateGame_wave (sqrtf : ℚ → ℚ) (game : Game) (dt : ℚ)
    (h : ¬(game.pause = true ∨ game.gameOver = true)) :
    waveState (UpdateGame sqrtf game dt) = waveState (SpawnEnemies (UpdateWave game dt) dt) := by
  rw [UpdateGame_stages sqrtf game dt h]
  obtain ⟨_, _, t3, _⟩ := UpdateTargets_frame sqrtf (SpawnEnemies (UpdateWave game dt) dt) dt
  generalize UpdateTargets sqrtf (SpawnEnemies (UpdateWave game dt) dt) dt = T at *
  obtain ⟨_, _, a3, _⟩ := afterTargets_frame sqrtf T dt
  exact a3.trans t3

theorem UpdateWave_mid (game : Game) (dt : ℚ) (h : WaveInv game) :
    WaveMid (UpdateWave game dt) := by
  obtain ⟨hb, hj⟩ := h
  obtain ⟨u1, u2, u3⟩ := UpdateWave_wave game dt
  refine ⟨u2.trans hb, ?_⟩
  intro hf
  rw [u1] at hf
  simp only [Bool.or_eq_false_iff, decide_eq_false_iff_not, not_le] at hf
  obtain ⟨hf1, hf2⟩ := hf
  rcases u3 with ⟨d1, _, _, _⟩ | ⟨d1, _, d3, d4⟩
  · rw [d1]
    exact ⟨by omega, fun h10 => by omega⟩
  · rw [d1]
    exact ⟨by omega, fun _ => ⟨d4, d3⟩⟩

theorem SpawnEnemies_inv (game : Game) (dt : ℚ) (h : WaveMid game) :
    WaveInv (SpawnEnemies game dt) := by
  obtain ⟨hb, hj⟩ := h
  obtain ⟨s1, s2, s3, s4, _, s6⟩ := SpawnEnemies_wave game dt
  refine ⟨s2.trans hb, ?_⟩
  intro hf
  rw [s1] at hf
  obtain ⟨j1, j2⟩ := hj hf
  rw [s3, s4]
  refine ⟨j1, fun h10 => ?_⟩
  obtain ⟨j3, j4⟩ := j2 h10
  refine ⟨j3, ?_⟩
  rcases s6 with s6 | s6 <;> rw [s6, j4] <;> omega

theorem WaveInv_congr (a b : Game) (h : waveState a = waveState b) (hb : WaveInv b) :
    WaveInv a := by
  obtain ⟨f1, f2, f3, f4, f5, _⟩ := waveState_fields a b h
  unfold WaveInv
  rw [f1, f2, f3, f4, f5]
  exact hb

theorem step_wave (sqrtf : ℚ → ℚ) (game : Game) (event : Event) (h : WaveInv game) :
    WaveInv (step sqrtf game event) := by
  cases event with
  | input i => exact WaveInv_congr _ _ (HandleInput_frame sqrtf game i).1 h
  | update dt =>
    by_cases hg : game.pause = true ∨ game.gameOver = true
    · have hU : UpdateGame sqrtf game dt = game := by
        unfold UpdateGame
        rw [if_pos hg]
      show WaveInv (UpdateGame sqrtf game dt)
      rw [hU]
      exact h
    · exact WaveInv_congr _ _ (UpdateGame_wave sqrtf game dt hg)
        (SpawnEnemies_inv _ dt (UpdateWave_mid game dt h))
  | reset =>
    refine ⟨h.1, fun _ => ⟨?_, fun h10 => ?_⟩⟩
    · show (1 : Int) ≤ 10
      omega
    · have h1 : (1 : Int) = 10 := h10
      omega

theorem run_wave (sqrtf : ℚ → ℚ) (events : List Event) (game : Game) (h : WaveInv game) :
    WaveInv (run sqrtf game events) := by
  induction events generalizing game with
  | nil => exact h
  | cons event rest ih => exact ih (step sqrtf game event) (step_wave sqrtf game event h)

theorem initialGame_wave : WaveInv initialGame :=
  ⟨rfl, fun _ => ⟨by decide, fun h => absurd h (by decide)⟩⟩

/-- In a state of a run in which the activation is due, `UpdateWave` is the activation block
alone: the wave neither ends nor starts in that call. -/
theorem UpdateWave_due (game : Game) (dt : ℚ) (h : WaveInv game)
    (h10 : game.waveNumber ≥ 10) (hf : game.secondPathActive = false) :
    game.waveNumber = 10 ∧ UpdateWave game dt = activateSecondPath game := by
  obtain ⟨hb, hj⟩ := h
  obtain ⟨j1, j2⟩ := hj hf
  have hwn : game.waveNumber = 10 := by omega
  obtain ⟨j3, j4⟩ := j2 hwn
  obtain ⟨a1, _, _, _, a5, _, _, _, _, a10⟩ := activateSecondPath_fields game
  refine ⟨hwn, ?_⟩
  have hend : endWave (activateSecondPath game) = activateSecondPath game := by
    unfold endWave
    rw [if_neg]
    rintro ⟨_, _, hq⟩
    rw [a5, a10, if_pos ⟨h10, hf⟩, hb, hwn] at hq
    omega
  unfold UpdateWave
  rw [hend, waveCountdown_of_active _ dt (a1.trans j3)]

/-- Without a reset, a run keeps the second path active once it is. -/
theorem run_flag_kept (sqrtf : ℚ → ℚ) (events : List Event) (game : Game)
    (hf : game.secondPathActive = true) (hr : Event.reset ∉ events) :
    (run sqrtf game events).secondPathActive = true := by
  induction events generalizing game with
  | nil => exact hf
  | cons event rest ih =>
    have hrest : Event.reset ∉ rest := fun hm => hr (List.mem_cons_of_mem _ hm)
    refine ih (step sqrtf game event) ?_ hrest
    cases event with
    | input i =>
      exact ((waveState_fields _ _ (HandleInput_frame sqrtf game i).1).2.2.2.1).trans hf
    | update dt =>
      by_cases hg : game.pause = true ∨ game.gameOver = true
      · have hU : UpdateGame sqrtf game dt = game := by
          unfold UpdateGame
          rw [if_pos hg]
        show (UpdateGame sqrtf game dt).secondPathActive = true
        rw [hU]
        exact hf
      · show (UpdateGame sqrtf game dt).secondPathActive = true
        rw [(waveState_fields _ _ (UpdateGame_wave sqrtf game dt hg)).2.2.2.1,
          (SpawnEnemies_wave _ dt).1, (UpdateWave_wave game dt).1, hf]
        rfl
    | reset => exact absurd (List.mem_cons_self _ _) hr

theorem UpdateGame_flag (sqrtf : ℚ → ℚ) (game : Game) (dt : ℚ) :
    (game.secondPathActive = true → (UpdateGame sqrtf game dt).secondPathActive = true)
    ∧ (game.waveNumber < 10 → game.secondPathActive = false →
        (UpdateGame sqrtf game dt).secondPathActive = false) := by
  by_cases hg : game.pause = true ∨ game.gameOver = true
  · have hU : UpdateGame sqrtf game dt = game := by
      unfold UpdateGame
      rw [if_pos hg]
    rw [hU]
    exact ⟨fun h => h, fun _ h => h⟩
  · have hE : (UpdateGame sqrtf game dt).secondPathActive
        = (game.secondPathActive || decide (game.waveNumber ≥ 10)) := by
      rw [(waveState_fields _ _ (UpdateGame_wave sqrtf game dt hg)).2.2.2.1,
        (SpawnEnemies_wave _ dt).1, (UpdateWave_wave game dt).1]
    rw [hE]
    refine ⟨fun h => ?_, fun h10 h => ?_⟩
    · rw [h]
      rfl
    · rw [h]
      simp only [Bool.false_or, decide_eq_false_iff_not, not_le]
      exact h10

/-- The play `playToWaveTen` ends in wave 10 with the wave running, one enemy spawned, the
quota 60 and the second path off; the next frame turns the second path on with the quota 70. -/
theorem playToWaveTen_reaches :
    waveState (run sqrtMicro initialGame playToWaveTen) = (10, true, 1, false, 15, 60)
    ∧ waveState (UpdateGame sqrtMicro (run sqrtMicro initialGame playToWaveTen) (1 / 60))
        = (10, true, 1, true, 15, 70) := by
  decide!

/-- C22: a call of `UpdateWave` made with `waveNumber >= 10` and `secondPathActive = false`
sets `secondPathActive` to true; its activation block sets `maxEnemies` to
`baseEnemiesPerWave + (waveNumber - 1) * 5 + 10`, and after the call `maxEnemies` is that
formula on the fields after the call, which is the formula on the wave number before the call
whenever the call does not also start the next wave. In every state of a run from the state
after `InitializeGame` (inputs, frames and resets in any order) in which the activation is
due, the call is the activation block alone: the wave number stays 10 and `maxEnemies`
becomes 15 + 9 * 5 + 10. With `secondPathActive` already true the activation block changes
nothing, and `UpdateWave`, `SpawnEnemies`, `UpdateTargets`, `UpdateFences`, `UpdateTowers`,
`UpdateMissiles`, `UpdateGame`, `HandleInput` and every run without a reset leave it true;
`ResetGame` sets it to false. With `waveNumber < 10` and the flag false, the block changes
nothing and the flag is false after `UpdateWave` and after the whole frame. At the start of
wave 10 (quota 60) one call gives the flag and the quota 70, and a second call changes
nothing. Such a state is reached in the play `playToWaveTen` (every enemy of waves 1 to 9
shot at the spawn point; square roots rounded down to a millionth): at its end the wave
fields (wave number, wave running, spawned, second path, base quota, quota) are
(10, true, 1, false, 15, 60), and after the next frame (10, true, 1, true, 15, 70). -/
theorem C22_second_path_activation (sqrtf : ℚ → ℚ) (game : Game) (input : Input) (dt : ℚ)
    (events : List Event) :
    (game.waveNumber ≥ 10 → game.secondPathActive = false →
      (UpdateWave game dt).secondPathActive = true
      ∧ (activateSecondPath game).secondPathActive = true
      ∧ (activateSecondPath game).maxEnemies
          = game.baseEnemiesPerWave + (game.waveNumber - 1) * 5 + 10
      ∧ (UpdateWave game dt).maxEnemies
          = (UpdateWave game dt).baseEnemiesPerWave
            + ((UpdateWave game dt).waveNumber - 1) * 5 + 10
      ∧ ((UpdateWave game dt).waveNumber = game.waveNumber →
          (UpdateWave game dt).maxEnemies
            = game.baseEnemiesPerWave + (game.waveNumber - 1) * 5 + 10))
    ∧ ((run sqrtf initialGame events).waveNumber ≥ 10 →
        (run sqrtf initialGame events).secondPathActive = false →
        UpdateWave (run sqrtf initialGame events) dt
          = activateSecondPath (run sqrtf initialGame events)
        ∧ (UpdateWave (run sqrtf initialGame events) dt).waveNumber = 10
        ∧ (run sqrtf initialGame events).waveNumber = 10
        ∧ (UpdateWave (run sqrtf initialGame events) dt).secondPathActive = true
        ∧ (UpdateWave (run sqrtf initialGame events) dt).maxEnemies = 15 + (10 - 1) * 5 + 10)
    ∧ (game.secondPathActive = true →
        activateSecondPath game = game
        ∧ UpdateWave game dt = waveCountdown (endWave game) dt
        ∧ (UpdateWave game dt).secondPathActive = true
        ∧ (SpawnEnemies game dt).secondPathActive = true
        ∧ (UpdateTargets sqrtf game dt).secondPathActive = true
        ∧ (UpdateFences game).secondPathActive = true
        ∧ (UpdateTowers sqrtf game dt).secondPathActive = true
        ∧ (UpdateMissiles sqrtf game dt).secondPathActive = true
        ∧ (UpdateGame sqrtf game dt).secondPathActive = true
        ∧ (HandleInput sqrtf game input).secondPathActive = true
        ∧ (Event.reset ∉ events → (run sqrtf game events).secondPathActive = true))
    ∧ (ResetGame game).secondPathActive = false
    ∧ (game.waveNumber < 10 → game.secondPathActive = false →
        activateSecondPath game = game
        ∧ (UpdateWave game dt).secondPathActive = false
        ∧ (UpdateGame sqrtf game dt).secondPathActive = false)
    ∧ waveTenStart.waveNumber = 10 ∧ waveTenStart.secondPathActive = false
    ∧ waveTenStart.maxEnemies = 60
    ∧ (UpdateWave waveTenStart (1 / 60)).secondPathActive = true
    ∧ (UpdateWave waveTenStart (1 / 60)).maxEnemies = 70
    ∧ UpdateWave (UpdateWave waveTenStart (1 / 60)) (1 / 60)
        = UpdateWave waveTenStart (1 / 60)
    ∧ waveState (run sqrtMicro initialGame playToWaveTen) = (10, true, 1, false, 15, 60)
    ∧ waveState (UpdateGame sqrtMicro (run sqrtMicro initialGame playToWaveTen) (1 / 60))
        = (10, true, 1, true, 15, 70) := by
  obtain ⟨a1, a2, _, _, _, _, _, a8, a9, a10⟩ := activateSecondPath_fields game
  obtain ⟨u1, u2, u3⟩ := UpdateWave_wave game dt
  refine ⟨?_, ?_, ?_, rfl, ?_, rfl, rfl, rfl, by decide!, by decide!, by decide!,
    playToWaveTen_reaches.1, playToWaveTen_reaches.2⟩
  · intro h10 hf
    have hflag : (UpdateWave game dt).secondPathActive = true := by
      rw [u1, hf]
      simp only [Bool.false_or, decide_eq_true_eq]
      exact h10
    have hblock : (activateSecondPath game).maxEnemies
        = game.baseEnemiesPerWave + (game.waveNumber - 1) * 5 + 10 := by
      rw [a10, if_pos ⟨h10, hf⟩]
    have hb : (activateSecondPath game).secondPathActive = true := by
      rw [a9, hf]
      simp only [Bool.false_or, decide_eq_true_eq]
      exact h10
    refine ⟨hflag, hb, hblock, ?_, ?_⟩
    · rcases u3 with ⟨d1, d2, _, _⟩ | ⟨_, d2, _, _⟩
      · rw [d2, hblock, u2, d1]
      · rw [d2, if_pos hflag, u2]
    · intro hsame
      rcases u3 with ⟨_, d2, _, _⟩ | ⟨d1, _, _, _⟩
      · rw [d2, hblock]
      · omega
  · intro h10 hf
    have hinv := run_wave sqrtf events initialGame initialGame_wave
    obtain ⟨hwn, hU⟩ := UpdateWave_due (run sqrtf initialGame events) dt hinv h10 hf
    obtain ⟨_, b2, _, _, _, _, _, _, b9, b10⟩ :=
      activateSecondPath_fields (run sqrtf initialGame events)
    rw [hU]
    refine ⟨rfl, b2.trans hwn, hwn, ?_, ?_⟩
    · rw [b9, hf]
      simp only [Bool.false_or, decide_eq_true_eq]
      exact h10
    · rw [b10, if_pos ⟨h10, hf⟩, hinv.1, hwn]
  · intro hf
    have hA : activateSecondPath game = game := by
      unfold activateSecondPath
      rw [if_neg]
      rintro ⟨_, h⟩
      rw [hf] at h
      exact Bool.noConfusion h
    refine ⟨hA, ?_, ?_, (SpawnEnemies_wave game dt).1.trans hf, ?_, hf, hf, hf,
      (UpdateGame_flag sqrtf game dt).1 hf, ?_, run_flag_kept sqrtf events game hf⟩
    · unfold UpdateWave
      rw [hA]
    · rw [u1, hf]
      rfl
    · exact ((waveState_fields _ _ (UpdateTargets_frame sqrtf game dt).2.2.1).2.2.2.1).trans hf
    · exact ((waveState_fields _ _ (HandleInput_frame sqrtf game input).1).2.2.2.1).trans hf
  · intro h10 hf
    refine ⟨?_, ?_, (UpdateGame_flag sqrtf game dt).2 h10 hf⟩
    · unfold activateSecondPath
      rw [if_neg]
      rintro ⟨h, _⟩
      omega
    · rw [u1, hf]
      simp only [Bool.false_or, decide_eq_false_iff_not, not_le]
      exact h10

/-! ## Coins -/

theorem isqrtIter_eq (n : Nat) (fuel guess : Nat) (h : guess ≤ fuel) :
    isqrtIter n fuel guess = Nat.sqrt.iter n guess := by
  induction fuel generalizing guess with
  | zero =>
    have hg : guess = 0 := Nat.le_zero.mp h
    subst hg
    unfold Nat.sqrt.iter
    simp [isqrtIter]
  | succ fuel ih =>
    unfold Nat.sqrt.iter
    simp only [isqrtIter]
    by_cases hn : (guess + n / guess) / 2 < guess
    · rw [if_pos hn, dif_pos hn]
      exact ih _ (by omega)
    · rw [if_neg hn, dif_neg hn]

/-- `isqrt` is the integer square root: the largest natural number whose square is at
most `n`. -/
theorem isqrt_spec (n : Nat) : isqrt n * isqrt n ≤ n ∧ n < (isqrt n + 1) * (isqrt n + 1) := by
  unfold isqrt
  split_ifs with h
  · have h01 : n = 0 ∨ n = 1 := by omega
    rcases h01 with h0 | h1
    · subst h0
      exact ⟨by decide, by decide⟩
    · subst h1
      exact ⟨by decide, by decide⟩
  · rw [isqrtIter_eq n n n (le_refl n)]
    refine ⟨Nat.sqrt.iter_sq_le n n, Nat.sqrt.lt_iter_succ_sq n n ?_⟩
    nlinarith

/-- `sqrtMicro q` is the square root of `q` rounded down to a multiple of one millionth. -/
theorem sqrtMicro_spec (q : ℚ) (hq : 0 ≤ q) :
    0 ≤ sqrtMicro q
    ∧ sqrtMicro q * sqrtMicro q ≤ q
    ∧ q < (sqrtMicro q + 1 / 1000000) * (sqrtMicro q + 1 / 1000000) := by
  have hfloor : Rat.floor (q * 1000000000000) = ⌊q * 1000000000000⌋ := rfl
  have h0 : (0 : ℤ) ≤ ⌊q * 1000000000000⌋ := Int.floor_nonneg.mpr (by positivity)
  obtain ⟨s1, s2⟩ := isqrt_spec (⌊q * 1000000000000⌋).toNat
  have hm : (((⌊q * 1000000000000⌋).toNat : ℤ) : ℚ) = ((⌊q * 1000000000000⌋ : ℤ) : ℚ) := by
    rw [Int.toNat_of_nonneg h0]
  have hle : ((⌊q * 1000000000000⌋ : ℤ) : ℚ) ≤ q * 1000000000000 := Int.floor_le _
  have hlt : q * 1000000000000 < ((⌊q * 1000000000000⌋ : ℤ) : ℚ) + 1 := Int.lt_floor_add_one _
  have e : sqrtMicro q = (isqrt (⌊q * 1000000000000⌋).toNat : ℚ) / 1000000 := by
    unfold sqrtMicro
    rw [hfloor]
  have c1 : ((isqrt (⌊q * 1000000000000⌋).toNat : ℚ)) * (isqrt (⌊q * 1000000000000⌋).toNat : ℚ)
      ≤ (((⌊q * 1000000000000⌋).toNat : ℕ) : ℚ) := by exact_mod_cast s1
  have c2 : ((((⌊q * 1000000000000⌋).toNat : ℕ) : ℚ)) + 1
      ≤ ((isqrt (⌊q * 1000000000000⌋).toNat : ℚ) + 1)
        * ((isqrt (⌊q * 1000000000000⌋).toNat : ℚ) + 1) := by
    have : (⌊q * 1000000000000⌋).toNat + 1
        ≤ (isqrt (⌊q * 1000000000000⌋).toNat + 1) * (isqrt (⌊q * 1000000000000⌋).toNat + 1) := s2
    exact_mod_cast this
  have hm2 : ((((⌊q * 1000000000000⌋).toNat : ℕ) : ℚ)) = ((⌊q * 1000000000000⌋ : ℤ) : ℚ) := by
    exact_mod_cast hm
  rw [hm2] at c1 c2
  have hs : (0 : ℚ) ≤ (isqrt (⌊q * 1000000000000⌋).toNat : ℚ) := Nat.cast_nonneg _
  rw [e]
  generalize (isqrt (⌊q * 1000000000000⌋).toNat : ℚ) = s at *
  generalize ((⌊q * 1000000000000⌋ : ℤ) : ℚ) = m at *
  refine ⟨by positivity, ?_, ?_⟩
  · have : s / 1000000 * (s / 1000000) = s * s / 1000000000000 := by ring
    rw [this, div_le_iff₀ (by norm_num)]
    linarith
  · have : (s / 1000000 + 1 / 1000000) * (s / 1000000 + 1 / 1000000)
        = (s + 1) * (s + 1) / 1000000000000 := by ring
    rw [this, lt_div_iff₀ (by norm_num)]
    linarith

/-! ## C24: fence slots -/

theorem newFence_slot (towerCount a b : Int) (h : Int.tmod a 4 = Int.tmod b 4) :
    newFence towerCount a = newFence towerCount b := by
  unfold newFence
  simp only
  rw [h]

/-- C24: a fence purchase that passes its three tests appends the fence of slot
`fenceCount mod 4` (the new fence depends on `fenceCount` through that remainder only) and
adds one to `fenceCount`; in every state reached from a reset state `fenceCount` is the size
of the fence collection and every fence of the collection is active, so the slot is the
number of live fences modulo 4, whatever slots these occupy. A state with two equal active
fences is reached in the play `duplicateFenceEvents` (square roots rounded down to a
millionth), from the state after `InitializeGame` and from its reset state: after the four
tower and two fence purchases the fences are those of slots 0 and 1 with `fenceCount = 2`,
after the four frames only the slot-1 fence is left with `fenceCount = 1`, and the next
purchase appends the slot-1 fence again: two active fences with identical start and end
points. The square root of the play is within one millionth below the true one. -/
theorem C24_fence_slot_reuse (sqrtf : ℚ → ℚ) (game game0 : Game) (events : List Event) :
    (game.coins ≥ 20 → game.towerCount = 4 → game.fenceCount < 4 →
      (buildFence game).fences = game.fences ++ [newFence 4 game.fenceCount]
      ∧ (buildFence game).fenceCount = game.fenceCount + 1)
    ∧ (∀ towerCount a b : Int, Int.tmod a 4 = Int.tmod b 4 →
        newFence towerCount a = newFence towerCount b)
    ∧ (run sqrtf (ResetGame game0) events).fenceCount
        = ((run sqrtf (ResetGame game0) events).fences.length : Int)
    ∧ (∀ f ∈ (run sqrtf (ResetGame game0) events).fences, f.fenceActive = true)
    ∧ (run sqrtMicro initialGame (duplicateFenceEvents.take 6)).towerCount = 4
    ∧ (run sqrtMicro initialGame (duplicateFenceEvents.take 6)).fences
        = [newFence 4 0, newFence 4 1]
    ∧ (run sqrtMicro initialGame (duplicateFenceEvents.take 6)).fenceCount = 2
    ∧ (run sqrtMicro initialGame (duplicateFenceEvents.take 10)).fences = [newFence 4 1]
    ∧ (run sqrtMicro initialGame (duplicateFenceEvents.take 10)).fenceCount = 1
    ∧ (run sqrtMicro initialGame duplicateFenceEvents).fences = [newFence 4 1, newFence 4 1]
    ∧ (run sqrtMicro initialGame duplicateFenceEvents).fenceCount = 2
    ∧ (run sqrtMicro (ResetGame initialGame) duplicateFenceEvents).fences
        = [newFence 4 1, newFence 4 1]
    ∧ (newFence 4 1).fenceActive = true
    ∧ (newFence 4 0).startPos = ⟨-3, 1 / 10, -2⟩ ∧ (newFence 4 0).endPos = ⟨-3, 1 / 10, 2⟩
    ∧ (newFence 4 1).startPos = ⟨45 / 13, 1 / 10, -2⟩
    ∧ (newFence 4 1).endPos = ⟨45 / 13, 1 / 10, 2⟩
    ∧ (∃ (evs : List Event) (i j : Nat) (a b : Fence),
        i < j
        ∧ (run sqrtMicro initialGame evs).fences.get? i = some a
        ∧ (run sqrtMicro initialGame evs).fences.get? j = some b
        ∧ a.fenceActive = true ∧ b.fenceActive = true
        ∧ a.startPos = b.startPos ∧ a.endPos = b.endPos)
    ∧ (∀ q : ℚ, 0 ≤ q →
        0 ≤ sqrtMicro q ∧ sqrtMicro q * sqrtMicro q ≤ q
        ∧ q < (sqrtMicro q + 1 / 1000000) * (sqrtMicro q + 1 / 1000000)) := by
  have hs := run_sound sqrtf events (ResetGame game0) (ResetGame_sound game0)
  have hplay : (run sqrtMicro initialGame (duplicateFenceEvents.take 6)).towerCount = 4
      ∧ (run sqrtMicro initialGame (duplicateFenceEvents.take 6)).fences
          = [newFence 4 0, newFence 4 1]
      ∧ (run sqrtMicro initialGame (duplicateFenceEvents.take 6)).fenceCount = 2
      ∧ (run sqrtMicro initialGame (duplicateFenceEvents.take 10)).fences = [newFence 4 1]
      ∧ (run sqrtMicro initialGame (duplicateFenceEvents.take 10)).fenceCount = 1
      ∧ (run sqrtMicro initialGame duplicateFenceEvents).fences = [newFence 4 1, newFence 4 1]
      ∧ (run sqrtMicro initialGame duplicateFenceEvents).fenceCount = 2
      ∧ (run sqrtMicro (ResetGame initialGame) duplicateFenceEvents).fences
          = [newFence 4 1, newFence 4 1] := by decide!
  obtain ⟨p1, p2, p3, p4, p5, hfinal, p7, p8⟩ := hplay
  refine ⟨?_, fun t a b h => newFence_slot t a b h, hs.2.2, fun f hf => (hs.2.1 f hf).1,
    p1, p2, p3, p4, p5, hfinal, p7, p8,
    rfl, by decide!, by decide!, by decide!, by decide!, ?_, sqrtMicro_spec⟩
  · intro hc ht hf
    unfold buildFence
    rw [if_pos ⟨hc, ht, hf⟩, ht]
    exact ⟨rfl, rfl⟩
  · refine ⟨duplicateFenceEvents, 0, 1, newFence 4 1, newFence 4 1, by decide, ?_, ?_,
      rfl, rfl, rfl, rfl⟩
    · rw [hfinal]
      rfl
    · rw [hfinal]
      rfl

end Kingshot
